import Mathlib

/-!
# Certificate authentication handshake codec (`auth_cert.c`)

A shallow embedding of the Certificate, CertificateRequest and
CertificateVerify message encoders and decoders and of the certificate
selection of `src/daemon/https/tls/auth_cert.c`, and of the master secret
derivation and the functions sending and receiving these messages of
`src/daemon/https/tls/gnutls_kx.c`, with the properties of the wire format, of
the selection, of the derivation and of the message flow proved about the
embedded functions.

Modelling conventions.

* A buffer (a byte pointer together with its size) is a `List UInt8`; a pointer
  into it is an offset of type `Nat`.  A read outside the buffer is visible
  in the model: the reading helpers return `none` and the function that
  performed the read ends in `Outcome.fault`.
* C `int`, `ssize_t` and `size_t` counters of in-memory byte counts are
  `Int` (they may become negative after `DECR_LEN`); a number is narrowed
  exactly where the code stores it into a fixed-width wire field
  (`% 256` per byte written).
* A function returning a negative error code ends in `Outcome.fail`; the
  named codes are the constructors of `ErrorCode`.
* A buffer written front to back through an advancing pointer is the list
  of the bytes written, in order.
-/

namespace AuthCert

/-! ## Data model -/

/-- The byte strings handled by the codec (`gnutls_datum_t`: `data`, `size`). -/
abbrev Bytes := List UInt8

/-- Error codes returned by the functions of `auth_cert.c`; each stands for the
negative `GNUTLS_E_*` constant of the same name. -/
inductive ErrorCode where
  | GNUTLS_E_UNEXPECTED_PACKET_LENGTH
  | GNUTLS_E_NO_CERTIFICATE_FOUND
  | GNUTLS_E_INSUFFICIENT_CREDENTIALS
  | GNUTLS_E_MEMORY_ERROR
  | GNUTLS_E_INTERNAL_ERROR
  | GNUTLS_E_UNKNOWN_PK_ALGORITHM
  | GNUTLS_E_INVALID_REQUEST
  /-- the code that `mhd_gtls_asn2err` gives for an error of the ASN.1 decoder -/
  | GNUTLS_E_ASN1_GENERIC_ERROR
  /-- the code of a signature that does not verify (`SignatureInvalid` in
  section 7 of the specification) -/
  | GNUTLS_E_PK_SIG_VERIFY_FAILED
  /-- the code with which `mhd_gtls_recv_handshake` reports a warning alert -/
  | GNUTLS_E_WARNING_ALERT_RECEIVED
  /-- the code with which `mhd_gtls_recv_handshake` reports a fatal alert -/
  | GNUTLS_E_FATAL_ALERT_RECEIVED
  deriving DecidableEq

/-- How a call of a modelled C function ends. -/
inductive Outcome (α : Type) where
  /-- normal completion with a non-negative result -/
  | done (a : α)
  /-- return of a negative error code -/
  | fail (e : ErrorCode)
  /-- an access outside of an object (undefined behaviour in C) -/
  | fault
  /-- the iteration budget given to a loop of the model was used up -/
  | timeout
  deriving DecidableEq

/-- The connection end (`session->security_parameters.entity`). -/
inductive Entity where
  | GNUTLS_SERVER
  | GNUTLS_CLIENT
  deriving DecidableEq

/-- The certificate type (`enum MHD_GNUTLS_CertificateType`). -/
inductive CertificateType where
  | MHD_GNUTLS_CRT_UNKNOWN
  | MHD_GNUTLS_CRT_X509
  deriving DecidableEq

/-- The protocol version (`enum MHD_GNUTLS_Protocol`). -/
inductive Protocol where
  | MHD_GNUTLS_SSL3
  | MHD_GNUTLS_TLS1_0
  | MHD_GNUTLS_TLS1_1
  | MHD_GNUTLS_TLS1_2
  | MHD_GNUTLS_VERSION_UNKNOWN
  deriving DecidableEq

/-- A certificate of a chain (`gnutls_cert`); `raw` is its DER encoding,
`subject_pk_algorithm` a value of `enum MHD_GNUTLS_PublicKeyAlgorithm`. -/
structure gnutls_cert where
  raw : Bytes
  subject_pk_algorithm : Int := 0
  cert_type : CertificateType := CertificateType.MHD_GNUTLS_CRT_X509
  deriving DecidableEq

/-- A private key (`gnutls_privkey`), identified by a handle. -/
structure gnutls_privkey where
  handle : Nat
  deriving DecidableEq

/-- A parsed certificate handed over by a selection callback
(`gnutls_x509_crt_t`), identified by a handle. -/
structure gnutls_x509_crt_t where
  handle : Nat
  deriving DecidableEq

/-- A parsed private key handed over by a selection callback
(`gnutls_x509_privkey_t`), identified by a handle. -/
structure gnutls_x509_privkey_t where
  handle : Nat
  deriving DecidableEq

/-- The answer of a selection callback (`gnutls_retr_st`); `cert_x509` and
`key_x509` are the pointers `cert.x509` and `key.x509` (`none` for `NULL`). -/
structure gnutls_retr_st where
  type : CertificateType
  ncerts : Nat
  cert_x509 : Option (List gnutls_x509_crt_t)
  key_x509 : Option gnutls_x509_privkey_t
  deinit_all : Nat

/-- One entry of the credential store: the chain `cred->cert_list[i]`, whose
length is `cred->cert_list_length[i]`, and the key `cred->pkey[i]`. -/
structure cred_entry where
  cert_list : List gnutls_cert
  pkey : gnutls_privkey
  deriving DecidableEq

/-- The certificate credentials (`mhd_gtls_cert_credentials_t`):
`x509_rdn_sequence` is the cached issuer sequence; `entries` stands for the
arrays `cert_list`, `cert_list_length` and `pkey`, of length `ncerts`; the
callbacks are `none` for a `NULL` function pointer.  A callback is a function
of the arguments the code hands to it (for the client the issuer names and the
public-key algorithms) and gives its return value and the `gnutls_retr_st` it
filled in. -/
structure cert_credentials where
  x509_rdn_sequence : Bytes
  entries : List cred_entry := []
  client_get_cert_callback : Option (List Bytes → List Int → Int × gnutls_retr_st) := none
  server_get_cert_callback : Option (Int × gnutls_retr_st) := none

/-- Whether an optional value is present can be decided without comparing
values. -/
instance decidable_ne_none {α : Type} (o : Option α) : Decidable (o ≠ none) :=
  match o with
  | none => isFalse (fun h => h rfl)
  | some _ => isTrue (fun h => Option.noConfusion h)

/-- The certificate authentication information of the peer
(`cert_auth_info_t`): the array `raw_certificate_list` and its length
`ncerts`. -/
structure cert_auth_info where
  raw_certificate_list : List Bytes
  ncerts : Nat
  deriving DecidableEq

/-- A call of a release function made by `mhd_gtls_selected_certs_deinit`. -/
inductive ReleaseCall where
  /-- the call `mhd_gtls_gcert_deinit (&selected_cert_list[i])`; `none` when
  the element is outside the array -/
  | gcert_deinit (cert : Option gnutls_cert)
  /-- the call `gnutls_free (selected_cert_list)` -/
  | free_cert_list (list : Option (List gnutls_cert))
  /-- the call `mhd_gtls_gkey_deinit (selected_key)` -/
  | gkey_deinit (key : Option gnutls_privkey)
  /-- the call `gnutls_free (selected_key)` -/
  | free_key (key : gnutls_privkey)
  deriving DecidableEq

/-- The values of `session->internals.resumed` (`resumable_session_t`). -/
inductive ResumableSession where
  | RESUME_TRUE
  | RESUME_FALSE
  deriving DecidableEq

/-- The fields of `mhd_gtls_session_t` read by the codec.  `cred` is the result
of `mhd_gtls_get_cred (session->key, MHD_GNUTLS_CRD_CERTIFICATE, NULL)`
(`none` for `NULL`); `selected_cert_list` is a pointer to an array of
certificates (`none` for `NULL`); `certificate_requested` is
`session->key->certificate_requested`; `auth_info` is the result of
`mhd_gtls_get_auth_info (session)` (`none` for `NULL`).  The fields
`client_random`, `server_random`, `master_secret` and `inner_secret` are the
arrays of `session->security_parameters` (of 32, 32, 48 and 48 bytes),
`oprfi_client` and `oprfi_server` the blobs of
`session->security_parameters.extensions` with their lengths
`oprfi_client_len` and `oprfi_server_len`, and `PREMASTER` the datum
`session->key->key`; `send_cert_req` and `resumed` are the fields of
`session->internals` of these names.  The field `released` is ghost state: it
records, in order, the release calls that `mhd_gtls_selected_certs_deinit`
made on the selection of the session. -/
structure Session where
  entity : Entity
  cert_type : CertificateType
  version : Protocol
  ignore_rdn_sequence : Int
  cred : Option cert_credentials
  selected_cert_list : Option (List gnutls_cert)
  selected_cert_list_length : Int
  selected_key : Option gnutls_privkey
  selected_need_free : Int
  certificate_requested : Int := 0
  auth_info : Option cert_auth_info := none
  client_random : Bytes := []
  server_random : Bytes := []
  master_secret : Bytes := []
  inner_secret : Bytes := []
  oprfi_client : Bytes := []
  oprfi_server : Bytes := []
  PREMASTER : Bytes := []
  send_cert_req : Int := 0
  resumed : ResumableSession := ResumableSession.RESUME_FALSE
  released : List ReleaseCall := []

/-! ## Number and datum helpers (`gnutls_num.c`, `gnutls_datum.c`) -/

/-- Modelled from the spec: `mhd_gtls_write_uint24` of `gnutls_num.c`, which is
not among the sources; it stores the low 24 bits of `num` as the 3-byte
big-endian length field of section 4.2. -/
def mhd_gtls_write_uint24 (num : Nat) : Bytes :=
  [UInt8.ofNat (num / 65536 % 256), UInt8.ofNat (num / 256 % 256), UInt8.ofNat (num % 256)]

/-- Modelled from the spec: `mhd_gtls_read_uint24` of `gnutls_num.c`, which is
not among the sources; it reads the 3-byte big-endian length field at offset
`p`.  The result is `none` when one of the three bytes is outside `data`. -/
def mhd_gtls_read_uint24 (data : Bytes) (p : Nat) : Option Nat :=
  match data.drop p with
  | b0 :: b1 :: b2 :: _ => some (b0.toNat * 65536 + b1.toNat * 256 + b2.toNat)
  | _ => none

/-- Modelled from the spec: `mhd_gtls_write_uint16` of `gnutls_num.c`, which is
not among the sources; it stores the low 16 bits of `num` as a 2-byte
big-endian length field. -/
def mhd_gtls_write_uint16 (num : Nat) : Bytes :=
  [UInt8.ofNat (num / 256 % 256), UInt8.ofNat (num % 256)]

/-- Modelled from the spec: `mhd_gtls_read_uint16` of `gnutls_num.c`, which is
not among the sources; it reads the 2-byte big-endian length field at offset
`p`, `none` when a byte is outside `data`. -/
def mhd_gtls_read_uint16 (data : Bytes) (p : Nat) : Option Nat :=
  match data.drop p with
  | b0 :: b1 :: _ => some (b0.toNat * 256 + b1.toNat)
  | _ => none

/-- Modelled from the spec: `mhd_gtls_write_datum24` of `gnutls_datum.c`, which
is not among the sources: the 3-byte length of the datum, then its bytes. -/
def mhd_gtls_write_datum24 (dat : Bytes) : Bytes :=
  mhd_gtls_write_uint24 dat.length ++ dat

/-- Modelled from the spec: `mhd_gtls_write_datum16` of `gnutls_datum.c`, which
is not among the sources: the 2-byte length of the datum, then its bytes. -/
def mhd_gtls_write_datum16 (dat : Bytes) : Bytes :=
  mhd_gtls_write_uint16 dat.length ++ dat

/-- Modelled from the spec: the `DECR_LEN (len, x)` macro of `gnutls_int.h`,
which is not among the sources: `len -= x`, and when the new `len` is negative
the enclosing function returns `GNUTLS_E_UNEXPECTED_PACKET_LENGTH`.  The result
is the new `len`, or `none` for that return. -/
def DECR_LEN (len : Int) (x : Int) : Option Int :=
  if len - x < 0 then none else some (len - x)

/-! ## Certificate message encoder -/

/-- The function `mhd_gtls_get_selected_cert` (lines 1095-1132): the selected
list, its length and the key; on a server an empty or `NULL` list is
`GNUTLS_E_INSUFFICIENT_CREDENTIALS`. -/
def mhd_gtls_get_selected_cert (session : Session) :
    Outcome (Option (List gnutls_cert) × Int × Option gnutls_privkey) :=
  match session.entity with
  | Entity.GNUTLS_SERVER =>
    if session.selected_cert_list_length = 0 ∨ session.selected_cert_list = none then
      Outcome.fail ErrorCode.GNUTLS_E_INSUFFICIENT_CREDENTIALS
    else
      Outcome.done (session.selected_cert_list, session.selected_cert_list_length,
        session.selected_key)
  | Entity.GNUTLS_CLIENT =>
    Outcome.done (session.selected_cert_list, session.selected_cert_list_length,
      session.selected_key)

/-- The element `apr_cert_list[i]`; `none` when the pointer is `NULL` or `i` is
outside the array. -/
def cert_at (apr_cert_list : Option (List gnutls_cert)) (i : Nat) : Option gnutls_cert :=
  match apr_cert_list with
  | none => none
  | some arr => arr.get? i

/-- The size loop of `mhd_gtls_gen_x509_crt` (lines 570-575), for the `k`
iterations that remain from index `i`:
`ret += apr_cert_list[i].raw.size + 3`. -/
def gen_x509_crt_size (apr_cert_list : Option (List gnutls_cert)) :
    Nat → Nat → Int → Option Int
  | 0, _, ret => some ret
  | k + 1, i, ret =>
    match cert_at apr_cert_list i with
    | none => none
    | some c => gen_x509_crt_size apr_cert_list k (i + 1) (ret + (c.raw.length + 3))

/-- The write loop of `mhd_gtls_gen_x509_crt` (lines 596-600), for the `k`
iterations that remain from index `i`; `pdata` holds the bytes written so far:
`mhd_gtls_write_datum24 (pdata, apr_cert_list[i].raw)` and
`pdata += 3 + apr_cert_list[i].raw.size`. -/
def gen_x509_crt_write (apr_cert_list : Option (List gnutls_cert)) :
    Nat → Nat → Bytes → Option Bytes
  | 0, _, pdata => some pdata
  | k + 1, i, pdata =>
    match cert_at apr_cert_list i with
    | none => none
    | some c => gen_x509_crt_write apr_cert_list k (i + 1) (pdata ++ mhd_gtls_write_datum24 c.raw)

/-- The function `mhd_gtls_gen_x509_crt` (lines 550-603).  `malloc_ok` tells
whether `gnutls_malloc (ret)` returns a buffer.  The result is the returned
size `ret` and the bytes written to `*data`. -/
def mhd_gtls_gen_x509_crt (malloc_ok : Bool) (session : Session) : Outcome (Int × Bytes) :=
  match mhd_gtls_get_selected_cert session with
  | Outcome.fail e => Outcome.fail e
  | Outcome.fault => Outcome.fault
  | Outcome.timeout => Outcome.timeout
  | Outcome.done (apr_cert_list, apr_cert_list_length, _) =>
    match gen_x509_crt_size apr_cert_list apr_cert_list_length.toNat 0 3 with
    | none => Outcome.fault
    | some ret =>
      if malloc_ok = false then Outcome.fail ErrorCode.GNUTLS_E_MEMORY_ERROR
      else
        match gen_x509_crt_write apr_cert_list apr_cert_list_length.toNat 0
            (mhd_gtls_write_uint24 (ret - 3).toNat) with
        | none => Outcome.fault
        | some out => Outcome.done (ret, out)

/-! ## Certificate message decoder -/

/-- The collaborators of `mhd_gtls_proc_x509_server_certificate` and of
`_gnutls_copy_certificate_auth_info` that are outside `auth_cert.c`.  For the
functions returning an `int` status, `none` is a non-negative return and
`some e` the error code returned. -/
structure CertExternals where
  /-- the call `mhd_gtls_auth_info_set (session, MHD_GNUTLS_CRD_CERTIFICATE, ..., 1)` -/
  auth_info_set : Option ErrorCode
  /-- whether `gnutls_malloc` returns a buffer -/
  malloc_ok : Bool
  /-- the call `mhd_gtls_x509_raw_cert_to_gcert (&peer_certificate_list[j], &tmp, ...)`,
  as a function of the bytes of `tmp` -/
  raw_cert_to_gcert : Bytes → Option ErrorCode
  /-- the certificate that a successful call of the converter stores in
  `peer_certificate_list[j]` for the bytes of `tmp`; with the flag
  `CERT_ONLY_EXTENSIONS` its `raw` is the DER export of the parsed certificate
  (`MHD_gtls_x509_crt_to_gcert`, `gnutls_cert.c` lines 584-669) -/
  gcert_of : Bytes → gnutls_cert
  /-- whether `gnutls_calloc` in `_gnutls_copy_certificate_auth_info` returns
  an array -/
  calloc_ok : Bool
  /-- the call `_gnutls_set_datum (&info->raw_certificate_list[i], data, size)`
  of `gnutls_datum.c`, as a function of the bytes to copy -/
  set_datum : Bytes → Option ErrorCode
  /-- the call `_gnutls_check_key_usage (&peer_certificate_list[0], ...)`; the
  argument is `none` when the list has no first element -/
  check_key_usage : Option Bytes → Option ErrorCode

/-- The `size` bytes of `data` that start at offset `p` (the datum `tmp` with
`tmp.data = p`, `tmp.size = size`); `none` when they are not all inside
`data`. -/
def datum_at (data : Bytes) (p size : Nat) : Option Bytes :=
  if p + size ≤ data.length then some ((data.drop p).take size) else none

/-- The first pass of `mhd_gtls_proc_x509_server_certificate`, the loop
`while (i > 0)` of lines 693-702, run for at most `fuel` iterations.  The state
is `dsize`, the pointer `p`, the counter `i` and `peer_certificate_list_size`.
The list `seen` is ghost state: it records, for each entry stepped over, the
offset of its payload and its declared length; the C code keeps only the
number of entries. -/
def proc_x509_count (data : Bytes) :
    Nat → Int → Nat → Int → Nat → List (Nat × Nat) → Outcome (Nat × List (Nat × Nat))
  | 0, _, _, i, peer_certificate_list_size, seen =>
    if i > 0 then Outcome.timeout else Outcome.done (peer_certificate_list_size, seen)
  | fuel + 1, dsize, p, i, peer_certificate_list_size, seen =>
    if i > 0 then
      match DECR_LEN dsize 3 with
      | none => Outcome.fail ErrorCode.GNUTLS_E_UNEXPECTED_PACKET_LENGTH
      | some dsize1 =>
        match mhd_gtls_read_uint24 data p with
        | none => Outcome.fault
        | some len =>
          match DECR_LEN dsize1 len with
          | none => Outcome.fail ErrorCode.GNUTLS_E_UNEXPECTED_PACKET_LENGTH
          | some dsize2 =>
            proc_x509_count data fuel dsize2 (p + 3 + len) (i - (len + 3))
              (peer_certificate_list_size + 1) (seen ++ [(p + 3, len)])
    else Outcome.done (peer_certificate_list_size, seen)

/-- The second pass of `mhd_gtls_proc_x509_server_certificate`, the loop
`for (j = 0; j < peer_certificate_list_size; j++)` of lines 732-750, for the
`k` iterations that remain with the pointer at `p`.  No `DECR_LEN` is used: the
3-byte length is read at `p` and the datum `tmp` of that length behind it is
handed to the certificate converter.  The result lists the datums `tmp` as
(offset, size). -/
def proc_x509_convert (ext : CertExternals) (data : Bytes) :
    Nat → Nat → Outcome (List (Nat × Nat))
  | 0, _ => Outcome.done []
  | k + 1, p =>
    match mhd_gtls_read_uint24 data p with
    | none => Outcome.fault
    | some len =>
      match datum_at data (p + 3) len with
      | none => Outcome.fault
      | some tmp =>
        match ext.raw_cert_to_gcert tmp with
        | some e => Outcome.fail e
        | none =>
          match proc_x509_convert ext data k (p + 3 + len) with
          | Outcome.done rest => Outcome.done ((p + 3, len) :: rest)
          | other => other

/-- The bytes of the datums listed as (offset, size). -/
def datum_bytes (data : Bytes) (tmps : List (Nat × Nat)) : List Bytes :=
  tmps.map (fun t => (data.drop t.1).take t.2)

/-- The loop of `_gnutls_copy_certificate_auth_info` (lines 79-93) for the `k`
iterations that remain from index `i`.  The test of line 81 reads
`cert->raw.size`, the size of the first certificate of the array, in every
iteration; an entry that is not set keeps the zero bytes of `gnutls_calloc`.
The result is the entries of `info->raw_certificate_list` from index `i` on,
or the error code of `_gnutls_set_datum`. -/
def copy_certificate_auth_info_loop (ext : CertExternals) (cert : List gnutls_cert) :
    Nat → Nat → Outcome (List Bytes)
  | 0, _ => Outcome.done []
  | k + 1, i =>
    match cert.get? 0 with
    | none => Outcome.fault
    | some first =>
      if first.raw.length > 0 then
        match cert.get? i with
        | none => Outcome.fault
        | some c =>
          match ext.set_datum c.raw with
          | some e => Outcome.fail e
          | none =>
            match copy_certificate_auth_info_loop ext cert k (i + 1) with
            | Outcome.done rest => Outcome.done (c.raw :: rest)
            | other => other
      else
        match copy_certificate_auth_info_loop ext cert k (i + 1) with
        | Outcome.done rest => Outcome.done ([] :: rest)
        | other => other

/-- The function `_gnutls_copy_certificate_auth_info` (lines 56-106) on the
array `cert` of `ncerts` certificates.  The result is the authentication
information `info` as the function leaves it when it returns 0: the array
`raw_certificate_list` (empty for `NULL`) and `ncerts`. -/
def _gnutls_copy_certificate_auth_info (ext : CertExternals) (cert : List gnutls_cert)
    (ncerts : Nat) : Outcome cert_auth_info :=
  if ncerts = 0 then Outcome.done { raw_certificate_list := [], ncerts := 0 }
  else if ext.calloc_ok = false then Outcome.fail ErrorCode.GNUTLS_E_MEMORY_ERROR
  else
    match copy_certificate_auth_info_loop ext cert ncerts 0 with
    | Outcome.done raw_certificate_list =>
      Outcome.done { raw_certificate_list := raw_certificate_list, ncerts := ncerts }
    | Outcome.fail e => Outcome.fail e
    | Outcome.fault => Outcome.fault
    | Outcome.timeout => Outcome.timeout

/-- The function `mhd_gtls_proc_x509_server_certificate` (lines 638-777);
`data` is `none` for a `NULL` pointer and `data_size` is the length of the
list (the callers in `gnutls_kx.c` pass an `int datasize`).  On success
(return value 0) the result is the array `info->raw_certificate_list` that
`_gnutls_copy_certificate_auth_info` stored in the authentication information
`info` of the session.  The first
pass is given `data_size` iterations; it never uses them up, since an
iteration that continues consumes at least 3 bytes (`proc_x509_returns`). -/
def mhd_gtls_proc_x509_server_certificate (ext : CertExternals) (session : Session)
    (data : Option Bytes) : Outcome (List Bytes) :=
  match session.cred with
  | none => Outcome.fail ErrorCode.GNUTLS_E_INSUFFICIENT_CREDENTIALS
  | some _ =>
    match ext.auth_info_set with
    | some e => Outcome.fail e
    | none =>
      match data with
      | none => Outcome.fail ErrorCode.GNUTLS_E_NO_CERTIFICATE_FOUND
      | some data =>
        if data.length = 0 then Outcome.fail ErrorCode.GNUTLS_E_NO_CERTIFICATE_FOUND
        else
          match DECR_LEN (data.length : Int) 3 with
          | none => Outcome.fail ErrorCode.GNUTLS_E_UNEXPECTED_PACKET_LENGTH
          | some dsize =>
            match mhd_gtls_read_uint24 data 0 with
            | none => Outcome.fault
            | some size =>
              if size = 0 ∨ size = 3 then
                Outcome.fail ErrorCode.GNUTLS_E_NO_CERTIFICATE_FOUND
              else
                match proc_x509_count data data.length dsize 3 dsize 0 [] with
                | Outcome.fail e => Outcome.fail e
                | Outcome.fault => Outcome.fault
                | Outcome.timeout => Outcome.timeout
                | Outcome.done (peer_certificate_list_size, _) =>
                  if peer_certificate_list_size = 0 then
                    Outcome.fail ErrorCode.GNUTLS_E_NO_CERTIFICATE_FOUND
                  else if ext.malloc_ok = false then
                    Outcome.fail ErrorCode.GNUTLS_E_MEMORY_ERROR
                  else
                    match proc_x509_convert ext data peer_certificate_list_size 3 with
                    | Outcome.fail e => Outcome.fail e
                    | Outcome.fault => Outcome.fault
                    | Outcome.timeout => Outcome.timeout
                    | Outcome.done tmps =>
                      match _gnutls_copy_certificate_auth_info ext
                          ((datum_bytes data tmps).map ext.gcert_of)
                          peer_certificate_list_size with
                      | Outcome.fail e => Outcome.fail e
                      | Outcome.fault => Outcome.fault
                      | Outcome.timeout => Outcome.timeout
                      | Outcome.done info =>
                        match ext.check_key_usage (datum_bytes data tmps).head? with
                        | some e => Outcome.fail e
                        | none => Outcome.done info.raw_certificate_list

/-! ## CertificateRequest message encoder -/

/-- The signature algorithm octets (`enum CertificateSigType`, line 796). -/
def RSA_SIGN : UInt8 := 1

/-- The second value of `enum CertificateSigType` (line 797). -/
def DSA_SIGN : UInt8 := 2

/-- The constant `CERTTYPE_SIZE` (line 1016). -/
def CERTTYPE_SIZE : Nat := 3

/-- The function `mhd_gtls_gen_cert_server_cert_req` (lines 1017-1085);
`malloc_ok` tells whether `gnutls_malloc (size)` returns a buffer.  The result
is the returned `size` and the bytes written to `*data`. -/
def mhd_gtls_gen_cert_server_cert_req (malloc_ok : Bool) (session : Session) :
    Outcome (Int × Bytes) :=
  match session.cred with
  | none => Outcome.fail ErrorCode.GNUTLS_E_INSUFFICIENT_CREDENTIALS
  | some cred =>
    let size0 : Int := (CERTTYPE_SIZE : Int) + 2
    let size1 : Int :=
      if session.cert_type = CertificateType.MHD_GNUTLS_CRT_X509 ∧
          session.ignore_rdn_sequence = 0 then
        size0 + cred.x509_rdn_sequence.length
      else size0
    let size : Int :=
      if session.version = Protocol.MHD_GNUTLS_TLS1_2 then size1 + 1 else size1
    if malloc_ok = false then Outcome.fail ErrorCode.GNUTLS_E_MEMORY_ERROR
    else
      let pdata0 : Bytes := [UInt8.ofNat (CERTTYPE_SIZE - 1), RSA_SIGN, DSA_SIGN]
      let pdata1 : Bytes :=
        if session.version = Protocol.MHD_GNUTLS_TLS1_2 then pdata0 ++ [0] else pdata0
      let pdata2 : Bytes :=
        if session.cert_type = CertificateType.MHD_GNUTLS_CRT_X509 ∧
            session.ignore_rdn_sequence = 0 then
          pdata1 ++ mhd_gtls_write_datum16 cred.x509_rdn_sequence
        else pdata1 ++ mhd_gtls_write_uint16 0
      Outcome.done (size, pdata2)

/-! ## Wire layout of the certificate entries -/

/-- The entries of a Certificate message body for the byte strings `cs`: for
each one, in order, its 3-byte length field and then its bytes. -/
def entries_bytes : List Bytes → Bytes
  | [] => []
  | c :: cs => mhd_gtls_write_uint24 c.length ++ c ++ entries_bytes cs

/-- The sum over the byte strings of 3 plus the length. -/
def entries_size : List Bytes → Nat
  | [] => 0
  | c :: cs => (3 + c.length) + entries_size cs

/-- The (payload offset, length) pairs of the entries of `cs` when the first
entry starts at offset `p`. -/
def entries_index (p : Nat) : List Bytes → List (Nat × Nat)
  | [] => []
  | c :: cs => (p + 3, c.length) :: entries_index (p + 3 + c.length) cs

/-- Walking the (3-byte length, payload) entries of `r` from its start, some
entry does not fit: its header is cut short, or its declared length exceeds
the bytes that remain behind the header. -/
inductive Overrun : Bytes → Prop where
  | header (r : Bytes) : 0 < r.length → r.length < 3 → Overrun r
  | payload (b0 b1 b2 : UInt8) (r : Bytes) :
      r.length < b0.toNat * 65536 + b1.toNat * 256 + b2.toNat →
      Overrun (b0 :: b1 :: b2 :: r)
  | later (b0 b1 b2 : UInt8) (r : Bytes) :
      b0.toNat * 65536 + b1.toNat * 256 + b2.toNat ≤ r.length →
      Overrun (r.drop (b0.toNat * 65536 + b1.toNat * 256 + b2.toNat)) →
      Overrun (b0 :: b1 :: b2 :: r)

/-- The session has the chain `L` selected: the length field is the length of
`L` and the list pointer refers to `L`, or is `NULL` when `L` is empty. -/
def SelectedChain (session : Session) (L : List gnutls_cert) : Prop :=
  session.selected_cert_list_length = (L.length : Int) ∧
    (session.selected_cert_list = some L ∨ (session.selected_cert_list = none ∧ L = []))

/-- The steps of `mhd_gtls_proc_x509_server_certificate` before the message is
looked at succeed: credentials are attached to the session and
`mhd_gtls_auth_info_set` returns a non-negative value. -/
def Ready (ext : CertExternals) (session : Session) : Prop :=
  session.cred ≠ none ∧ ext.auth_info_set = none

/-- The collaborators accept the certificate byte strings `cs`: the list can be
allocated, each byte string converts to a certificate whose `raw` is the byte
string itself, the array of the auth info can be allocated and each byte
string copied into it, and the key usage check of the first certificate
succeeds. -/
def Accepts (ext : CertExternals) (cs : List Bytes) : Prop :=
  ext.malloc_ok = true ∧ (∀ c ∈ cs, ext.raw_cert_to_gcert c = none) ∧
    (∀ c ∈ cs, (ext.gcert_of c).raw = c) ∧ ext.calloc_ok = true ∧
    (∀ c ∈ cs, ext.set_datum c = none) ∧ ext.check_key_usage cs.head? = none

/-- The value of the 3-byte big-endian field `b0 b1 b2`. -/
def uint24 (b0 b1 b2 : UInt8) : Nat :=
  b0.toNat * 65536 + b1.toNat * 256 + b2.toNat

/-! ## Certificate selection (`auth_cert.c`, lines 111-545 and 1134-1317) -/

/-- Modelled from the spec: the value `MHD_GNUTLS_PK_RSA` of
`enum MHD_GNUTLS_PublicKeyAlgorithm`, declared in a header that is not among
the sources; the unknown algorithm is 0 and RSA the first algorithm after
it. -/
def MHD_GNUTLS_PK_RSA : Int := 1

/-- Modelled from the spec: the constant `GNUTLS_PK_ANY` of `gnutls_int.h`,
which is not among the sources; the comment of `mhd_gtls_server_select_cert`
(line 1248) gives its value: "RSA, DSA or -1 for any". -/
def GNUTLS_PK_ANY : Int := -1

/-- The constant `MAX_SIGN_ALGOS` (line 795). -/
def MAX_SIGN_ALGOS : Nat := 2

/-- Modelled from the spec: the `DECR_LENGTH_RET (len, x, RET)` macro of
`gnutls_int.h`, which is not among the sources: `len -= x`, and when the new
`len` is negative the enclosing function returns `RET`.  The result is the new
`len`, or `none` for that return. -/
def DECR_LENGTH_RET (len : Int) (x : Int) : Option Int :=
  if len - x < 0 then none else some (len - x)

/-- Modelled from the spec: the `DECR_LENGTH_COM (len, x, COM)` macro of
`gnutls_int.h`, which is not among the sources: `len -= x`, and when the new
`len` is negative the command `COM` is executed.  The result is the new `len`,
or `none` when `COM` is executed. -/
def DECR_LENGTH_COM (len : Int) (x : Int) : Option Int :=
  if len - x < 0 then none else some (len - x)

/-- The collaborators of the selection functions that are outside
`auth_cert.c`. -/
structure SelectExternals where
  /-- the call `mhd_gtls_auth_info_set (session, MHD_GNUTLS_CRD_CERTIFICATE, ..., 0)`:
  `none` is a non-negative return, `some e` the error code returned -/
  auth_info_set : Option ErrorCode
  /-- whether `gnutls_malloc` returns a buffer -/
  malloc_ok : Bool
  /-- the ASN.1 decoding inside `_gnutls_cert_get_issuer_dn`: the bytes of the
  field `tbsCertificate.issuer` of the certificate, `none` when the decoder
  reports an error -/
  issuer_dn : gnutls_cert → Option Bytes
  /-- the call `mhd_gtls_x509_crt_to_gcert (&local_certs[i], certs[i], 0)`; `none`
  is a negative return -/
  x509_crt_to_gcert : gnutls_x509_crt_t → Option gnutls_cert
  /-- the call `_gnutls_x509_privkey_to_gkey (local_key, key)`; `none` is a
  negative return -/
  x509_privkey_to_gkey : gnutls_x509_privkey_t → Option gnutls_privkey

/-- The function `_gnutls_check_pk_algo_in_list` (lines 114-129): 0 if
`algo_to_check` is in the list, -1 otherwise. -/
def _gnutls_check_pk_algo_in_list : List Int → Int → Int
  | [], _ => -1
  | a :: pk_algos, algo_to_check =>
    if algo_to_check = a then 0 else _gnutls_check_pk_algo_in_list pk_algos algo_to_check

/-- The function `_gnutls_cert_get_issuer_dn` (lines 135-176): the issuer name
found by the ASN.1 decoder in `cert->raw`, or the error code of
`mhd_gtls_asn2err`. -/
def _gnutls_cert_get_issuer_dn (ext : SelectExternals) (cert : gnutls_cert) : Outcome Bytes :=
  match ext.issuer_dn cert with
  | none => Outcome.fail ErrorCode.GNUTLS_E_ASN1_GENERIC_ERROR
  | some odn => Outcome.done odn

/-- The loop over `j` of `_find_x509_cert` (lines 210-236) for the
certificates of the chain `cred->cert_list[i]` that remain; `leaf` is
`cred->cert_list[i][0]`, `name` the `size` bytes at `data`.  The result tells
whether `*indx = i` was executed. -/
def find_x509_cert_chain (ext : SelectExternals) (pk_algos : List Int) (name : Bytes)
    (leaf : gnutls_cert) : List gnutls_cert → Outcome Bool
  | [] => Outcome.done false
  | c :: rest =>
    match _gnutls_cert_get_issuer_dn ext c with
    | Outcome.done odn =>
      if odn.length ≠ name.length then find_x509_cert_chain ext pk_algos name leaf rest
      else if odn = name ∧
          _gnutls_check_pk_algo_in_list pk_algos leaf.subject_pk_algorithm = 0 then
        Outcome.done true
      else find_x509_cert_chain ext pk_algos name leaf rest
    | Outcome.fail e => Outcome.fail e
    | Outcome.fault => Outcome.fault
    | Outcome.timeout => Outcome.timeout

/-- The loop over `i` of `_find_x509_cert` (lines 208-239) for the entries of
the store that remain from index `i`; the result is the value of `*indx`,
`none` for -1. -/
def find_x509_cert_store (ext : SelectExternals) (pk_algos : List Int) (name : Bytes) :
    List cred_entry → Nat → Outcome (Option Nat)
  | [], _ => Outcome.done none
  | e :: rest, i =>
    match e.cert_list with
    | [] => find_x509_cert_store ext pk_algos name rest (i + 1)
    | leaf :: chain =>
      match find_x509_cert_chain ext pk_algos name leaf (leaf :: chain) with
      | Outcome.done true => Outcome.done (some i)
      | Outcome.done false => find_x509_cert_store ext pk_algos name rest (i + 1)
      | Outcome.fail err => Outcome.fail err
      | Outcome.fault => Outcome.fault
      | Outcome.timeout => Outcome.timeout

/-- The `do ... while (1)` loop of `_find_x509_cert` (lines 200-248), run for
at most `fuel` iterations with the pointer `data` at offset `p` and
`data_size` bytes left. -/
def find_x509_cert_loop (ext : SelectExternals) (entries : List cred_entry)
    (pk_algos : List Int) (data : Bytes) : Nat → Nat → Int → Outcome (Option Nat)
  | 0, _, _ => Outcome.timeout
  | fuel + 1, p, data_size =>
    match DECR_LENGTH_RET data_size 2 with
    | none => Outcome.done none
    | some data_size1 =>
      match mhd_gtls_read_uint16 data p with
      | none => Outcome.fault
      | some size =>
        match DECR_LENGTH_RET data_size1 size with
        | none => Outcome.done none
        | some data_size2 =>
          match find_x509_cert_store ext pk_algos ((data.drop (p + 2)).take size) entries 0 with
          | Outcome.done none =>
            find_x509_cert_loop ext entries pk_algos data fuel (p + 2 + size) data_size2
          | other => other

/-- The function `_find_x509_cert` (lines 185-252); `data` holds the
`_data_size` bytes at `_data`.  The result is the value of `*indx` (`none` for
-1) when the function returns 0.  The loop is given `_data_size / 2 + 1`
iterations. -/
def _find_x509_cert (ext : SelectExternals) (cred : cert_credentials) (data : Bytes)
    (pk_algos : List Int) : Outcome (Option Nat) :=
  find_x509_cert_loop ext cred.entries pk_algos data (data.length / 2 + 1) 0 (data.length : Int)

/-- The loop of `get_issuers_num` (lines 272-295), run for at most `fuel`
iterations. -/
def get_issuers_num_loop (data : Bytes) : Nat → Nat → Int → Nat → Outcome Nat
  | 0, _, _, _ => Outcome.timeout
  | fuel + 1, p, data_size, issuers_dn_len =>
    match DECR_LENGTH_COM data_size 2 with
    | none => Outcome.fail ErrorCode.GNUTLS_E_UNEXPECTED_PACKET_LENGTH
    | some data_size1 =>
      match mhd_gtls_read_uint16 data p with
      | none => Outcome.fault
      | some size =>
        match DECR_LENGTH_COM data_size1 size with
        | none => Outcome.fail ErrorCode.GNUTLS_E_UNEXPECTED_PACKET_LENGTH
        | some data_size2 =>
          let issuers_dn_len1 := if size > 0 then issuers_dn_len + 1 else issuers_dn_len
          let p1 := if size > 0 then p + 2 + size else p + 2
          if data_size2 = 0 then Outcome.done issuers_dn_len1
          else get_issuers_num_loop data fuel p1 data_size2 issuers_dn_len1

/-- The function `get_issuers_num` (lines 257-301); `data` holds the
`data_size` bytes at the pointer.  The loop is given `data_size / 2 + 1`
iterations. -/
def get_issuers_num (data : Bytes) : Outcome Nat :=
  if data.length = 0 then Outcome.done 0
  else get_issuers_num_loop data (data.length / 2 + 1) 0 (data.length : Int) 0

/-- The loop of `get_issuers` (lines 323-339) for the `k` iterations that
remain with the pointer at offset `p`: the 2-byte length is read without a
check and the datum behind it is stored. -/
def get_issuers_loop (data : Bytes) : Nat → Nat → Outcome (List Bytes)
  | 0, _ => Outcome.done []
  | k + 1, p =>
    match mhd_gtls_read_uint16 data p with
    | none => Outcome.fault
    | some size =>
      match datum_at data (p + 2) size with
      | none => Outcome.fault
      | some dn =>
        match get_issuers_loop data k (p + 2 + size) with
        | Outcome.done rest => Outcome.done (dn :: rest)
        | other => other

/-- The function `get_issuers` (lines 306-343): the array `issuers_dn` after
the call, for an X.509 session (its only caller is in the X.509 branch). -/
def get_issuers (issuers_len : Nat) (data : Bytes) : Outcome (List Bytes) :=
  get_issuers_loop data issuers_len 0

/-- The function `mhd_gtls_selected_certs_deinit` (lines 1204-1228).  Its
release calls are appended to the ghost field `released`: one
`mhd_gtls_gcert_deinit` for each index below `selected_cert_list_length`, the
release of the array, `mhd_gtls_gkey_deinit` and, for a key that is not
`NULL`, the release of the key.  The field `selected_need_free` is not
written. -/
def mhd_gtls_selected_certs_deinit (session : Session) : Session :=
  if session.selected_need_free ≠ 0 then
    { session with
      selected_cert_list := none
      selected_cert_list_length := 0
      selected_key := none
      released := session.released ++
        ((List.range session.selected_cert_list_length.toNat).map
            (fun i => ReleaseCall.gcert_deinit (cert_at session.selected_cert_list i)) ++
          [ReleaseCall.free_cert_list session.selected_cert_list,
            ReleaseCall.gkey_deinit session.selected_key] ++
          match session.selected_key with
          | some key => [ReleaseCall.free_key key]
          | none => []) }
  else session

/-- The function `mhd_gtls_selected_certs_set` (lines 1230-1242). -/
def mhd_gtls_selected_certs_set (session : Session) (certs : Option (List gnutls_cert))
    (ncerts : Int) (key : Option gnutls_privkey) (need_free : Int) : Session :=
  { mhd_gtls_selected_certs_deinit session with
    selected_cert_list := certs
    selected_cert_list_length := ncerts
    selected_key := key
    selected_need_free := need_free }

/-- The conversion loop of `alloc_and_load_x509_certs` (lines 1154-1159) for
the `k` iterations that remain from index `i`; `none` stands for `ret < 0`. -/
def load_x509_certs_loop (ext : SelectExternals) (certs : List gnutls_x509_crt_t) :
    Nat → Nat → Outcome (Option (List gnutls_cert))
  | 0, _ => Outcome.done (some [])
  | k + 1, i =>
    match certs.get? i with
    | none => Outcome.fault
    | some crt =>
      match ext.x509_crt_to_gcert crt with
      | none => Outcome.done none
      | some gcert =>
        match load_x509_certs_loop ext certs k (i + 1) with
        | Outcome.done (some rest) => Outcome.done (some (gcert :: rest))
        | other => other

/-- The function `alloc_and_load_x509_certs` (lines 1137-1173); the result is
the pointer returned, `none` for `NULL`. -/
def alloc_and_load_x509_certs (ext : SelectExternals)
    (certs : Option (List gnutls_x509_crt_t)) (ncerts : Nat) :
    Outcome (Option (List gnutls_cert)) :=
  match certs with
  | none => Outcome.done none
  | some arr =>
    if ext.malloc_ok = false then Outcome.done none
    else load_x509_certs_loop ext arr ncerts 0

/-- The function `alloc_and_load_x509_key` (lines 1178-1202); the result is the
pointer returned, `none` for `NULL`. -/
def alloc_and_load_x509_key (ext : SelectExternals) (key : Option gnutls_x509_privkey_t) :
    Option gnutls_privkey :=
  match key with
  | none => none
  | some k =>
    if ext.malloc_ok = false then none
    else ext.x509_privkey_to_gkey k

/-- The part of `call_get_cert_callback` behind the call of the callback
(lines 385-435); `ret` is the value the callback returned and `st` the
`gnutls_retr_st` it filled in.  The release of the objects of the callback
under `cleanup` has no effect on the session. -/
def call_get_cert_callback_adopt (ext : SelectExternals) (session : Session) (ret : Int)
    (st : gnutls_retr_st) : Outcome Unit × Session :=
  if ret < 0 then (Outcome.fail ErrorCode.GNUTLS_E_INTERNAL_ERROR, session)
  else if st.ncerts = 0 then (Outcome.done (), session)
  else if session.cert_type ≠ st.type then
    (Outcome.fail ErrorCode.GNUTLS_E_INVALID_REQUEST, session)
  else if session.cert_type = CertificateType.MHD_GNUTLS_CRT_X509 then
    match alloc_and_load_x509_certs ext st.cert_x509 st.ncerts with
    | Outcome.done local_certs =>
      let local_key : Option gnutls_privkey :=
        if local_certs ≠ none then alloc_and_load_x509_key ext st.key_x509 else none
      (Outcome.done (),
        mhd_gtls_selected_certs_set session local_certs
          (if local_certs ≠ none then (st.ncerts : Int) else 0) local_key 1)
    | Outcome.fail e => (Outcome.fail e, session)
    | Outcome.fault => (Outcome.fault, session)
    | Outcome.timeout => (Outcome.timeout, session)
  else (Outcome.fail ErrorCode.GNUTLS_E_INVALID_REQUEST, session)

/-- The function `call_get_cert_callback` (lines 347-436).  `issuers_dn` is the
array of `issuers_dn_length` names and `pk_algos` the array of
`pk_algos_length` algorithms (empty for `NULL`, 0).  The result is the return
value and the session after the call.  A call through a `NULL` callback
pointer is a fault. -/
def call_get_cert_callback (ext : SelectExternals) (session : Session)
    (issuers_dn : List Bytes) (pk_algos : List Int) : Outcome Unit × Session :=
  match session.cred with
  | none => (Outcome.fail ErrorCode.GNUTLS_E_INSUFFICIENT_CREDENTIALS, session)
  | some cred =>
    match session.entity with
    | Entity.GNUTLS_SERVER =>
      match cred.server_get_cert_callback with
      | none => (Outcome.fault, session)
      | some (ret, st) => call_get_cert_callback_adopt ext session ret st
    | Entity.GNUTLS_CLIENT =>
      match cred.client_get_cert_callback with
      | none => (Outcome.fault, session)
      | some callback =>
        call_get_cert_callback_adopt ext session (callback issuers_dn pk_algos).1
          (callback issuers_dn pk_algos).2

/-- The function `_select_client_cert` (lines 445-545); `data` holds the
`_data_size` bytes at `_data`.  The result is the return value and the session
after the call. -/
def _select_client_cert (ext : SelectExternals) (session : Session) (data : Bytes)
    (pk_algos : List Int) : Outcome Unit × Session :=
  match session.cred with
  | none => (Outcome.fail ErrorCode.GNUTLS_E_INSUFFICIENT_CREDENTIALS, session)
  | some cred =>
    if cred.client_get_cert_callback ≠ none then
      if session.cert_type ≠ CertificateType.MHD_GNUTLS_CRT_X509 then
        call_get_cert_callback ext session [] pk_algos
      else
        match get_issuers_num data with
        | Outcome.fail e => (Outcome.fail e, session)
        | Outcome.fault => (Outcome.fault, session)
        | Outcome.timeout => (Outcome.timeout, session)
        | Outcome.done issuers_dn_length =>
          if issuers_dn_length > 0 then
            if ext.malloc_ok = false then
              (Outcome.fail ErrorCode.GNUTLS_E_MEMORY_ERROR, session)
            else
              match get_issuers issuers_dn_length data with
              | Outcome.done issuers_dn => call_get_cert_callback ext session issuers_dn pk_algos
              | Outcome.fail e => (Outcome.fail e, session)
              | Outcome.fault => (Outcome.fault, session)
              | Outcome.timeout => (Outcome.timeout, session)
          else call_get_cert_callback ext session [] pk_algos
    else
      let result : Outcome (Option Nat) :=
        if session.cert_type = CertificateType.MHD_GNUTLS_CRT_X509 then
          _find_x509_cert ext cred data pk_algos
        else Outcome.done none
      match result with
      | Outcome.fail e => (Outcome.fail e, session)
      | Outcome.fault => (Outcome.fault, session)
      | Outcome.timeout => (Outcome.timeout, session)
      | Outcome.done none =>
        (Outcome.done (), mhd_gtls_selected_certs_set session none 0 none 0)
      | Outcome.done (some indx) =>
        match cred.entries.get? indx with
        | none => (Outcome.fault, session)
        | some entry =>
          (Outcome.done (),
            mhd_gtls_selected_certs_set session (some entry.cert_list)
              (entry.cert_list.length : Int) (some entry.pkey) 0)

/-- The function `_gnutls_check_supported_sign_algo` (lines 804-814). -/
def _gnutls_check_supported_sign_algo (algo : UInt8) : Int :=
  if algo = RSA_SIGN then MHD_GNUTLS_PK_RSA else -1

/-- The loop over the signature algorithm octets of
`mhd_gtls_proc_cert_cert_req` (lines 857-868) for the `k` iterations that
remain, with the pointer at offset `p`, `dsize` bytes left and the algorithms
kept so far in `pk_algos` (`j` and `pk_algos_length` are its length).  The
result is `p`, `dsize` and `pk_algos` after the loop. -/
def proc_cert_cert_req_algos (data : Bytes) :
    Nat → Nat → Int → List Int → Outcome (Nat × Int × List Int)
  | 0, p, dsize, pk_algos => Outcome.done (p, dsize, pk_algos)
  | k + 1, p, dsize, pk_algos =>
    match DECR_LEN dsize 1 with
    | none => Outcome.fail ErrorCode.GNUTLS_E_UNEXPECTED_PACKET_LENGTH
    | some dsize1 =>
      match data.get? p with
      | none => Outcome.fault
      | some b =>
        let ret := _gnutls_check_supported_sign_algo b
        let pk_algos1 :=
          if ret > 0 then
            if pk_algos.length < MAX_SIGN_ALGOS then pk_algos ++ [ret] else pk_algos
          else pk_algos
        proc_cert_cert_req_algos data k (p + 1) dsize1 pk_algos1

/-- The hash list of a TLS 1.2 request in `mhd_gtls_proc_cert_cert_req`
(lines 876-887); for the other versions nothing is read.  The result is `p`
and `dsize` behind the list. -/
def proc_cert_cert_req_hashes (ver : Protocol) (data : Bytes) (p : Nat) (dsize : Int) :
    Outcome (Nat × Int) :=
  if ver = Protocol.MHD_GNUTLS_TLS1_2 then
    match DECR_LEN dsize 1 with
    | none => Outcome.fail ErrorCode.GNUTLS_E_UNEXPECTED_PACKET_LENGTH
    | some dsize1 =>
      match data.get? p with
      | none => Outcome.fault
      | some hash_num =>
        match DECR_LEN dsize1 (hash_num.toNat : Int) with
        | none => Outcome.fail ErrorCode.GNUTLS_E_UNEXPECTED_PACKET_LENGTH
        | some dsize2 => Outcome.done (p + 1 + hash_num.toNat, dsize2)
  else Outcome.done (p, dsize)

/-- The issuer-name list of `mhd_gtls_proc_cert_cert_req` (lines 889-894),
with the pointer at offset `p` and `dsize` bytes left: the `size` bytes at `p`
that are handed to `_select_client_cert`. -/
def proc_cert_cert_req_names (data : Bytes) (p : Nat) (dsize : Int) : Outcome Bytes :=
  match DECR_LEN dsize 2 with
  | none => Outcome.fail ErrorCode.GNUTLS_E_UNEXPECTED_PACKET_LENGTH
  | some dsize1 =>
    match mhd_gtls_read_uint16 data p with
    | none => Outcome.fault
    | some size =>
      match DECR_LEN dsize1 (size : Int) with
      | none => Outcome.fail ErrorCode.GNUTLS_E_UNEXPECTED_PACKET_LENGTH
      | some _ =>
        match datum_at data (p + 2) size with
        | none => Outcome.fault
        | some names => Outcome.done names

/-- The reading part of `mhd_gtls_proc_cert_cert_req` (lines 848-894): the
arguments `p, size` and `pk_algos, pk_algos_length` of the call of
`_select_client_cert`, as the bytes of the issuer-name list and the list of
algorithms. -/
def proc_cert_cert_req_read (ver : Protocol) (data : Bytes) : Outcome (Bytes × List Int) :=
  match DECR_LEN (data.length : Int) 1 with
  | none => Outcome.fail ErrorCode.GNUTLS_E_UNEXPECTED_PACKET_LENGTH
  | some dsize =>
    match data.get? 0 with
    | none => Outcome.fault
    | some size =>
      match proc_cert_cert_req_algos data size.toNat 1 dsize [] with
      | Outcome.fail e => Outcome.fail e
      | Outcome.fault => Outcome.fault
      | Outcome.timeout => Outcome.timeout
      | Outcome.done (p, dsize1, pk_algos) =>
        if pk_algos.length = 0 then Outcome.fail ErrorCode.GNUTLS_E_UNKNOWN_PK_ALGORITHM
        else
          match proc_cert_cert_req_hashes ver data p dsize1 with
          | Outcome.fail e => Outcome.fail e
          | Outcome.fault => Outcome.fault
          | Outcome.timeout => Outcome.timeout
          | Outcome.done (p1, dsize2) =>
            match proc_cert_cert_req_names data p1 dsize2 with
            | Outcome.fail e => Outcome.fail e
            | Outcome.fault => Outcome.fault
            | Outcome.timeout => Outcome.timeout
            | Outcome.done names => Outcome.done (names, pk_algos)

/-- The function `mhd_gtls_proc_cert_cert_req` (lines 816-912); `data` holds
the `data_size` bytes of the message.  The result is the return value and the
session after the call. -/
def mhd_gtls_proc_cert_cert_req (ext : SelectExternals) (session : Session) (data : Bytes) :
    Outcome Unit × Session :=
  match session.cred with
  | none => (Outcome.fail ErrorCode.GNUTLS_E_INSUFFICIENT_CREDENTIALS, session)
  | some _ =>
    match ext.auth_info_set with
    | some e => (Outcome.fail e, session)
    | none =>
      match proc_cert_cert_req_read session.version data with
      | Outcome.fail e => (Outcome.fail e, session)
      | Outcome.fault => (Outcome.fault, session)
      | Outcome.timeout => (Outcome.timeout, session)
      | Outcome.done (names, pk_algos) =>
        match _select_client_cert ext session names pk_algos with
        | (Outcome.done _, session1) =>
          (Outcome.done (), { session1 with certificate_requested := 1 })
        | other => other

/-- The store loop of `mhd_gtls_server_select_cert` (lines 1284-1300) for the
entries that remain from index `i`; the result is the value of `idx`, `none`
for -1.  Reading `cred->cert_list[i][0]` of an empty chain is a fault. -/
def server_select_cert_loop (cert_type : CertificateType) (requested_algo : Int) :
    List cred_entry → Nat → Outcome (Option Nat)
  | [], _ => Outcome.done none
  | e :: rest, i =>
    match e.cert_list.head? with
    | none => Outcome.fault
    | some leaf =>
      if requested_algo = GNUTLS_PK_ANY ∨ requested_algo = leaf.subject_pk_algorithm then
        if cert_type = leaf.cert_type then Outcome.done (some i)
        else server_select_cert_loop cert_type requested_algo rest (i + 1)
      else server_select_cert_loop cert_type requested_algo rest (i + 1)

/-- The function `mhd_gtls_server_select_cert` (lines 1255-1317).  The result
is the return value and the session after the call. -/
def mhd_gtls_server_select_cert (ext : SelectExternals) (session : Session)
    (requested_algo : Int) : Outcome Unit × Session :=
  match session.cred with
  | none => (Outcome.fail ErrorCode.GNUTLS_E_INSUFFICIENT_CREDENTIALS, session)
  | some cred =>
    if cred.server_get_cert_callback ≠ none then call_get_cert_callback ext session [] []
    else
      match server_select_cert_loop session.cert_type requested_algo cred.entries 0 with
      | Outcome.fail e => (Outcome.fail e, session)
      | Outcome.fault => (Outcome.fault, session)
      | Outcome.timeout => (Outcome.timeout, session)
      | Outcome.done none =>
        (Outcome.fail ErrorCode.GNUTLS_E_INSUFFICIENT_CREDENTIALS, session)
      | Outcome.done (some idx) =>
        match cred.entries.get? idx with
        | none => (Outcome.fault, session)
        | some entry =>
          (Outcome.done (),
            mhd_gtls_selected_certs_set session (some entry.cert_list)
              (entry.cert_list.length : Int) (some entry.pkey) 0)

/-! ## Master secret derivation (`gnutls_kx.c`) -/

/-- Modelled from the spec: `TLS_RANDOM_SIZE` of `gnutls_int.h`, which is not
among the sources; the client and the server random have 32 bytes
(section 3). -/
def TLS_RANDOM_SIZE : Nat := 32

/-- Modelled from the spec: `TLS_MASTER_SIZE` of `gnutls_int.h`, which is not
among the sources; the master secret has 48 bytes (section 3). -/
def TLS_MASTER_SIZE : Nat := 48

/-- The label `MASTER_SECRET` (`gnutls_kx.c`, line 44) as the bytes that
`strlen` counts. -/
def MASTER_SECRET : Bytes :=
  "master secret".toList.map (fun c => UInt8.ofNat c.toNat)

/-- The call `memcpy (dst + off, src, n)` on the array `dst`: the array after
the call, `none` when the `n` bytes are not all inside `src` or are not all
written inside `dst`. -/
def memcpy (dst : Bytes) (off : Nat) (src : Bytes) (n : Nat) : Option Bytes :=
  if n ≤ src.length ∧ off + n ≤ dst.length then
    some (dst.take off ++ src.take n ++ dst.drop (off + n))
  else none

/-- The collaborators of `generate_normal_master` that are outside
`gnutls_kx.c`.  An expansion function is given the secret, the label (the PRF
only), the seed and the number of bytes asked for; `Except.ok out` is a
non-negative return after the bytes `out` were written to the result buffer,
`Except.error e` the return of the code `e` with nothing written. -/
structure KxExternals where
  /-- whether `gnutls_malloc` returns a buffer -/
  malloc_ok : Bool
  /-- the call `mhd_gnutls_ssl3_generate_random (secret, secret_len, rnd,
  rnd_len, ret_bytes, ret)` -/
  ssl3_generate_random : Bytes → Bytes → Nat → Except ErrorCode Bytes
  /-- the call `mhd_gtls_PRF (session, secret, secret_size, label, label_size,
  seed, seed_size, total_bytes, ret)` -/
  PRF : Session → Bytes → Bytes → Bytes → Nat → Except ErrorCode Bytes

/-- The plain seed of `generate_normal_master` (lines 76-81 and 143-148): the
local array `rnd` of `2 * TLS_RANDOM_SIZE + 1` bytes after the two `memcpy`
calls, of which the first `2 * TLS_RANDOM_SIZE` bytes are handed on.  The
array starts out as zeros (its contents are indeterminate in C). -/
def generate_normal_master_rnd (session : Session) : Option Bytes :=
  match memcpy (List.replicate (2 * TLS_RANDOM_SIZE + 1) 0) 0 session.client_random
      TLS_RANDOM_SIZE with
  | none => none
  | some rnd1 =>
    match memcpy rnd1 TLS_RANDOM_SIZE session.server_random TLS_RANDOM_SIZE with
    | none => none
    | some rnd => some (rnd.take (2 * TLS_RANDOM_SIZE))

/-- The salted seed of `generate_normal_master` (lines 96-132): the buffer
`rnd` of `rndlen + 1` bytes after the four `memcpy` calls, of which the first
`rndlen` bytes are handed on. -/
def generate_normal_master_rnd_oprfi (session : Session) : Option Bytes :=
  let rndlen : Nat :=
    2 * TLS_RANDOM_SIZE + session.oprfi_client.length + session.oprfi_server.length
  match memcpy (List.replicate (rndlen + 1) 0) 0 session.client_random TLS_RANDOM_SIZE with
  | none => none
  | some rnd1 =>
    match memcpy rnd1 TLS_RANDOM_SIZE session.oprfi_client session.oprfi_client.length with
    | none => none
    | some rnd2 =>
      match memcpy rnd2 (TLS_RANDOM_SIZE + session.oprfi_client.length) session.server_random
          TLS_RANDOM_SIZE with
      | none => none
      | some rnd3 =>
        match memcpy rnd3 (TLS_RANDOM_SIZE + session.oprfi_client.length + TLS_RANDOM_SIZE)
            session.oprfi_server session.oprfi_server.length with
        | none => none
        | some rnd => some (rnd.take rndlen)

/-- The three branches of `generate_normal_master` (lines 74-159, the version
test `MHD_gnutls_protocol_get_version (session) == MHD_GNUTLS_PROTOCOL_SSL3`
first): the value of the call of the expansion function.  `Outcome.fail` is
the return of `GNUTLS_E_MEMORY_ERROR` from inside the second branch. -/
def generate_normal_master_expand (ext : KxExternals) (session : Session) :
    Outcome (Except ErrorCode Bytes) :=
  if session.version = Protocol.MHD_GNUTLS_SSL3 then
    match generate_normal_master_rnd session with
    | none => Outcome.fault
    | some rnd =>
      Outcome.done (ext.ssl3_generate_random session.PREMASTER rnd TLS_MASTER_SIZE)
  else if session.oprfi_client.length > 0 ∧ session.oprfi_server.length > 0 then
    if ext.malloc_ok = false then Outcome.fail ErrorCode.GNUTLS_E_MEMORY_ERROR
    else
      match generate_normal_master_rnd_oprfi session with
      | none => Outcome.fault
      | some rnd =>
        Outcome.done
          (ext.PRF session session.PREMASTER MASTER_SECRET rnd TLS_MASTER_SIZE)
  else
    match generate_normal_master_rnd session with
    | none => Outcome.fault
    | some rnd =>
      Outcome.done (ext.PRF session session.PREMASTER MASTER_SECRET rnd TLS_MASTER_SIZE)

/-- The function `generate_normal_master` (`gnutls_kx.c`, lines 58-178).  The
result is how the call returns (a non-negative return value is the one of the
expansion function) and the session after the call. -/
def generate_normal_master (ext : KxExternals) (session : Session) (keep_premaster : Int) :
    Outcome Unit × Session :=
  match generate_normal_master_expand ext session with
  | Outcome.fail e => (Outcome.fail e, session)
  | Outcome.fault => (Outcome.fault, session)
  | Outcome.timeout => (Outcome.timeout, session)
  | Outcome.done ret =>
    let written : Option Bytes :=
      match ret with
      | Except.ok out => memcpy session.master_secret 0 out out.length
      | Except.error _ => some session.master_secret
    match written with
    | none => (Outcome.fault, session)
    | some master_secret =>
      match memcpy session.inner_secret 0 master_secret TLS_MASTER_SIZE with
      | none => (Outcome.fault, session)
      | some inner_secret =>
        let session1 : Session :=
          { session with master_secret := master_secret, inner_secret := inner_secret }
        let session2 : Session :=
          if keep_premaster = 0 then { session1 with PREMASTER := [] } else session1
        match ret with
        | Except.error e => (Outcome.fail e, session2)
        | Except.ok _ => (Outcome.done (), session2)

/-! ## CertificateVerify message -/

/-- The collaborators of the CertificateVerify functions that are outside the
sources: the converter of an X.509 certificate and the primitives `sign`,
`verify` and `transcript_digest` of section 6. -/
structure VrfyExternals where
  /-- whether `gnutls_malloc` returns a buffer -/
  malloc_ok : Bool
  /-- the call `mhd_gtls_x509_raw_cert_to_gcert (gcert, raw_cert, flags)` -/
  x509_raw_cert_to_gcert : Bytes → Except ErrorCode gnutls_cert
  /-- the primitive `sign (key, digest)` -/
  sign : gnutls_privkey → Bytes → Except ErrorCode Bytes
  /-- the primitive `verify (pubkey, digest, signature)` -/
  verify : gnutls_cert → Bytes → Bytes → Bool
  /-- the digest of the handshake messages that the session has hashed -/
  transcript_digest : Session → Bytes

/-- Modelled from the spec: `mhd_gtls_tls_sign_hdata` of `gnutls_sig.c`, which
is not among the sources; section 4.4: the signature over the running
handshake-transcript digest made with the selected private key.  A `NULL` key
is dereferenced. -/
def mhd_gtls_tls_sign_hdata (ext : VrfyExternals) (session : Session) (_cert : gnutls_cert)
    (pkey : Option gnutls_privkey) : Outcome Bytes :=
  match pkey with
  | none => Outcome.fault
  | some key =>
    match ext.sign key (ext.transcript_digest session) with
    | Except.ok signature => Outcome.done signature
    | Except.error e => Outcome.fail e

/-- Modelled from the spec: `mhd_gtls_verify_sig_hdata` of `gnutls_sig.c`,
which is not among the sources; section 4.4: the signature is verified against
the transcript digest with the public key of the certificate, and a mismatch
is `SignatureInvalid`.  The result is `none` for a non-negative return. -/
def mhd_gtls_verify_sig_hdata (ext : VrfyExternals) (session : Session) (cert : gnutls_cert)
    (signature : Bytes) : Option ErrorCode :=
  if ext.verify cert (ext.transcript_digest session) signature = true then none
  else some ErrorCode.GNUTLS_E_PK_SIG_VERIFY_FAILED

/-- The function `mhd_gtls_raw_cert_to_gcert` (`gnutls_cert.c`, lines
511-525). -/
def mhd_gtls_raw_cert_to_gcert (ext : VrfyExternals) (type : CertificateType)
    (raw_cert : Bytes) : Except ErrorCode gnutls_cert :=
  match type with
  | CertificateType.MHD_GNUTLS_CRT_X509 => ext.x509_raw_cert_to_gcert raw_cert
  | _ => Except.error ErrorCode.GNUTLS_E_INTERNAL_ERROR

/-- The function `mhd_gtls_gen_cert_client_cert_vrfy` (lines 914-965).  The
result is the return value with the pointer `*data` (`none` for `NULL`); the
list is ghost state and records the calls of `mhd_gtls_tls_sign_hdata` with
their certificate and key arguments. -/
def mhd_gtls_gen_cert_client_cert_vrfy (ext : VrfyExternals) (session : Session) :
    Outcome (Int × Option Bytes) × List (gnutls_cert × Option gnutls_privkey) :=
  match mhd_gtls_get_selected_cert session with
  | Outcome.fail e => (Outcome.fail e, [])
  | Outcome.fault => (Outcome.fault, [])
  | Outcome.timeout => (Outcome.timeout, [])
  | Outcome.done (apr_cert_list, apr_cert_list_length, apr_pkey) =>
    if apr_cert_list_length > 0 then
      match cert_at apr_cert_list 0 with
      | none => (Outcome.fault, [])
      | some cert =>
        match mhd_gtls_tls_sign_hdata ext session cert apr_pkey with
        | Outcome.fail e => (Outcome.fail e, [(cert, apr_pkey)])
        | Outcome.fault => (Outcome.fault, [(cert, apr_pkey)])
        | Outcome.timeout => (Outcome.timeout, [(cert, apr_pkey)])
        | Outcome.done signature =>
          if ext.malloc_ok = false then
            (Outcome.fail ErrorCode.GNUTLS_E_MEMORY_ERROR, [(cert, apr_pkey)])
          else
            (Outcome.done ((signature.length : Int) + 2,
                some (mhd_gtls_write_uint16 signature.length ++ signature)),
              [(cert, apr_pkey)])
    else (Outcome.done (0, none), [])

/-- The function `mhd_gtls_proc_cert_client_cert_vrfy` (lines 967-1014); `data`
holds the `data_size` bytes of the message.  The list is ghost state and
records the calls of `mhd_gtls_verify_sig_hdata` with their certificate and
signature arguments. -/
def mhd_gtls_proc_cert_client_cert_vrfy (ext : VrfyExternals) (session : Session)
    (data : Bytes) : Outcome Unit × List (gnutls_cert × Bytes) :=
  match session.auth_info with
  | none => (Outcome.fail ErrorCode.GNUTLS_E_INTERNAL_ERROR, [])
  | some info =>
    if info.ncerts = 0 then (Outcome.fail ErrorCode.GNUTLS_E_INTERNAL_ERROR, [])
    else
      match DECR_LEN (data.length : Int) 2 with
      | none => (Outcome.fail ErrorCode.GNUTLS_E_UNEXPECTED_PACKET_LENGTH, [])
      | some dsize =>
        match mhd_gtls_read_uint16 data 0 with
        | none => (Outcome.fault, [])
        | some size =>
          match DECR_LEN dsize size with
          | none => (Outcome.fail ErrorCode.GNUTLS_E_UNEXPECTED_PACKET_LENGTH, [])
          | some _ =>
            match info.raw_certificate_list.get? 0 with
            | none => (Outcome.fault, [])
            | some raw =>
              match mhd_gtls_raw_cert_to_gcert ext session.cert_type raw with
              | Except.error e => (Outcome.fail e, [])
              | Except.ok peer_cert =>
                match datum_at data 2 size with
                | none => (Outcome.fault, [])
                | some sig =>
                  match mhd_gtls_verify_sig_hdata ext session peer_cert sig with
                  | some e => (Outcome.fail e, [(peer_cert, sig)])
                  | none => (Outcome.done (), [(peer_cert, sig)])

/-! ## Issuer names, matching entries and the fields of a CertificateRequest -/

/-- The issuer names advertised by the bytes of an issuer-name list: the names
of the (2-byte length, name) entries from the start of the bytes, up to the
end of the bytes or to the first entry that does not fit. -/
inductive Advertised : Bytes → List Bytes → Prop where
  | stop (r : Bytes) : r.length < 2 → Advertised r []
  | cut (b0 b1 : UInt8) (r : Bytes) :
      r.length < b0.toNat * 256 + b1.toNat → Advertised (b0 :: b1 :: r) []
  | next (b0 b1 : UInt8) (r : Bytes) (names : List Bytes) :
      b0.toNat * 256 + b1.toNat ≤ r.length →
      Advertised (r.drop (b0.toNat * 256 + b1.toNat)) names →
      Advertised (b0 :: b1 :: r) (r.take (b0.toNat * 256 + b1.toNat) :: names)

/-- The bytes of an issuer-name list are malformed: walking the (2-byte
length, name) entries, a length field is cut short or a declared length runs
past the end of the bytes. -/
inductive NamesOverrun : Bytes → Prop where
  | header (b : UInt8) : NamesOverrun [b]
  | payload (b0 b1 : UInt8) (r : Bytes) :
      r.length < b0.toNat * 256 + b1.toNat → NamesOverrun (b0 :: b1 :: r)
  | later (b0 b1 : UInt8) (r : Bytes) :
      b0.toNat * 256 + b1.toNat ≤ r.length →
      NamesOverrun (r.drop (b0.toNat * 256 + b1.toNat)) →
      NamesOverrun (b0 :: b1 :: r)

/-- The store entry `e` matches the issuer name `name`: a certificate of its
chain has `name` as its issuer name, and the public-key algorithm of its first
certificate is one of `pk_algos`. -/
def EntryMatches (ext : SelectExternals) (pk_algos : List Int) (name : Bytes)
    (e : cred_entry) : Prop :=
  (∃ c ∈ e.cert_list, ext.issuer_dn c = some name) ∧
    ∃ leaf, e.cert_list.head? = some leaf ∧ leaf.subject_pk_algorithm ∈ pk_algos

/-- The issuer name of every certificate of the store can be decoded. -/
def IssuersDecodable (ext : SelectExternals) (entries : List cred_entry) : Prop :=
  ∀ e ∈ entries, ∀ c ∈ e.cert_list, ext.issuer_dn c ≠ none

/-- The first certificate of the entry satisfies the request of the peer: its
public-key algorithm is `requested_algo`, or any algorithm is allowed, and its
certificate type is the negotiated one. -/
def LeafAccepted (cert_type : CertificateType) (requested_algo : Int) (e : cred_entry) :
    Prop :=
  ∃ leaf, e.cert_list.head? = some leaf ∧
    (requested_algo = GNUTLS_PK_ANY ∨ requested_algo = leaf.subject_pk_algorithm) ∧
    cert_type = leaf.cert_type

/-- The steps of `mhd_gtls_proc_cert_cert_req` before the message is looked at
succeed: credentials are attached to the session and `mhd_gtls_auth_info_set`
returns a non-negative value. -/
def ReadyRequest (ext : SelectExternals) (session : Session) : Prop :=
  session.cred ≠ none ∧ ext.auth_info_set = none

/-- The octet is a signature algorithm that
`_gnutls_check_supported_sign_algo` accepts. -/
def supported_sign_algo (b : UInt8) : Bool :=
  decide (_gnutls_check_supported_sign_algo b > 0)

/-- The signature-algorithm list of a CertificateRequest body as section 4.2
describes it: a count octet followed by that many octets; `none` when the
buffer ends before the list does. -/
def cert_req_sign_algos (data : Bytes) : Option (Bytes × Bytes) :=
  match data with
  | [] => none
  | count :: r =>
    if r.length < count.toNat then none
    else some (r.take count.toNat, r.drop count.toNat)

/-- The hash list that follows the signature algorithms in a TLS 1.2 request:
a count octet and that many octets; the result is what follows the list, and
the bytes themselves for the other versions. -/
def cert_req_skip_hashes (ver : Protocol) (r : Bytes) : Option Bytes :=
  if ver = Protocol.MHD_GNUTLS_TLS1_2 then
    match r with
    | [] => none
    | hash_num :: r1 => if r1.length < hash_num.toNat then none else some (r1.drop hash_num.toNat)
  else some r

/-- The 2-byte length-prefixed issuer-name list at the start of `r`; `none`
when the length field or the list runs past the end of `r`. -/
def cert_req_names (r : Bytes) : Option Bytes :=
  match r with
  | b0 :: b1 :: r1 =>
    if r1.length < b0.toNat * 256 + b1.toNat then none
    else some (r1.take (b0.toNat * 256 + b1.toNat))
  | _ => none

/-- The algorithms that the request decoder keeps of the octets `algos`: the
values for the supported octets, in order, at most `MAX_SIGN_ALGOS` of them. -/
def kept_sign_algos (algos : Bytes) : List Int :=
  ((algos.filter supported_sign_algo).map _gnutls_check_supported_sign_algo).take MAX_SIGN_ALGOS

/-! ## Secrets, seeds and signature keys as the specification names them -/

/-- The arrays of the security parameters have their declared sizes: 32 bytes
for each random and 48 bytes for the master and the inner secret. -/
def WellSized (session : Session) : Prop :=
  session.client_random.length = TLS_RANDOM_SIZE ∧
    session.server_random.length = TLS_RANDOM_SIZE ∧
    session.master_secret.length = TLS_MASTER_SIZE ∧
    session.inner_secret.length = TLS_MASTER_SIZE

/-- The seed of the label-keyed derivation as section 4.1 describes it:
`client_random ‖ ext_client_blob ‖ server_random ‖ ext_server_blob` when both
extension blobs have positive length, `client_random ‖ server_random`
otherwise. -/
def master_seed (session : Session) : Bytes :=
  if 0 < session.oprfi_client.length ∧ 0 < session.oprfi_server.length then
    session.client_random ++ session.oprfi_client ++ session.server_random ++
      session.oprfi_server
  else session.client_random ++ session.server_random

/-- The derivation of section 4.1 asked for `n` bytes: for SSL3 the
random-expansion construction on the premaster and the concatenated randoms,
otherwise the pseudo-random function with the label "master secret" and the
seed `master_seed`. -/
def derive_master_secret (ext : KxExternals) (session : Session) (n : Nat) :
    Except ErrorCode Bytes :=
  if session.version = Protocol.MHD_GNUTLS_SSL3 then
    ext.ssl3_generate_random session.PREMASTER
      (session.client_random ++ session.server_random) n
  else ext.PRF session session.PREMASTER MASTER_SECRET (master_seed session) n

/-- The expansion functions give as many bytes as they are asked for. -/
def ExpandsAsAsked (ext : KxExternals) : Prop :=
  (∀ secret rnd n out, ext.ssl3_generate_random secret rnd n = Except.ok out →
      out.length = n) ∧
    ∀ session secret label seed n out, ext.PRF session secret label seed n = Except.ok out →
      out.length = n

/-- A peer certificate is on record: the authentication information `info` is
present and its `ncerts` is not 0. -/
def PeerOnRecord (session : Session) (info : cert_auth_info) : Prop :=
  session.auth_info = some info ∧ info.ncerts ≠ 0

/-- Modelled from the spec: the primitives `sign` and `verify` of section 6
are not among the sources.  The certificate `pub` holds the public key that
corresponds to the private key `key`: `verify` with `pub` accepts for a digest
exactly the signature that `sign` makes of it with `key`, and the signatures
of two different digests differ (section 8: a signature passes with the
corresponding public key and fails when a byte of the signature or of the
digest is changed). -/
def KeyPair (ext : VrfyExternals) (key : gnutls_privkey) (pub : gnutls_cert) : Prop :=
  (∀ digest signature,
      ext.verify pub digest signature = true ↔ ext.sign key digest = Except.ok signature) ∧
    ∀ d1 d2 signature, ext.sign key d1 = Except.ok signature →
      ext.sign key d2 = Except.ok signature → d1 = d2

/-! ## Master secret of a resumed session -/

/-- The function `mhd_gtls_generate_master` (`gnutls_kx.c`, lines 47-53). -/
def mhd_gtls_generate_master (ext : KxExternals) (session : Session) (keep_premaster : Int) :
    Outcome Unit × Session :=
  if session.resumed = ResumableSession.RESUME_FALSE then
    generate_normal_master ext session keep_premaster
  else (Outcome.done (), session)

/-! ## Handshake messages of the certificate authentication (`gnutls_kx.c`) -/

/-- Modelled from the spec: the values `GNUTLS_CERT_REQUEST` and
`GNUTLS_CERT_REQUIRE` of `gnutls_certificate_request_t`, whose declaration is
not among the sources; 0 stands for a certificate that is not asked for. -/
def GNUTLS_CERT_REQUEST : Int := 1

/-- Modelled from the spec: see `GNUTLS_CERT_REQUEST`. -/
def GNUTLS_CERT_REQUIRE : Int := 2

/-- The handshake message types handed to `mhd_gtls_send_handshake` and
`mhd_gtls_recv_handshake` by the functions below. -/
inductive HandshakeDescription where
  | GNUTLS_HANDSHAKE_CERTIFICATE_PKT
  | GNUTLS_HANDSHAKE_CERTIFICATE_REQUEST
  | GNUTLS_HANDSHAKE_CERTIFICATE_VERIFY
  deriving DecidableEq

/-- Whether `mhd_gtls_recv_handshake` may find that the message is absent. -/
inductive Optional where
  | OPTIONAL_PACKET
  | MANDATORY_PACKET
  deriving DecidableEq

/-- The alert levels. -/
inductive AlertLevel where
  | GNUTLS_AL_WARNING
  | GNUTLS_AL_FATAL
  deriving DecidableEq

/-- The alert descriptions: the SSL3 `no_certificate` alert and the others by
number. -/
inductive AlertDescription where
  | GNUTLS_A_SSL3_NO_CERTIFICATE
  | other (n : Nat)
  deriving DecidableEq

/-- A call of a function of the record layer; the lists of such calls in the
results below are ghost state and record what was sent and received. -/
inductive HandshakeCall where
  /-- `mhd_gtls_send_handshake (session, data, data_size, type)` -/
  | send_handshake (data : Option Bytes) (data_size : Int) (type : HandshakeDescription)
  /-- `mhd_gtls_recv_handshake (session, &data, &datasize, type, optional)` -/
  | recv_handshake (type : HandshakeDescription) (optional : Optional)
  /-- `MHD_gnutls_alert_send (session, level, desc)` -/
  | alert_send (level : AlertLevel) (desc : AlertDescription)
  deriving DecidableEq

/-- The record layer as the functions below use it.  A result `Except.error e`
is the negative return `e`; `Except.ok` carries the non-negative return value
and, for a received message, its `datasize` bytes. -/
structure HandshakeExternals where
  /-- the call `mhd_gtls_send_handshake (session, data, data_size, type)` -/
  send_handshake : Option Bytes → Int → HandshakeDescription → Except ErrorCode Nat
  /-- the call `mhd_gtls_recv_handshake (session, &data, &datasize, type,
  optional)` -/
  recv_handshake : HandshakeDescription → Optional → Except ErrorCode (Nat × Bytes)
  /-- the call `MHD_gnutls_alert_send (session, level, desc)` -/
  alert_send : AlertLevel → AlertDescription → Except ErrorCode Nat
  /-- the value of `gnutls_alert_get (session)` -/
  alert_get : AlertDescription

/-- The function pointers of `session->internals.auth_struct` that the
functions below call (`none` for `NULL`).  A generator gives its return value
and the pointer `*data`; a processor gives its return and the session after
the call. -/
structure mod_auth_st where
  mhd_gtls_gen_server_certificate_request : Option (Session → Outcome (Int × Option Bytes))
  mhd_gtls_gen_client_certificate : Option (Session → Outcome (Int × Option Bytes))
  mhd_gtls_gen_client_cert_vrfy : Option (Session → Outcome (Int × Option Bytes))
  mhd_gtls_process_client_certificate : Option (Session → Bytes → Outcome Unit × Session)
  mhd_gtls_process_client_cert_vrfy : Option (Session → Bytes → Outcome Unit × Session)

/-- The tail of the sending functions: the call of `mhd_gtls_send_handshake`
and the return of `on_success` when it does not fail. -/
def send_handshake_then (io : HandshakeExternals) (data : Option Bytes) (data_size : Int)
    (type : HandshakeDescription) (on_success : Nat → Int) :
    Outcome Int × List HandshakeCall :=
  match io.send_handshake data data_size type with
  | Except.error e => (Outcome.fail e, [HandshakeCall.send_handshake data data_size type])
  | Except.ok ret =>
    (Outcome.done (on_success ret), [HandshakeCall.send_handshake data data_size type])

/-- The function `mhd_gtls_send_server_certificate_request` (`gnutls_kx.c`,
lines 232-273). -/
def mhd_gtls_send_server_certificate_request (io : HandshakeExternals) (auth : mod_auth_st)
    (session : Session) (again : Int) : Outcome Int × List HandshakeCall :=
  match auth.mhd_gtls_gen_server_certificate_request with
  | none => (Outcome.done 0, [])
  | some gen =>
    if session.send_cert_req ≤ 0 then (Outcome.done 0, [])
    else
      let generated : Outcome (Int × Option Bytes) :=
        if again = 0 then gen session else Outcome.done (0, none)
      match generated with
      | Outcome.fail e => (Outcome.fail e, [])
      | Outcome.fault => (Outcome.fault, [])
      | Outcome.timeout => (Outcome.timeout, [])
      | Outcome.done (data_size, data) =>
        send_handshake_then io data data_size
          HandshakeDescription.GNUTLS_HANDSHAKE_CERTIFICATE_REQUEST (fun _ => data_size)

/-- The function `mhd_gtls_send_client_certificate_verify` (`gnutls_kx.c`,
lines 322-370). -/
def mhd_gtls_send_client_certificate_verify (io : HandshakeExternals) (auth : mod_auth_st)
    (session : Session) (again : Int) : Outcome Int × List HandshakeCall :=
  if session.entity = Entity.GNUTLS_SERVER then (Outcome.done 0, [])
  else if session.certificate_requested = 0 then (Outcome.done 0, [])
  else
    match auth.mhd_gtls_gen_client_cert_vrfy with
    | none => (Outcome.done 0, [])
    | some gen =>
      if again = 0 then
        match gen session with
        | Outcome.fail e => (Outcome.fail e, [])
        | Outcome.fault => (Outcome.fault, [])
        | Outcome.timeout => (Outcome.timeout, [])
        | Outcome.done (data_size, data) =>
          if data_size = 0 then (Outcome.done 0, [])
          else
            send_handshake_then io data data_size
              HandshakeDescription.GNUTLS_HANDSHAKE_CERTIFICATE_VERIFY (fun ret => (ret : Int))
      else
        send_handshake_then io none 0
          HandshakeDescription.GNUTLS_HANDSHAKE_CERTIFICATE_VERIFY (fun ret => (ret : Int))

/-- The function `mhd_gtls_send_client_certificate` (`gnutls_kx.c`, lines
488-552). -/
def mhd_gtls_send_client_certificate (io : HandshakeExternals) (auth : mod_auth_st)
    (session : Session) (again : Int) : Outcome Int × List HandshakeCall :=
  if session.certificate_requested = 0 then (Outcome.done 0, [])
  else
    match auth.mhd_gtls_gen_client_certificate with
    | none => (Outcome.done 0, [])
    | some gen =>
      let generated : Outcome (Int × Option Bytes) :=
        if again = 0 then
          if session.version ≠ Protocol.MHD_GNUTLS_SSL3 ∨
              session.selected_cert_list_length > 0 then gen session
          else Outcome.done (0, none)
        else Outcome.done (0, none)
      match generated with
      | Outcome.fail e => (Outcome.fail e, [])
      | Outcome.fault => (Outcome.fault, [])
      | Outcome.timeout => (Outcome.timeout, [])
      | Outcome.done (data_size, data) =>
        if session.version = Protocol.MHD_GNUTLS_SSL3 ∧
            session.selected_cert_list_length = 0 then
          match io.alert_send AlertLevel.GNUTLS_AL_WARNING
              AlertDescription.GNUTLS_A_SSL3_NO_CERTIFICATE with
          | Except.error e =>
            (Outcome.fail e,
              [HandshakeCall.alert_send AlertLevel.GNUTLS_AL_WARNING
                AlertDescription.GNUTLS_A_SSL3_NO_CERTIFICATE])
          | Except.ok _ =>
            (Outcome.done data_size,
              [HandshakeCall.alert_send AlertLevel.GNUTLS_AL_WARNING
                AlertDescription.GNUTLS_A_SSL3_NO_CERTIFICATE])
        else
          send_handshake_then io data data_size
            HandshakeDescription.GNUTLS_HANDSHAKE_CERTIFICATE_PKT (fun _ => data_size)

/-- The function `mhd_gtls_recv_client_certificate` (`gnutls_kx.c`, lines
598-689).  The result is the return value, the session after the call and the
calls of the record layer. -/
def mhd_gtls_recv_client_certificate (io : HandshakeExternals) (auth : mod_auth_st)
    (session : Session) : Outcome Int × Session × List HandshakeCall :=
  match auth.mhd_gtls_process_client_certificate with
  | none => (Outcome.done 0, session, [])
  | some process =>
    if session.send_cert_req = 0 then (Outcome.done 0, session, [])
    else
      let optional : Optional :=
        if session.send_cert_req = GNUTLS_CERT_REQUIRE then Optional.MANDATORY_PACKET
        else Optional.OPTIONAL_PACKET
      let calls : List HandshakeCall :=
        [HandshakeCall.recv_handshake HandshakeDescription.GNUTLS_HANDSHAKE_CERTIFICATE_PKT
          optional]
      match io.recv_handshake HandshakeDescription.GNUTLS_HANDSHAKE_CERTIFICATE_PKT
          optional with
      | Except.error ret =>
        if optional = Optional.OPTIONAL_PACKET ∧
            ret = ErrorCode.GNUTLS_E_WARNING_ALERT_RECEIVED ∧
            session.version = Protocol.MHD_GNUTLS_SSL3 ∧
            io.alert_get = AlertDescription.GNUTLS_A_SSL3_NO_CERTIFICATE then
          (Outcome.done 0, session, calls)
        else if (ret = ErrorCode.GNUTLS_E_WARNING_ALERT_RECEIVED ∨
            ret = ErrorCode.GNUTLS_E_FATAL_ALERT_RECEIVED) ∧
            optional = Optional.MANDATORY_PACKET then
          (Outcome.fail ErrorCode.GNUTLS_E_NO_CERTIFICATE_FOUND, session, calls)
        else (Outcome.fail ret, session, calls)
      | Except.ok (ret, data) =>
        if ret = 0 ∧ data.length = 0 ∧ optional = Optional.OPTIONAL_PACKET then
          (Outcome.done 0, session, calls)
        else
          match process session data with
          | (Outcome.fail e, session1) =>
            if e ≠ ErrorCode.GNUTLS_E_NO_CERTIFICATE_FOUND then
              (Outcome.fail e, session1, calls)
            else if optional = Optional.OPTIONAL_PACKET then (Outcome.done 0, session1, calls)
            else
              (Outcome.fail ErrorCode.GNUTLS_E_NO_CERTIFICATE_FOUND,
                { session1 with certificate_requested := 1 }, calls)
          | (Outcome.done _, session1) =>
            (Outcome.done 0, { session1 with certificate_requested := 1 }, calls)
          | (Outcome.fault, session1) => (Outcome.fault, session1, calls)
          | (Outcome.timeout, session1) => (Outcome.timeout, session1, calls)

/-- The function `mhd_gtls_recv_client_certificate_verify_message`
(`gnutls_kx.c`, lines 731-775). -/
def mhd_gtls_recv_client_certificate_verify_message (io : HandshakeExternals)
    (auth : mod_auth_st) (session : Session) : Outcome Int × Session × List HandshakeCall :=
  match auth.mhd_gtls_process_client_cert_vrfy with
  | none => (Outcome.done 0, session, [])
  | some process =>
    if session.send_cert_req = 0 ∨ session.certificate_requested = 0 then
      (Outcome.done 0, session, [])
    else
      let calls : List HandshakeCall :=
        [HandshakeCall.recv_handshake
          HandshakeDescription.GNUTLS_HANDSHAKE_CERTIFICATE_VERIFY Optional.OPTIONAL_PACKET]
      match io.recv_handshake HandshakeDescription.GNUTLS_HANDSHAKE_CERTIFICATE_VERIFY
          Optional.OPTIONAL_PACKET with
      | Except.error ret => (Outcome.fail ret, session, calls)
      | Except.ok (ret, data) =>
        if ret = 0 ∧ data.length = 0 ∧ session.send_cert_req = GNUTLS_CERT_REQUIRE then
          (Outcome.fail ErrorCode.GNUTLS_E_NO_CERTIFICATE_FOUND, session, calls)
        else
          match process session data with
          | (Outcome.fail e, session1) => (Outcome.fail e, session1, calls)
          | (Outcome.done _, session1) => (Outcome.done 0, session1, calls)
          | (Outcome.fault, session1) => (Outcome.fault, session1, calls)
          | (Outcome.timeout, session1) => (Outcome.timeout, session1, calls)

/-! ## The issuer-name loop with every read checked -/

/-- The loop of `_find_x509_cert` as in `find_x509_cert_loop`, with the `size`
bytes at `data` that `memcmp` compares read through `datum_at`: a name that is
not inside the buffer is a fault. -/
def find_x509_cert_loop_checked (ext : SelectExternals) (entries : List cred_entry)
    (pk_algos : List Int) (data : Bytes) : Nat → Nat → Int → Outcome (Option Nat)
  | 0, _, _ => Outcome.timeout
  | fuel + 1, p, data_size =>
    match DECR_LENGTH_RET data_size 2 with
    | none => Outcome.done none
    | some data_size1 =>
      match mhd_gtls_read_uint16 data p with
      | none => Outcome.fault
      | some size =>
        match DECR_LENGTH_RET data_size1 size with
        | none => Outcome.done none
        | some data_size2 =>
          match datum_at data (p + 2) size with
          | none => Outcome.fault
          | some name =>
            match find_x509_cert_store ext pk_algos name entries 0 with
            | Outcome.done none =>
              find_x509_cert_loop_checked ext entries pk_algos data fuel (p + 2 + size)
                data_size2
            | other => other

/-! ## Concrete sessions and collaborators for the instances -/

/-- Collaborators that succeed on every input; the converter keeps the bytes
of the certificate. -/
def accept_all : CertExternals :=
  { auth_info_set := none
    malloc_ok := true
    raw_cert_to_gcert := fun _ => none
    gcert_of := fun raw => { raw := raw }
    calloc_ok := true
    set_datum := fun _ => none
    check_key_usage := fun _ => none }

/-- An X.509 session of the given role and version, with credentials attached
whose issuer sequence is `00 01 41`, and with the chain `L` selected. -/
def session_of (entity : Entity) (version : Protocol) (L : List gnutls_cert) : Session :=
  { entity := entity
    cert_type := CertificateType.MHD_GNUTLS_CRT_X509
    version := version
    ignore_rdn_sequence := 0
    cred := some { x509_rdn_sequence := [0, 1, 65] }
    selected_cert_list := some L
    selected_cert_list_length := (L.length : Int)
    selected_key := some { handle := 0 }
    selected_need_free := 0 }

/-- A client session on which no certificate is selected
(`mhd_gtls_selected_certs_set (session, NULL, 0, NULL, 0)`). -/
def client_without_cert : Session :=
  { entity := Entity.GNUTLS_CLIENT
    cert_type := CertificateType.MHD_GNUTLS_CRT_X509
    version := Protocol.MHD_GNUTLS_TLS1_0
    ignore_rdn_sequence := 0
    cred := some { x509_rdn_sequence := [] }
    selected_cert_list := none
    selected_cert_list_length := 0
    selected_key := none
    selected_need_free := 0 }

/-- Collaborators of the selection functions that succeed on every input; the
issuer name of a certificate is read off its first byte. -/
def select_all : SelectExternals :=
  { auth_info_set := none
    malloc_ok := true
    issuer_dn := fun c =>
      match c.raw with
      | [] => none
      | b :: _ => some [b]
    x509_crt_to_gcert := fun crt => some { raw := [UInt8.ofNat crt.handle] }
    x509_privkey_to_gkey := fun key => some { handle := key.handle } }

/-- A store entry with a chain of one RSA certificate whose issuer name is the
byte `issuer`, and with the key `key`. -/
def entry_of (issuer : UInt8) (key : Nat) : cred_entry :=
  { cert_list := [{ raw := [issuer, 0], subject_pk_algorithm := MHD_GNUTLS_PK_RSA }]
    pkey := { handle := key } }

/-- An X.509 TLS 1.0 session of the given role whose credentials hold the
entries `entries` and no callback, with nothing selected. -/
def session_with_store (entity : Entity) (entries : List cred_entry) : Session :=
  { entity := entity
    cert_type := CertificateType.MHD_GNUTLS_CRT_X509
    version := Protocol.MHD_GNUTLS_TLS1_0
    ignore_rdn_sequence := 0
    cred := some { x509_rdn_sequence := [], entries := entries }
    selected_cert_list := none
    selected_cert_list_length := 0
    selected_key := none
    selected_need_free := 0 }

/-- A client selection callback that declines: it returns 0 and reports zero
certificates. -/
def declining_callback : List Bytes → List Int → Int × gnutls_retr_st :=
  fun _ _ =>
    (0, { type := CertificateType.MHD_GNUTLS_CRT_UNKNOWN, ncerts := 0, cert_x509 := none,
          key_x509 := none, deinit_all := 0 })

/-- An X.509 TLS 1.0 client with the declining callback registered, on which
the chain of the single certificate `AA` with key 7 was selected before. -/
def client_with_callback : Session :=
  { entity := Entity.GNUTLS_CLIENT
    cert_type := CertificateType.MHD_GNUTLS_CRT_X509
    version := Protocol.MHD_GNUTLS_TLS1_0
    ignore_rdn_sequence := 0
    cred := some { x509_rdn_sequence := [], client_get_cert_callback := some declining_callback }
    selected_cert_list := some [{ raw := [170] }]
    selected_cert_list_length := 1
    selected_key := some { handle := 7 }
    selected_need_free := 1 }

/-- A store entry whose chain is an RSA certificate with issuer name `58`
followed by the certificate of its issuer, whose own issuer name is `41`. -/
def chained_entry : cred_entry :=
  { cert_list := [{ raw := [88, 0], subject_pk_algorithm := MHD_GNUTLS_PK_RSA },
                  { raw := [65, 1], subject_pk_algorithm := MHD_GNUTLS_PK_RSA }]
    pkey := { handle := 3 } }

/-- A store entry whose chain is an RSA certificate with issuer name `41`
followed by a certificate whose issuer name is `43`, with the key 0. -/
def cross_chained_entry : cred_entry :=
  { cert_list := [{ raw := [65, 0], subject_pk_algorithm := MHD_GNUTLS_PK_RSA },
                  { raw := [67, 1], subject_pk_algorithm := MHD_GNUTLS_PK_RSA }]
    pkey := { handle := 0 } }

/-- An X.509 TLS 1.0 server whose store holds the entries for the keys 0 and
1, on which the chain of the single certificate `AA` with key 7 was selected
before. -/
def server_with_selection : Session :=
  { entity := Entity.GNUTLS_SERVER
    cert_type := CertificateType.MHD_GNUTLS_CRT_X509
    version := Protocol.MHD_GNUTLS_TLS1_0
    ignore_rdn_sequence := 0
    cred := some { x509_rdn_sequence := [], entries := [entry_of 65 0, entry_of 66 1] }
    selected_cert_list := some [{ raw := [170] }]
    selected_cert_list_length := 1
    selected_key := some { handle := 7 }
    selected_need_free := 0 }

/-- Expansion functions for the examples: the SSL3 expansion repeats the first
byte of the seed, the PRF repeats the number of bytes of label and seed; both
give as many bytes as were asked for. -/
def kx_repeat : KxExternals :=
  { malloc_ok := true
    ssl3_generate_random := fun _ rnd n => Except.ok (List.replicate n (rnd.headD 0))
    PRF := fun _ _ label seed n =>
      Except.ok (List.replicate n (UInt8.ofNat (label.length + seed.length))) }

/-- Expansion functions that fail with `GNUTLS_E_INTERNAL_ERROR`. -/
def kx_failing : KxExternals :=
  { malloc_ok := true
    ssl3_generate_random := fun _ _ _ => Except.error ErrorCode.GNUTLS_E_INTERNAL_ERROR
    PRF := fun _ _ _ _ _ => Except.error ErrorCode.GNUTLS_E_INTERNAL_ERROR }

/-- A session of the given version before the master secret is derived: the
client random is 32 bytes `01`, the server random 32 bytes `02`, the master
secret 48 bytes `AA`, the inner secret 48 bytes `BB` and the premaster secret
`09 08 07`; `oc` and `os` are the extension blobs. -/
def kx_session (version : Protocol) (oc os : Bytes) : Session :=
  { entity := Entity.GNUTLS_CLIENT
    cert_type := CertificateType.MHD_GNUTLS_CRT_X509
    version := version
    ignore_rdn_sequence := 0
    cred := none
    selected_cert_list := none
    selected_cert_list_length := 0
    selected_key := none
    selected_need_free := 0
    client_random := List.replicate 32 1
    server_random := List.replicate 32 2
    master_secret := List.replicate 48 170
    inner_secret := List.replicate 48 187
    oprfi_client := oc
    oprfi_server := os
    PREMASTER := [9, 8, 7] }

/-- A toy signature scheme for the examples: the signature of a digest with
the key `k` is the byte `k` followed by the digest, the certificate whose
first byte is `k` accepts exactly that signature, a certificate is converted
to itself, and the transcript digest of a session is its client random. -/
def toy_signatures : VrfyExternals :=
  { malloc_ok := true
    x509_raw_cert_to_gcert := fun raw => Except.ok { raw := raw }
    sign := fun key digest => Except.ok (UInt8.ofNat key.handle :: digest)
    verify := fun cert digest signature =>
      decide (signature = cert.raw.headD 0 :: digest)
    transcript_digest := fun s => s.client_random }

/-- A TLS 1.0 client that selected the chain of the single certificate `05 00`
with the key 5; its transcript digest is `digest`. -/
def signing_client (digest : Bytes) : Session :=
  { entity := Entity.GNUTLS_CLIENT
    cert_type := CertificateType.MHD_GNUTLS_CRT_X509
    version := Protocol.MHD_GNUTLS_TLS1_0
    ignore_rdn_sequence := 0
    cred := none
    selected_cert_list := some [{ raw := [5, 0] }]
    selected_cert_list_length := 1
    selected_key := some { handle := 5 }
    selected_need_free := 0
    client_random := digest }

/-- A TLS 1.0 server with the peer certificates `certs` on record, `none` for
no authentication information; its transcript digest is `digest`. -/
def verifying_server (certs : Option (List Bytes)) (digest : Bytes) : Session :=
  { entity := Entity.GNUTLS_SERVER
    cert_type := CertificateType.MHD_GNUTLS_CRT_X509
    version := Protocol.MHD_GNUTLS_TLS1_0
    ignore_rdn_sequence := 0
    cred := none
    selected_cert_list := none
    selected_cert_list_length := 0
    selected_key := none
    selected_need_free := 0
    auth_info := certs.map (fun l => { raw_certificate_list := l, ncerts := l.length })
    client_random := digest }

/-- A client callback that returns 0 with zero certificates when it is handed
exactly the issuer names `expected`, and -1 otherwise. -/
def probing_callback (expected : List Bytes) : List Bytes → List Int → Int × gnutls_retr_st :=
  fun issuers_dn _ =>
    (if issuers_dn = expected then 0 else -1,
      { type := CertificateType.MHD_GNUTLS_CRT_UNKNOWN, ncerts := 0, cert_x509 := none,
        key_x509 := none, deinit_all := 0 })

/-- An X.509 TLS 1.0 client on which the callback `probing_callback expected`
is registered and nothing is selected. -/
def probing_client (expected : List Bytes) : Session :=
  { entity := Entity.GNUTLS_CLIENT
    cert_type := CertificateType.MHD_GNUTLS_CRT_X509
    version := Protocol.MHD_GNUTLS_TLS1_0
    ignore_rdn_sequence := 0
    cred := some { x509_rdn_sequence := [],
                   client_get_cert_callback := some (probing_callback expected) }
    selected_cert_list := none
    selected_cert_list_length := 0
    selected_key := none
    selected_need_free := 0 }

/-- A record layer for the examples: every send succeeds with the return
value 0, and the message received is `msg`. -/
def io_receiving (msg : Bytes) : HandshakeExternals :=
  { send_handshake := fun _ _ _ => Except.ok 0
    recv_handshake := fun _ _ => Except.ok (0, msg)
    alert_send := fun _ _ => Except.ok 0
    alert_get := AlertDescription.other 0 }

/-- A generator or processor result without the data the model keeps beside
it: the bytes become the pointer `*data`. -/
def as_generator (r : Outcome (Int × Bytes)) : Outcome (Int × Option Bytes) :=
  match r with
  | Outcome.done (size, out) => Outcome.done (size, some out)
  | Outcome.fail e => Outcome.fail e
  | Outcome.fault => Outcome.fault
  | Outcome.timeout => Outcome.timeout

/-- The certificate authentication method of the examples, made of the
functions of `auth_cert.c` with the collaborators `accept_all` and
`toy_signatures`. -/
def cert_auth : mod_auth_st :=
  { mhd_gtls_gen_server_certificate_request :=
      some (fun s => as_generator (mhd_gtls_gen_cert_server_cert_req true s))
    mhd_gtls_gen_client_certificate :=
      some (fun s => as_generator (mhd_gtls_gen_x509_crt true s))
    mhd_gtls_gen_client_cert_vrfy :=
      some (fun s => (mhd_gtls_gen_cert_client_cert_vrfy toy_signatures s).1)
    mhd_gtls_process_client_certificate :=
      some (fun s data =>
        (match mhd_gtls_proc_x509_server_certificate accept_all s (some data) with
          | Outcome.done _ => Outcome.done ()
          | Outcome.fail e => Outcome.fail e
          | Outcome.fault => Outcome.fault
          | Outcome.timeout => Outcome.timeout, s))
    mhd_gtls_process_client_cert_vrfy :=
      some (fun s data => ((mhd_gtls_proc_cert_client_cert_vrfy toy_signatures s data).1, s)) }

/-- An X.509 server of the given version with credentials attached and the
given value of `send_cert_req`. -/
def requesting_server (version : Protocol) (send_cert_req : Int) : Session :=
  { entity := Entity.GNUTLS_SERVER
    cert_type := CertificateType.MHD_GNUTLS_CRT_X509
    version := version
    ignore_rdn_sequence := 0
    cred := some { x509_rdn_sequence := [0, 1, 65] }
    selected_cert_list := none
    selected_cert_list_length := 0
    selected_key := none
    selected_need_free := 0
    send_cert_req := send_cert_req }

/-- An X.509 client of the given version that was asked for a certificate
(`certificate_requested` is 1) and has the chain `L` selected, with the key
5. -/
def asked_client (version : Protocol) (L : List gnutls_cert) : Session :=
  { entity := Entity.GNUTLS_CLIENT
    cert_type := CertificateType.MHD_GNUTLS_CRT_X509
    version := version
    ignore_rdn_sequence := 0
    cred := some { x509_rdn_sequence := [] }
    selected_cert_list := if L = [] then none else some L
    selected_cert_list_length := (L.length : Int)
    selected_key := if L = [] then none else some { handle := 5 }
    selected_need_free := 0
    certificate_requested := 1 }

/-- A client that owns its selection (`selected_need_free` is 1): the chain of
the two certificates `AA` and `BB` with the key 7. -/
def owning_client : Session :=
  { entity := Entity.GNUTLS_CLIENT
    cert_type := CertificateType.MHD_GNUTLS_CRT_X509
    version := Protocol.MHD_GNUTLS_TLS1_0
    ignore_rdn_sequence := 0
    cred := some { x509_rdn_sequence := [] }
    selected_cert_list := some [{ raw := [170] }, { raw := [187] }]
    selected_cert_list_length := 2
    selected_key := some { handle := 7 }
    selected_need_free := 1 }

/-! ## Lemmas on the number helpers -/

theorem write_uint24_length (n : Nat) : (mhd_gtls_write_uint24 n).length = 3 := rfl

theorem toNat_ofNat_u8 (n : Nat) : (UInt8.ofNat n).toNat = n % 256 := rfl

theorem read_uint24_cons (b0 b1 b2 : UInt8) (pre r : Bytes) :
    mhd_gtls_read_uint24 (pre ++ b0 :: b1 :: b2 :: r) pre.length =
      some (b0.toNat * 65536 + b1.toNat * 256 + b2.toNat) := by
  simp [mhd_gtls_read_uint24]

theorem read_write_uint24 (n : Nat) (pre r : Bytes) :
    mhd_gtls_read_uint24 (pre ++ (mhd_gtls_write_uint24 n ++ r)) pre.length =
      some (n % 16777216) := by
  simp only [mhd_gtls_write_uint24, List.cons_append, List.nil_append, read_uint24_cons,
    toNat_ofNat_u8]
  congr 1
  omega

theorem read_uint24_short (data : Bytes) (p : Nat) (h : data.length < p + 3) :
    mhd_gtls_read_uint24 data p = none := by
  unfold mhd_gtls_read_uint24
  have hl : (data.drop p).length < 3 := by simp; omega
  match hd : data.drop p with
  | [] => rfl
  | [_] => rfl
  | [_, _] => rfl
  | _ :: _ :: _ :: _ => rw [hd] at hl; simp at hl; omega

theorem entries_bytes_length (cs : List Bytes) :
    (entries_bytes cs).length = entries_size cs := by
  induction cs with
  | nil => rfl
  | cons c cs ih => simp [entries_bytes, entries_size, write_uint24_length, ih]; omega

theorem entries_bytes_append (xs ys : List Bytes) :
    entries_bytes (xs ++ ys) = entries_bytes xs ++ entries_bytes ys := by
  induction xs with
  | nil => rfl
  | cons c cs ih => simp [entries_bytes, ih]

/-! ## Lemmas on the encoder loops -/

theorem cert_at_append (pre suf : List gnutls_cert) (c : gnutls_cert) :
    cert_at (some (pre ++ c :: suf)) pre.length = some c := by
  have h : (pre ++ c :: suf)[pre.length]? = some c := by
    rw [List.getElem?_append_right (Nat.le_refl _)]
    simp
  simpa [cert_at] using h

theorem gen_x509_crt_size_eq (pre suf : List gnutls_cert) (ret : Int) :
    gen_x509_crt_size (some (pre ++ suf)) suf.length pre.length ret =
      some (ret + (entries_size (suf.map gnutls_cert.raw) : Int)) := by
  induction suf generalizing pre ret with
  | nil => simp [gen_x509_crt_size, entries_size]
  | cons c cs ih =>
    have h := ih (pre ++ [c]) (ret + ((c.raw.length : Int) + 3))
    simp only [List.append_assoc, List.singleton_append, List.length_append,
      List.length_singleton] at h
    simp only [List.length_cons, gen_x509_crt_size, cert_at_append, h, List.map_cons,
      entries_size]
    congr 1
    push_cast
    ring

theorem gen_x509_crt_write_eq (pre suf : List gnutls_cert) (out : Bytes) :
    gen_x509_crt_write (some (pre ++ suf)) suf.length pre.length out =
      some (out ++ entries_bytes (suf.map gnutls_cert.raw)) := by
  induction suf generalizing pre out with
  | nil => simp [gen_x509_crt_write, entries_bytes]
  | cons c cs ih =>
    have h := ih (pre ++ [c]) (out ++ mhd_gtls_write_datum24 c.raw)
    simp only [List.append_assoc, List.singleton_append, List.length_append,
      List.length_singleton] at h
    simp only [List.length_cons, gen_x509_crt_write, cert_at_append, h, List.map_cons,
      entries_bytes]
    simp [mhd_gtls_write_datum24]

theorem gen_x509_crt_selected (malloc_ok : Bool) (session : Session) (L : List gnutls_cert)
    (key : Option gnutls_privkey) (hsel : SelectedChain session L)
    (hget : mhd_gtls_get_selected_cert session =
      Outcome.done (session.selected_cert_list, session.selected_cert_list_length, key))
    (hm : malloc_ok = true) :
    mhd_gtls_gen_x509_crt malloc_ok session =
      Outcome.done ((3 : Int) + (entries_size (L.map gnutls_cert.raw) : Int),
        mhd_gtls_write_uint24 (entries_size (L.map gnutls_cert.raw)) ++
          entries_bytes (L.map gnutls_cert.raw)) := by
  obtain ⟨hlen, hlist⟩ := hsel
  unfold mhd_gtls_gen_x509_crt
  rw [hget]
  simp only [hlen, Int.toNat_ofNat, hm]
  rcases hlist with h | ⟨h, hL⟩
  · rw [h]
    have h1 := gen_x509_crt_size_eq [] L 3
    have h2 := gen_x509_crt_write_eq [] L
    simp only [List.nil_append, List.length_nil] at h1 h2
    simp [h1, h2]
  · subst hL
    simp [gen_x509_crt_size, gen_x509_crt_write, entries_size, entries_bytes]

/-! ## Lemmas on the decoder loops -/

theorem DECR_LEN_le (len x : Int) (h : x ≤ len) : DECR_LEN len x = some (len - x) := by
  unfold DECR_LEN
  rw [if_neg (by omega)]

theorem DECR_LEN_lt (len x : Int) (h : len < x) : DECR_LEN len x = none := by
  unfold DECR_LEN
  rw [if_pos (by omega)]

theorem proc_x509_count_entries (cs : List Bytes) (hb : ∀ c ∈ cs, c.length < 16777216) :
    ∀ (pre : Bytes) (fuel n : Nat) (seen : List (Nat × Nat)), entries_size cs ≤ fuel →
      proc_x509_count (pre ++ entries_bytes cs) fuel (entries_size cs : Int) pre.length
        (entries_size cs : Int) n seen =
        Outcome.done (n + cs.length, seen ++ entries_index pre.length cs) := by
  induction cs with
  | nil =>
    intro pre fuel n seen _
    cases fuel <;> simp [proc_x509_count, entries_size, entries_index]
  | cons c cs ih =>
    intro pre fuel n seen hf
    have hc : c.length < 16777216 := hb c (List.mem_cons_self _ _)
    have hb2 : ∀ d ∈ cs, d.length < 16777216 := fun d hd => hb d (List.mem_cons_of_mem _ hd)
    obtain ⟨f, rfl⟩ : ∃ f, fuel = f + 1 := ⟨fuel - 1, by simp [entries_size] at hf; omega⟩
    have hpos : ((entries_size (c :: cs) : Nat) : Int) > 0 := by
      simp [entries_size]; omega
    have hd1 : DECR_LEN ((entries_size (c :: cs) : Nat) : Int) 3 =
        some ((c.length + entries_size cs : Nat) : Int) := by
      rw [DECR_LEN_le _ _ (by simp [entries_size]; omega)]
      simp [entries_size]; omega
    have hrd : mhd_gtls_read_uint24 (pre ++ entries_bytes (c :: cs)) pre.length =
        some c.length := by
      simp only [entries_bytes, List.append_assoc]
      rw [read_write_uint24, Nat.mod_eq_of_lt hc]
    have hd2 : DECR_LEN ((c.length + entries_size cs : Nat) : Int) (c.length : Int) =
        some ((entries_size cs : Nat) : Int) := by
      rw [DECR_LEN_le _ _ (by push_cast; omega)]
      simp
    have hi : ((entries_size (c :: cs) : Nat) : Int) - ((c.length : Int) + 3) =
        ((entries_size cs : Nat) : Int) := by
      simp [entries_size]; omega
    have hrec := ih hb2 (pre ++ (mhd_gtls_write_uint24 c.length ++ c)) f (n + 1)
      (seen ++ [(pre.length + 3, c.length)]) (by simp [entries_size] at hf; omega)
    simp only [List.length_append, write_uint24_length, List.append_assoc] at hrec
    rw [proc_x509_count, if_pos hpos, hd1]
    simp only [hrd, hd2, hi]
    simp only [entries_bytes, List.append_assoc, entries_index, List.length_cons]
    rw [show pre.length + 3 + c.length = pre.length + (3 + c.length) by omega, hrec]
    simp [Nat.add_assoc, Nat.add_comm 1]

theorem proc_x509_count_overrun (r : Bytes) (h : Overrun r) :
    ∀ (pre : Bytes) (fuel n : Nat) (seen : List (Nat × Nat)), r.length ≤ fuel →
      proc_x509_count (pre ++ r) fuel (r.length : Int) pre.length (r.length : Int) n seen =
        Outcome.fail ErrorCode.GNUTLS_E_UNEXPECTED_PACKET_LENGTH := by
  induction h with
  | header r h0 h3 =>
    intro pre fuel n seen hf
    obtain ⟨f, rfl⟩ : ∃ f, fuel = f + 1 := ⟨fuel - 1, by omega⟩
    rw [proc_x509_count, if_pos (by omega), DECR_LEN_lt _ _ (by omega)]
  | payload b0 b1 b2 r hlt =>
    intro pre fuel n seen hf
    obtain ⟨f, rfl⟩ : ∃ f, fuel = f + 1 := ⟨fuel - 1, by simp at hf; omega⟩
    rw [proc_x509_count, if_pos (by simp only [List.length_cons]; push_cast; omega),
      DECR_LEN_le _ _ (by simp only [List.length_cons]; push_cast; omega)]
    simp only [read_uint24_cons]
    rw [DECR_LEN_lt _ _ (by simp only [List.length_cons]; push_cast; omega)]
  | later b0 b1 b2 r hle _ ih =>
    intro pre fuel n seen hf
    obtain ⟨f, rfl⟩ : ∃ f, fuel = f + 1 := ⟨fuel - 1, by simp at hf; omega⟩
    rw [proc_x509_count, if_pos (by simp only [List.length_cons]; push_cast; omega),
      DECR_LEN_le _ _ (by simp only [List.length_cons]; push_cast; omega)]
    simp only [read_uint24_cons]
    rw [DECR_LEN_le _ _ (by simp only [List.length_cons]; push_cast; omega)]
    simp only
    have hrec := ih (pre ++ b0 :: b1 :: b2 ::
        r.take (b0.toNat * 65536 + b1.toNat * 256 + b2.toNat)) f (n + 1)
      (seen ++ [(pre.length + 3, b0.toNat * 65536 + b1.toNat * 256 + b2.toNat)])
      (by simp at hf ⊢; omega)
    simp only [List.append_assoc, List.cons_append, List.take_append_drop, List.length_append,
      List.length_cons, List.length_take, List.length_drop, Nat.min_eq_left hle] at hrec
    have e1 : ((b0 :: b1 :: b2 :: r).length : Int) - 3 -
        ((b0.toNat * 65536 + b1.toNat * 256 + b2.toNat : Nat) : Int) =
        ((r.length - (b0.toNat * 65536 + b1.toNat * 256 + b2.toNat) : Nat) : Int) := by
      simp; omega
    have e2 : ((b0 :: b1 :: b2 :: r).length : Int) -
        (((b0.toNat * 65536 + b1.toNat * 256 + b2.toNat : Nat) : Int) + 3) =
        ((r.length - (b0.toNat * 65536 + b1.toNat * 256 + b2.toNat) : Nat) : Int) := by
      simp; omega
    rw [e1, e2]
    rw [show pre.length + 3 + (b0.toNat * 65536 + b1.toNat * 256 + b2.toNat) =
      pre.length + (b0.toNat * 65536 + b1.toNat * 256 + b2.toNat + 1 + 1 + 1) by omega]
    exact hrec

theorem datum_at_entry (pre c rest : Bytes) (w : Bytes) (hw : w.length = 3) :
    datum_at (pre ++ (w ++ (c ++ rest))) (pre.length + 3) c.length = some c := by
  unfold datum_at
  rw [if_pos (by simp [hw]; omega)]
  have e : pre ++ (w ++ (c ++ rest)) = (pre ++ w) ++ (c ++ rest) := by simp
  have l : pre.length + 3 = (pre ++ w).length := by simp [hw]
  rw [e, l, List.drop_left, List.take_left]

theorem proc_x509_convert_entries (ext : CertExternals) (cs : List Bytes)
    (hb : ∀ c ∈ cs, c.length < 16777216) (hacc : ∀ c ∈ cs, ext.raw_cert_to_gcert c = none) :
    ∀ pre : Bytes, proc_x509_convert ext (pre ++ entries_bytes cs) cs.length pre.length =
      Outcome.done (entries_index pre.length cs) := by
  induction cs with
  | nil => intro pre; simp [proc_x509_convert, entries_index]
  | cons c cs ih =>
    intro pre
    have hc : c.length < 16777216 := hb c (List.mem_cons_self _ _)
    have hrec := ih (fun d hd => hb d (List.mem_cons_of_mem _ hd))
      (fun d hd => hacc d (List.mem_cons_of_mem _ hd)) (pre ++ (mhd_gtls_write_uint24 c.length ++ c))
    simp only [List.length_append, write_uint24_length, List.append_assoc] at hrec
    have hrd : mhd_gtls_read_uint24 (pre ++ entries_bytes (c :: cs)) pre.length =
        some c.length := by
      simp only [entries_bytes, List.append_assoc]
      rw [read_write_uint24, Nat.mod_eq_of_lt hc]
    rw [List.length_cons, proc_x509_convert]
    simp only [hrd]
    simp only [entries_bytes, List.append_assoc,
      datum_at_entry pre c (entries_bytes cs) _ (write_uint24_length _),
      hacc c (List.mem_cons_self _ _), entries_index]
    rw [show pre.length + 3 + c.length = pre.length + (3 + c.length) by omega, hrec]

theorem datum_bytes_entries (cs : List Bytes) :
    ∀ pre : Bytes, datum_bytes (pre ++ entries_bytes cs) (entries_index pre.length cs) = cs := by
  induction cs with
  | nil => intro pre; rfl
  | cons c cs ih =>
    intro pre
    have hrec := ih (pre ++ (mhd_gtls_write_uint24 c.length ++ c))
    simp only [List.length_append, write_uint24_length, List.append_assoc] at hrec
    have e : pre ++ (mhd_gtls_write_uint24 c.length ++ (c ++ entries_bytes cs)) =
        (pre ++ mhd_gtls_write_uint24 c.length) ++ (c ++ entries_bytes cs) := by simp
    have l : pre.length + 3 = (pre ++ mhd_gtls_write_uint24 c.length).length := by
      simp [write_uint24_length]
    have hhead : ((pre ++ (mhd_gtls_write_uint24 c.length ++ (c ++ entries_bytes cs))).drop
        (pre.length + 3)).take c.length = c := by
      rw [e, l, List.drop_left, List.take_left]
    simp only [datum_bytes, entries_index, entries_bytes, List.append_assoc, List.map_cons,
      hhead]
    congr 1
    rw [show pre.length + 3 + c.length = pre.length + (3 + c.length) by omega]
    exact hrec

theorem entries_index_length (cs : List Bytes) :
    ∀ p : Nat, (entries_index p cs).length = cs.length := by
  induction cs with
  | nil => intro p; rfl
  | cons c cs ih => intro p; simp [entries_index, ih]

theorem u8_ofNat_toNat (b : UInt8) : UInt8.ofNat b.toNat = b := by
  cases b with
  | mk v =>
    apply UInt8.ext
    simp [UInt8.ofNat, UInt8.toNat, Fin.ofNat]

theorem u8_toNat_lt (b : UInt8) : b.toNat < 256 := b.val.isLt

theorem write_uint24_of_bytes (b0 b1 b2 : UInt8) :
    mhd_gtls_write_uint24 (b0.toNat * 65536 + b1.toNat * 256 + b2.toNat) = [b0, b1, b2] := by
  have h0 := u8_toNat_lt b0
  have h1 := u8_toNat_lt b1
  have h2 := u8_toNat_lt b2
  have e0 : (b0.toNat * 65536 + b1.toNat * 256 + b2.toNat) / 65536 % 256 = b0.toNat := by
    omega
  have e1 : (b0.toNat * 65536 + b1.toNat * 256 + b2.toNat) / 256 % 256 = b1.toNat := by
    omega
  have e2 : (b0.toNat * 65536 + b1.toNat * 256 + b2.toNat) % 256 = b2.toNat := by
    omega
  simp only [mhd_gtls_write_uint24, e0, e1, e2, u8_ofNat_toNat]

/-- Every byte string either is the concatenation of complete entries with
24-bit lengths or is overrun by one of its entries. -/
theorem entries_or_overrun (k : Nat) :
    ∀ r : Bytes, r.length ≤ k →
      (∃ cs : List Bytes, (∀ c ∈ cs, c.length < 16777216) ∧ r = entries_bytes cs) ∨
        Overrun r := by
  induction k with
  | zero =>
    intro r hr
    have : r = [] := List.eq_nil_of_length_eq_zero (by omega)
    exact Or.inl ⟨[], by simp, by simp [this, entries_bytes]⟩
  | succ k ih =>
    intro r hr
    match r, hr with
    | [], _ => exact Or.inl ⟨[], by simp, by simp [entries_bytes]⟩
    | [b], _ => exact Or.inr (Overrun.header _ (by simp) (by simp))
    | [b, c], _ => exact Or.inr (Overrun.header _ (by simp) (by simp))
    | b0 :: b1 :: b2 :: r, hr =>
      by_cases hle : b0.toNat * 65536 + b1.toNat * 256 + b2.toNat ≤ r.length
      · have hlen : (r.drop (b0.toNat * 65536 + b1.toNat * 256 + b2.toNat)).length ≤ k := by
          simp at hr ⊢; omega
        rcases ih _ hlen with ⟨cs, hcs, hr2⟩ | hov
        · refine Or.inl ⟨r.take (b0.toNat * 65536 + b1.toNat * 256 + b2.toNat) :: cs, ?_, ?_⟩
          · intro c hc
            rcases List.mem_cons.mp hc with rfl | hc
            · have h0 := u8_toNat_lt b0
              have h1 := u8_toNat_lt b1
              have h2 := u8_toNat_lt b2
              simp [List.length_take]; omega
            · exact hcs c hc
          · simp only [entries_bytes, List.length_take, Nat.min_eq_left hle,
              write_uint24_of_bytes, ← hr2, List.append_assoc, List.take_append_drop]
            rfl
        · exact Or.inr (Overrun.later b0 b1 b2 r hle hov)
      · exact Or.inr (Overrun.payload b0 b1 b2 r (by omega))

theorem overrun_not_entries (r : Bytes) (h : Overrun r) :
    ∀ cs : List Bytes, (∀ c ∈ cs, c.length < 16777216) → r ≠ entries_bytes cs := by
  induction h with
  | header r h0 h3 =>
    intro cs _ he
    cases cs with
    | nil => simp [he, entries_bytes] at h0
    | cons c cs => simp [he, entries_bytes, write_uint24_length] at h3
  | payload b0 b1 b2 r hlt =>
    intro cs hb he
    cases cs with
    | nil => simp [entries_bytes] at he
    | cons c cs =>
      have hc : c.length < 16777216 := hb c (List.mem_cons_self _ _)
      have hrd := read_uint24_cons b0 b1 b2 [] r
      have hrd2 := read_write_uint24 c.length [] (c ++ entries_bytes cs)
      simp only [List.nil_append, List.length_nil] at hrd hrd2
      rw [he] at hrd
      simp only [entries_bytes, List.append_assoc] at hrd
      rw [hrd2, Nat.mod_eq_of_lt hc] at hrd
      have hl := congrArg List.length he
      simp [entries_bytes, write_uint24_length] at hl
      have := Option.some.inj hrd
      omega
  | later b0 b1 b2 r hle _ ih =>
    intro cs hb he
    cases cs with
    | nil => simp [entries_bytes] at he
    | cons c cs =>
      have hc : c.length < 16777216 := hb c (List.mem_cons_self _ _)
      have hrd := read_uint24_cons b0 b1 b2 [] r
      have hrd2 := read_write_uint24 c.length [] (c ++ entries_bytes cs)
      simp only [List.nil_append, List.length_nil] at hrd hrd2
      rw [he] at hrd
      simp only [entries_bytes, List.append_assoc] at hrd
      rw [hrd2, Nat.mod_eq_of_lt hc] at hrd
      have hlen := Option.some.inj hrd
      have hr : r = c ++ entries_bytes cs := by
        have h3 := congrArg (List.drop 3) he
        simpa [entries_bytes, mhd_gtls_write_uint24] using h3
      apply ih cs (fun d hd => hb d (List.mem_cons_of_mem _ hd))
      rw [← hlen, hr, List.drop_left]

/-! ## The copy into the authentication information -/

theorem copy_loop_outcome (ext : CertExternals) (first : gnutls_cert)
    (tail : List gnutls_cert) :
    ∀ (k i : Nat), i + k ≤ (first :: tail).length →
      (∃ e, copy_certificate_auth_info_loop ext (first :: tail) k i = Outcome.fail e) ∨
        copy_certificate_auth_info_loop ext (first :: tail) k i =
          Outcome.done (if first.raw.length > 0
            then (((first :: tail).drop i).take k).map gnutls_cert.raw
            else List.replicate k []) := by
  intro k
  induction k with
  | zero => intro i _; right; simp [copy_certificate_auth_info_loop]
  | succ k ih =>
    intro i hi
    have hlt : i < (first :: tail).length := by omega
    have hc : (first :: tail).get? i = some ((first :: tail)[i]) := by
      rw [List.get?_eq_getElem?, List.getElem?_eq_getElem hlt]
    have hdrop := List.drop_eq_getElem_cons hlt
    rw [copy_certificate_auth_info_loop]
    by_cases hf : first.raw.length > 0
    · simp only [List.get?_cons_zero, hf, if_true, hc]
      cases hs : ext.set_datum ((first :: tail)[i]).raw with
      | some e => left; exact ⟨e, rfl⟩
      | none =>
        rcases ih (i + 1) (by omega) with ⟨e, h⟩ | h
        · left; exact ⟨e, by simp only [h]⟩
        · right
          simp only [h, hf, if_true, hdrop, List.take_succ_cons, List.map_cons]
    · simp only [List.get?_cons_zero, hf, if_false]
      rcases ih (i + 1) (by omega) with ⟨e, h⟩ | h
      · left; exact ⟨e, by simp only [h]⟩
      · right
        simp only [h, hf, if_false, List.replicate_succ]

theorem copy_loop_accepted (ext : CertExternals) (first : gnutls_cert)
    (tail : List gnutls_cert) (hf : first.raw.length > 0)
    (hs : ∀ c ∈ first :: tail, ext.set_datum c.raw = none) :
    ∀ (k i : Nat), i + k ≤ (first :: tail).length →
      copy_certificate_auth_info_loop ext (first :: tail) k i =
        Outcome.done ((((first :: tail).drop i).take k).map gnutls_cert.raw) := by
  intro k
  induction k with
  | zero => intro i _; simp [copy_certificate_auth_info_loop]
  | succ k ih =>
    intro i hi
    have hlt : i < (first :: tail).length := by omega
    have hc : (first :: tail).get? i = some ((first :: tail)[i]) := by
      rw [List.get?_eq_getElem?, List.getElem?_eq_getElem hlt]
    have hdrop := List.drop_eq_getElem_cons hlt
    rw [copy_certificate_auth_info_loop]
    simp only [List.get?_cons_zero, hf, if_true, hc, hs _ (List.getElem_mem hlt),
      ih (i + 1) (by omega), hdrop, List.take_succ_cons, List.map_cons]

/-- The copy function on an array of `cert.length` certificates returns: it
fails with an error code, or it stores the bytes of every certificate when the
first certificate is not empty, and only empty entries when it is. -/
theorem copy_certificate_auth_info_outcome (ext : CertExternals) (first : gnutls_cert)
    (tail : List gnutls_cert) :
    (∃ e, _gnutls_copy_certificate_auth_info ext (first :: tail) (first :: tail).length =
        Outcome.fail e) ∨
      _gnutls_copy_certificate_auth_info ext (first :: tail) (first :: tail).length =
        Outcome.done
          { raw_certificate_list :=
              if first.raw.length > 0 then (first :: tail).map gnutls_cert.raw
              else List.replicate (first :: tail).length []
            ncerts := (first :: tail).length } := by
  unfold _gnutls_copy_certificate_auth_info
  rw [if_neg (by simp)]
  by_cases hcal : ext.calloc_ok = false
  · left; exact ⟨_, by rw [if_pos hcal]⟩
  · rw [if_neg hcal]
    rcases copy_loop_outcome ext first tail (first :: tail).length 0 (by omega) with
      ⟨e, h⟩ | h
    · left; exact ⟨e, by rw [h]⟩
    · right
      rw [h]
      simp

theorem copy_certificate_auth_info_accepted (ext : CertExternals) (cs : List Bytes)
    (hne : cs ≠ []) (hfirst : cs.head? ≠ some []) (hacc : Accepts ext cs) :
    _gnutls_copy_certificate_auth_info ext (cs.map ext.gcert_of) cs.length =
      Outcome.done { raw_certificate_list := cs, ncerts := cs.length } := by
  obtain ⟨_, _, hexp, hcal, hset, _⟩ := hacc
  match cs, hne with
  | c :: rest, _ =>
    have hc : (ext.gcert_of c).raw = c := hexp c (List.mem_cons_self _ _)
    have hf : (ext.gcert_of c).raw.length > 0 := by
      rw [hc]
      cases c with
      | nil => exact absurd rfl hfirst
      | cons b bs => simp
    have hs : ∀ d ∈ ext.gcert_of c :: rest.map ext.gcert_of, ext.set_datum d.raw = none := by
      intro d hd
      rw [← List.map_cons] at hd
      obtain ⟨x, hx, rfl⟩ := List.mem_map.mp hd
      rw [hexp x hx]
      exact hset x hx
    have h := copy_loop_accepted ext (ext.gcert_of c) (rest.map ext.gcert_of) hf hs
      (c :: rest).length 0 (by simp)
    have hmap : (ext.gcert_of c :: rest.map ext.gcert_of).map gnutls_cert.raw = c :: rest := by
      rw [← List.map_cons, List.map_map]
      conv => rhs; rw [← List.map_id (c :: rest)]
      exact List.map_congr_left (fun x hx => hexp x hx)
    rw [List.drop_zero, List.take_of_length_le (by simp), hmap] at h
    unfold _gnutls_copy_certificate_auth_info
    rw [if_neg (by simp), if_neg (by simp [hcal]), List.map_cons, h]

/-! ## The decoder on a whole message body -/

theorem proc_x509_body (ext : CertExternals) (session : Session) (b0 b1 b2 : UInt8)
    (rest : Bytes) (hr : Ready ext session) (h0 : uint24 b0 b1 b2 ≠ 0)
    (h3 : uint24 b0 b1 b2 ≠ 3) :
    mhd_gtls_proc_x509_server_certificate ext session (some (b0 :: b1 :: b2 :: rest)) =
      match proc_x509_count (b0 :: b1 :: b2 :: rest) (b0 :: b1 :: b2 :: rest).length
          (rest.length : Int) 3 (rest.length : Int) 0 [] with
      | Outcome.fail e => Outcome.fail e
      | Outcome.fault => Outcome.fault
      | Outcome.timeout => Outcome.timeout
      | Outcome.done (peer_certificate_list_size, _) =>
        if peer_certificate_list_size = 0 then
          Outcome.fail ErrorCode.GNUTLS_E_NO_CERTIFICATE_FOUND
        else if ext.malloc_ok = false then
          Outcome.fail ErrorCode.GNUTLS_E_MEMORY_ERROR
        else
          match proc_x509_convert ext (b0 :: b1 :: b2 :: rest) peer_certificate_list_size 3 with
          | Outcome.fail e => Outcome.fail e
          | Outcome.fault => Outcome.fault
          | Outcome.timeout => Outcome.timeout
          | Outcome.done tmps =>
            match _gnutls_copy_certificate_auth_info ext
                ((datum_bytes (b0 :: b1 :: b2 :: rest) tmps).map ext.gcert_of)
                peer_certificate_list_size with
            | Outcome.fail e => Outcome.fail e
            | Outcome.fault => Outcome.fault
            | Outcome.timeout => Outcome.timeout
            | Outcome.done info =>
              match ext.check_key_usage (datum_bytes (b0 :: b1 :: b2 :: rest) tmps).head? with
              | some e => Outcome.fail e
              | none => Outcome.done info.raw_certificate_list := by
  obtain ⟨hc, ha⟩ := hr
  obtain ⟨cred, hcred⟩ : ∃ c, session.cred = some c := by
    cases h : session.cred with
    | none => exact absurd h hc
    | some c => exact ⟨c, rfl⟩
  have hd : DECR_LEN ((b0 :: b1 :: b2 :: rest).length : Int) 3 = some (rest.length : Int) := by
    rw [DECR_LEN_le _ _ (by simp only [List.length_cons]; push_cast; omega)]
    simp only [List.length_cons]; push_cast; congr 1; omega
  have hrd := read_uint24_cons b0 b1 b2 [] rest
  simp only [List.nil_append, List.length_nil] at hrd
  unfold uint24 at h0 h3
  unfold mhd_gtls_proc_x509_server_certificate
  simp only [hcred, ha, hd, hrd]
  rw [if_neg (by simp), if_neg (by simp [h0, h3])]

theorem proc_x509_overrun (ext : CertExternals) (session : Session) (b0 b1 b2 : UInt8)
    (rest : Bytes) (hr : Ready ext session) (h0 : uint24 b0 b1 b2 ≠ 0)
    (h3 : uint24 b0 b1 b2 ≠ 3) (hov : Overrun rest) :
    mhd_gtls_proc_x509_server_certificate ext session (some (b0 :: b1 :: b2 :: rest)) =
      Outcome.fail ErrorCode.GNUTLS_E_UNEXPECTED_PACKET_LENGTH := by
  rw [proc_x509_body ext session b0 b1 b2 rest hr h0 h3]
  have h := proc_x509_count_overrun rest hov [b0, b1, b2] (b0 :: b1 :: b2 :: rest).length 0 []
    (by simp only [List.length_cons]; omega)
  simp only [List.cons_append, List.nil_append, List.length_cons, List.length_nil] at h
  simp only [List.length_cons]
  rw [h]

theorem proc_x509_count_body (b0 b1 b2 : UInt8) (cs : List Bytes)
    (hb : ∀ c ∈ cs, c.length < 16777216) :
    proc_x509_count (b0 :: b1 :: b2 :: entries_bytes cs)
        (b0 :: b1 :: b2 :: entries_bytes cs).length
        ((entries_bytes cs).length : Int) 3 ((entries_bytes cs).length : Int) 0 [] =
      Outcome.done (cs.length, entries_index 3 cs) := by
  have h := proc_x509_count_entries cs hb [b0, b1, b2]
    (b0 :: b1 :: b2 :: entries_bytes cs).length 0 []
    (by simp only [List.length_cons, entries_bytes_length]; omega)
  simp only [List.cons_append, List.nil_append, List.length_cons, List.length_nil,
    Nat.zero_add, entries_bytes_length] at h
  simp only [List.length_cons, entries_bytes_length]
  exact h

theorem proc_x509_no_entries (ext : CertExternals) (session : Session) (b0 b1 b2 : UInt8)
    (hr : Ready ext session) (h0 : uint24 b0 b1 b2 ≠ 0) (h3 : uint24 b0 b1 b2 ≠ 3) :
    mhd_gtls_proc_x509_server_certificate ext session (some [b0, b1, b2]) =
      Outcome.fail ErrorCode.GNUTLS_E_NO_CERTIFICATE_FOUND := by
  rw [proc_x509_body ext session b0 b1 b2 [] hr h0 h3]
  simp [proc_x509_count]

theorem proc_x509_entries (ext : CertExternals) (session : Session) (b0 b1 b2 : UInt8)
    (cs : List Bytes) (hr : Ready ext session) (h0 : uint24 b0 b1 b2 ≠ 0)
    (h3 : uint24 b0 b1 b2 ≠ 3) (hne : cs ≠ []) (hfirst : cs.head? ≠ some [])
    (hb : ∀ c ∈ cs, c.length < 16777216) (hacc : Accepts ext cs) :
    mhd_gtls_proc_x509_server_certificate ext session
        (some (b0 :: b1 :: b2 :: entries_bytes cs)) = Outcome.done cs := by
  have hcopy := copy_certificate_auth_info_accepted ext cs hne hfirst hacc
  obtain ⟨hm, hconv, _, _, _, hku⟩ := hacc
  rw [proc_x509_body ext session b0 b1 b2 _ hr h0 h3, proc_x509_count_body b0 b1 b2 cs hb]
  have hlen : cs.length ≠ 0 := fun h => hne (List.eq_nil_of_length_eq_zero h)
  have hcv := proc_x509_convert_entries ext cs hb hconv [b0, b1, b2]
  have hdb := datum_bytes_entries cs [b0, b1, b2]
  simp only [List.cons_append, List.nil_append, List.length_cons, List.length_nil,
    Nat.zero_add] at hcv hdb
  simp only [hlen, hm, if_false, hcv, hdb, hcopy, hku]
  simp

theorem proc_x509_convert_total (ext : CertExternals) (cs : List Bytes)
    (hb : ∀ c ∈ cs, c.length < 16777216) :
    ∀ pre : Bytes,
      proc_x509_convert ext (pre ++ entries_bytes cs) cs.length pre.length =
          Outcome.done (entries_index pre.length cs) ∨
        ∃ e, proc_x509_convert ext (pre ++ entries_bytes cs) cs.length pre.length =
          Outcome.fail e := by
  induction cs with
  | nil => intro pre; left; simp [proc_x509_convert, entries_index]
  | cons c cs ih =>
    intro pre
    have hc : c.length < 16777216 := hb c (List.mem_cons_self _ _)
    have hrec := ih (fun d hd => hb d (List.mem_cons_of_mem _ hd))
      (pre ++ (mhd_gtls_write_uint24 c.length ++ c))
    simp only [List.length_append, write_uint24_length, List.append_assoc] at hrec
    have hrd : mhd_gtls_read_uint24 (pre ++ entries_bytes (c :: cs)) pre.length =
        some c.length := by
      simp only [entries_bytes, List.append_assoc]
      rw [read_write_uint24, Nat.mod_eq_of_lt hc]
    rw [List.length_cons, proc_x509_convert]
    simp only [hrd]
    simp only [entries_bytes, List.append_assoc,
      datum_at_entry pre c (entries_bytes cs) _ (write_uint24_length _), entries_index]
    rw [show pre.length + 3 + c.length = pre.length + (3 + c.length) by omega]
    cases hcv : ext.raw_cert_to_gcert c with
    | some e => right; exact ⟨e, rfl⟩
    | none =>
      rcases hrec with h | ⟨e, h⟩
      · left; simp only [h]
      · right; exact ⟨e, by simp only [h]⟩

theorem entries_index_bounds (cs : List Bytes) :
    ∀ (p : Nat) (t : Nat × Nat), t ∈ entries_index p cs →
      p + 3 ≤ t.1 ∧ t.1 + t.2 ≤ p + entries_size cs := by
  induction cs with
  | nil => intro p t ht; simp [entries_index] at ht
  | cons c cs ih =>
    intro p t ht
    simp only [entries_index, List.mem_cons] at ht
    rcases ht with rfl | ht
    · simp [entries_size]; omega
    · have := ih _ t ht
      simp only [entries_size]
      omega

/-! ## Lemmas on encoded messages and their truncations -/

theorem uint24_write (n : Nat) (h : n < 16777216) :
    (UInt8.ofNat (n / 65536 % 256)).toNat * 65536 + (UInt8.ofNat (n / 256 % 256)).toNat * 256 +
      (UInt8.ofNat (n % 256)).toNat = n := by
  simp only [toNat_ofNat_u8]
  omega

theorem entries_size_pos (cs : List Bytes) (h : cs ≠ []) : 3 ≤ entries_size cs := by
  cases cs with
  | nil => exact absurd rfl h
  | cons c cs => simp [entries_size]; omega

theorem entries_size_eq_three (cs : List Bytes) (h : entries_size cs = 3) : cs = [[]] := by
  match cs, h with
  | [], h => simp [entries_size] at h
  | [c], h =>
    have hc : c.length = 0 := by
      simp only [entries_size] at h
      omega
    rw [List.eq_nil_of_length_eq_zero hc]
  | c :: d :: cs, h => simp [entries_size] at h; omega

theorem get_selected_cert_nonempty (session : Session) (L : List gnutls_cert)
    (hsel : SelectedChain session L) (hne : L ≠ []) :
    mhd_gtls_get_selected_cert session =
      Outcome.done (session.selected_cert_list, session.selected_cert_list_length,
        session.selected_key) := by
  obtain ⟨hlen, hlist⟩ := hsel
  have hl : session.selected_cert_list_length ≠ 0 := by
    rw [hlen]
    have : L.length ≠ 0 := fun h => hne (List.eq_nil_of_length_eq_zero h)
    exact_mod_cast this
  have hp : session.selected_cert_list ≠ none := by
    rcases hlist with h | ⟨_, h⟩
    · rw [h]; simp
    · exact absurd h hne
  unfold mhd_gtls_get_selected_cert
  cases session.entity with
  | GNUTLS_SERVER => simp [hl, hp]
  | GNUTLS_CLIENT => rfl

theorem get_selected_cert_done (session : Session)
    (x : Option (List gnutls_cert) × Int × Option gnutls_privkey)
    (h : mhd_gtls_get_selected_cert session = Outcome.done x) :
    mhd_gtls_get_selected_cert session =
      Outcome.done (session.selected_cert_list, session.selected_cert_list_length,
        session.selected_key) := by
  unfold mhd_gtls_get_selected_cert at h ⊢
  cases he : session.entity with
  | GNUTLS_SERVER =>
    rw [he] at h
    simp only at h ⊢
    split at h
    · exact absurd h (by simp)
    · rename_i hc
      rw [if_neg hc]
  | GNUTLS_CLIENT => rfl

theorem proc_x509_short (ext : CertExternals) (session : Session) (data : Bytes)
    (hr : Ready ext session) (h0 : 0 < data.length) (h3 : data.length < 3) :
    mhd_gtls_proc_x509_server_certificate ext session (some data) =
      Outcome.fail ErrorCode.GNUTLS_E_UNEXPECTED_PACKET_LENGTH := by
  obtain ⟨hc, ha⟩ := hr
  obtain ⟨cred, hcred⟩ : ∃ c, session.cred = some c := by
    cases h : session.cred with
    | none => exact absurd h hc
    | some c => exact ⟨c, rfl⟩
  unfold mhd_gtls_proc_x509_server_certificate
  simp only [hcred, ha]
  rw [if_neg (by omega), DECR_LEN_lt _ _ (by omega)]

theorem take_entries_overrun (cs : List Bytes) (hb : ∀ c ∈ cs, c.length < 16777216) :
    ∀ m : Nat, 0 < m → m < entries_size cs →
      (∀ j, j ≤ cs.length → m ≠ entries_size (cs.take j)) →
      Overrun ((entries_bytes cs).take m) := by
  induction cs with
  | nil => intro m _ h; simp [entries_size] at h
  | cons c cs ih =>
    intro m hm0 hm hcut
    have hc : c.length < 16777216 := hb c (List.mem_cons_self _ _)
    have hval := uint24_write c.length hc
    by_cases h3 : m < 3
    · apply Overrun.header
      · simp [List.length_take, entries_bytes_length]; omega
      · simp [List.length_take]; omega
    · obtain ⟨m', rfl⟩ : ∃ m', m = m' + 3 := ⟨m - 3, by omega⟩
      have hshape : (entries_bytes (c :: cs)).take (m' + 3) =
          UInt8.ofNat (c.length / 65536 % 256) :: UInt8.ofNat (c.length / 256 % 256) ::
            UInt8.ofNat (c.length % 256) :: (c ++ entries_bytes cs).take m' := by
        simp [entries_bytes, mhd_gtls_write_uint24]
      rw [hshape]
      by_cases hlt : m' < c.length
      · apply Overrun.payload
        rw [hval]
        simp [List.length_take]; omega
      · have hne : m' ≠ c.length := by
          intro he
          have := hcut 1 (by simp)
          simp [entries_size] at this
          omega
        apply Overrun.later
        · rw [hval]
          simp [List.length_take, entries_bytes_length, entries_size] at hm ⊢
          omega
        · rw [hval]
          have htk : (c ++ entries_bytes cs).take m' = c ++ (entries_bytes cs).take (m' - c.length) := by
            rw [List.take_append_eq_append_take, List.take_of_length_le (by omega)]
          rw [htk, List.drop_left]
          apply ih (fun d hd => hb d (List.mem_cons_of_mem _ hd))
          · omega
          · simp [entries_size] at hm; omega
          · intro j hj he
            have := hcut (j + 1) (by simp; omega)
            simp [entries_size] at this
            omega

theorem entries_size_eq_sum (L : List gnutls_cert) :
    entries_size (L.map gnutls_cert.raw) = (L.map (fun c => 3 + c.raw.length)).sum := by
  induction L with
  | nil => rfl
  | cons c cs ih => simp [entries_size, ih]

theorem gen_x509_crt_nonempty (sender : Session) (L : List gnutls_cert)
    (hsel : SelectedChain sender L) (hne : L ≠ []) :
    mhd_gtls_gen_x509_crt true sender =
      Outcome.done ((3 : Int) + (entries_size (L.map gnutls_cert.raw) : Int),
        mhd_gtls_write_uint24 (entries_size (L.map gnutls_cert.raw)) ++
          entries_bytes (L.map gnutls_cert.raw)) :=
  gen_x509_crt_selected true sender L sender.selected_key hsel
    (get_selected_cert_nonempty sender L hsel hne) rfl

theorem proc_x509_copy_outcome (ext : CertExternals) (cs : List Bytes) (hne : cs ≠ []) :
    (∃ e, _gnutls_copy_certificate_auth_info ext (cs.map ext.gcert_of) cs.length =
        Outcome.fail e) ∨
      ∃ info, _gnutls_copy_certificate_auth_info ext (cs.map ext.gcert_of) cs.length =
          Outcome.done info ∧ info.raw_certificate_list.length = cs.length ∧
        ((∀ c ∈ cs, (ext.gcert_of c).raw = c) → cs.head? ≠ some [] →
          info.raw_certificate_list = cs) := by
  match cs, hne with
  | c :: rest, _ =>
    have h := copy_certificate_auth_info_outcome ext (ext.gcert_of c) (rest.map ext.gcert_of)
    rw [List.map_cons]
    simp only [List.length_cons, List.length_map] at h ⊢
    rcases h with h | h
    · exact Or.inl h
    · refine Or.inr ⟨_, h, ?_, ?_⟩
      · simp only
        split <;> simp
      · intro hexp hfirst
        have hc : (ext.gcert_of c).raw = c := hexp c (List.mem_cons_self _ _)
        have hf : (ext.gcert_of c).raw.length > 0 := by
          rw [hc]
          cases c with
          | nil => exact absurd rfl hfirst
          | cons b bs => simp
        simp only
        rw [if_pos hf, ← List.map_cons, List.map_map]
        conv => rhs; rw [← List.map_id (c :: rest)]
        exact List.map_congr_left (fun x hx => hexp x hx)

theorem proc_x509_done_entries (ext : CertExternals) (session : Session) (b0 b1 b2 : UInt8)
    (cs' : List Bytes) (hr : Ready ext session) (h0 : uint24 b0 b1 b2 ≠ 0)
    (h3 : uint24 b0 b1 b2 ≠ 3) (hb : ∀ c ∈ cs', c.length < 16777216) (cs : List Bytes)
    (hd : mhd_gtls_proc_x509_server_certificate ext session
      (some (b0 :: b1 :: b2 :: entries_bytes cs')) = Outcome.done cs) :
    cs' ≠ [] ∧ cs.length = cs'.length ∧
      ((∀ c ∈ cs', (ext.gcert_of c).raw = c) → cs'.head? ≠ some [] → cs = cs') := by
  rw [proc_x509_body ext session b0 b1 b2 _ hr h0 h3, proc_x509_count_body b0 b1 b2 cs' hb] at hd
  have hcv := proc_x509_convert_total ext cs' hb [b0, b1, b2]
  have hdb := datum_bytes_entries cs' [b0, b1, b2]
  simp only [List.cons_append, List.nil_append, List.length_cons, List.length_nil,
    Nat.zero_add] at hcv hdb
  simp only at hd
  split at hd
  · exact absurd hd (by simp)
  · rename_i hlen
    have hne : cs' ≠ [] := fun h => hlen (by simp [h])
    split at hd
    · exact absurd hd (by simp)
    · rcases hcv with h | ⟨e, h⟩
      · rw [h] at hd
        simp only [hdb] at hd
        rcases proc_x509_copy_outcome ext cs' hne with ⟨e, hcp⟩ | ⟨l, hcp, hl, hsame⟩
        · rw [hcp] at hd
          exact absurd hd (by simp)
        · rw [hcp] at hd
          simp only at hd
          split at hd
          · exact absurd hd (by simp)
          · have hcs : l.raw_certificate_list = cs := Outcome.done.inj hd
            subst hcs
            exact ⟨hne, hl, hsame⟩
      · rw [h] at hd
        exact absurd hd (by simp)

theorem proc_x509_entries_outcome (ext : CertExternals) (session : Session) (b0 b1 b2 : UInt8)
    (cs : List Bytes) (hr : Ready ext session) (h0 : uint24 b0 b1 b2 ≠ 0)
    (h3 : uint24 b0 b1 b2 ≠ 3) (hb : ∀ c ∈ cs, c.length < 16777216) :
    (∃ l, mhd_gtls_proc_x509_server_certificate ext session
        (some (b0 :: b1 :: b2 :: entries_bytes cs)) = Outcome.done l) ∨
      ∃ e, mhd_gtls_proc_x509_server_certificate ext session
        (some (b0 :: b1 :: b2 :: entries_bytes cs)) = Outcome.fail e := by
  rw [proc_x509_body ext session b0 b1 b2 _ hr h0 h3, proc_x509_count_body b0 b1 b2 cs hb]
  have hcv := proc_x509_convert_total ext cs hb [b0, b1, b2]
  have hdb := datum_bytes_entries cs [b0, b1, b2]
  simp only [List.cons_append, List.nil_append, List.length_cons, List.length_nil,
    Nat.zero_add] at hcv hdb
  simp only
  split
  · exact Or.inr ⟨_, rfl⟩
  · rename_i hlen
    have hne : cs ≠ [] := fun h => hlen (by simp [h])
    split
    · exact Or.inr ⟨_, rfl⟩
    · rcases hcv with h | ⟨e, h⟩
      · rw [h]
        simp only [hdb]
        rcases proc_x509_copy_outcome ext cs hne with ⟨e, hcp⟩ | ⟨l, hcp, _, _⟩
        · rw [hcp]
          exact Or.inr ⟨e, rfl⟩
        · rw [hcp]
          simp only
          split
          · exact Or.inr ⟨_, rfl⟩
          · exact Or.inl ⟨l.raw_certificate_list, rfl⟩
      · rw [h]
        exact Or.inr ⟨e, rfl⟩

/-- The decoder returns on every input: with the iteration budget it gives to
its first pass it ends neither by exhausting the budget nor in a read outside
the buffer. -/
theorem proc_x509_returns (ext : CertExternals) (session : Session) (data : Option Bytes) :
    (∃ cs, mhd_gtls_proc_x509_server_certificate ext session data = Outcome.done cs) ∨
      ∃ e, mhd_gtls_proc_x509_server_certificate ext session data = Outcome.fail e := by
  cases hc : session.cred with
  | none =>
    right
    exact ⟨ErrorCode.GNUTLS_E_INSUFFICIENT_CREDENTIALS,
      by unfold mhd_gtls_proc_x509_server_certificate; simp only [hc]⟩
  | some cred =>
    cases ha : ext.auth_info_set with
    | some e =>
      right; exact ⟨e, by unfold mhd_gtls_proc_x509_server_certificate; simp only [hc, ha]⟩
    | none =>
      have hr : Ready ext session := ⟨by rw [hc]; simp, ha⟩
      match data with
      | none =>
        right
        exact ⟨ErrorCode.GNUTLS_E_NO_CERTIFICATE_FOUND,
          by unfold mhd_gtls_proc_x509_server_certificate; simp only [hc, ha]⟩
      | some [] =>
        right
        exact ⟨ErrorCode.GNUTLS_E_NO_CERTIFICATE_FOUND,
          by unfold mhd_gtls_proc_x509_server_certificate; simp [hc, ha]⟩
      | some [b] => right; exact ⟨_, proc_x509_short ext session [b] hr (by simp) (by simp)⟩
      | some [b, c] =>
        right; exact ⟨_, proc_x509_short ext session [b, c] hr (by simp) (by simp)⟩
      | some (b0 :: b1 :: b2 :: rest) =>
        by_cases hs : uint24 b0 b1 b2 = 0 ∨ uint24 b0 b1 b2 = 3
        · right
          refine ⟨ErrorCode.GNUTLS_E_NO_CERTIFICATE_FOUND, ?_⟩
          have hrd := read_uint24_cons b0 b1 b2 [] rest
          simp only [List.nil_append, List.length_nil] at hrd
          unfold uint24 at hs
          unfold mhd_gtls_proc_x509_server_certificate
          simp only [hc, ha, hrd]
          rw [if_neg (by simp), DECR_LEN_le _ _ (by simp only [List.length_cons]; push_cast; omega)]
          simp only [if_pos hs]
        · have h0 : uint24 b0 b1 b2 ≠ 0 := fun h => hs (Or.inl h)
          have h3 : uint24 b0 b1 b2 ≠ 3 := fun h => hs (Or.inr h)
          rcases entries_or_overrun rest.length rest (Nat.le_refl _) with ⟨cs, hb, hrest⟩ | hov
          · subst hrest
            rcases proc_x509_entries_outcome ext session b0 b1 b2 cs hr h0 h3 hb with h | ⟨e, h⟩
            · exact Or.inl h
            · exact Or.inr ⟨e, h⟩
          · exact Or.inr ⟨_, proc_x509_overrun ext session b0 b1 b2 rest hr h0 h3 hov⟩

/-- The decoder at a message whose first certificate is empty: the test of
line 81 reads the size of the first certificate in every iteration of the
copy loop, so for `00 00 07 | 00 00 00 | 00 00 01 07` no entry is copied and
the list stored in the authentication information holds two empty entries. -/
theorem first_empty_certificate_blanks_entries :
    mhd_gtls_proc_x509_server_certificate accept_all client_without_cert
        (some [0, 0, 7, 0, 0, 0, 0, 0, 1, 7]) = Outcome.done [[], []] := by
  decide


/-! ## Certificate message: round trip and layout -/

/-- C1 (as amended): for every non-empty list `L` of certificate byte strings
whose first certificate is not the empty string, each shorter than 2^24 bytes
and with an encoded total below 2^24, the output of the Certificate encoder
`mhd_gtls_gen_x509_crt` is decoded by `mhd_gtls_proc_x509_server_certificate`
to exactly `L`: the list it stores in the authentication information is `L`,
in the same order (the collaborators of the decoder accepting the
certificates and the converter keeping their bytes). -/
theorem certificate_list_roundtrip (ext : CertExternals) (sender receiver : Session)
    (L : List gnutls_cert) (hsel : SelectedChain sender L) (hne : L ≠ [])
    (hfirst : (L.map gnutls_cert.raw).head? ≠ some [])
    (hb : ∀ c ∈ L, c.raw.length < 16777216)
    (htot : entries_size (L.map gnutls_cert.raw) < 16777216)
    (hr : Ready ext receiver) (hacc : Accepts ext (L.map gnutls_cert.raw)) :
    ∃ (ret : Int) (out : Bytes),
      mhd_gtls_gen_x509_crt true sender = Outcome.done (ret, out) ∧
        mhd_gtls_proc_x509_server_certificate ext receiver (some out) =
          Outcome.done (L.map gnutls_cert.raw) := by
  refine ⟨_, _, gen_x509_crt_nonempty sender L hsel hne, ?_⟩
  have hne2 : L.map gnutls_cert.raw ≠ [] := by simpa using hne
  have hone : L.map gnutls_cert.raw ≠ [[]] := fun h => hfirst (by rw [h]; rfl)
  have hpos := entries_size_pos _ hne2
  have hval := uint24_write _ htot
  have hb2 : ∀ c ∈ L.map gnutls_cert.raw, c.length < 16777216 := by
    intro c hc
    obtain ⟨d, hd, rfl⟩ := List.mem_map.mp hc
    exact hb d hd
  apply proc_x509_entries ext receiver _ _ _ _ hr _ _ hne2 hfirst hb2 hacc
  · unfold uint24; rw [hval]; omega
  · unfold uint24; rw [hval]
    exact fun h => hone (entries_size_eq_three _ h)

/-- C1, instance of the amended statement: the chain `[01 02], [], [07]` on a
server. -/
theorem certificate_list_roundtrip_witness :
    ∃ (ret : Int) (out : Bytes),
      mhd_gtls_gen_x509_crt true (session_of Entity.GNUTLS_SERVER Protocol.MHD_GNUTLS_TLS1_0
          [{ raw := [1, 2] }, { raw := [] }, { raw := [7] }]) = Outcome.done (ret, out) ∧
        mhd_gtls_proc_x509_server_certificate accept_all client_without_cert (some out) =
          Outcome.done [[1, 2], [], [7]] :=
  certificate_list_roundtrip accept_all
    (session_of Entity.GNUTLS_SERVER Protocol.MHD_GNUTLS_TLS1_0
      [{ raw := [1, 2] }, { raw := [] }, { raw := [7] }])
    client_without_cert [{ raw := [1, 2] }, { raw := [] }, { raw := [7] }]
    ⟨rfl, Or.inl rfl⟩ (by decide) (by decide) (by decide) (by decide)
    ⟨by decide, rfl⟩ ⟨rfl, fun _ _ => rfl, fun _ _ => rfl, rfl, fun _ _ => rfl, rfl⟩

/-- C1, counterexample to the claim as stated: the non-empty list holding one
empty byte string is within the stated bounds, its encoding is
`00 00 03 00 00 00`, and the decoder answers `GNUTLS_E_NO_CERTIFICATE_FOUND`
instead of returning the list. -/
theorem single_empty_certificate_not_returned :
    SelectedChain (session_of Entity.GNUTLS_SERVER Protocol.MHD_GNUTLS_TLS1_0 [{ raw := [] }])
        [{ raw := [] }] ∧
      mhd_gtls_gen_x509_crt true
          (session_of Entity.GNUTLS_SERVER Protocol.MHD_GNUTLS_TLS1_0 [{ raw := [] }]) =
        Outcome.done (6, [0, 0, 3, 0, 0, 0]) ∧
      mhd_gtls_proc_x509_server_certificate accept_all client_without_cert
          (some [0, 0, 3, 0, 0, 0]) =
        Outcome.fail ErrorCode.GNUTLS_E_NO_CERTIFICATE_FOUND := by
  refine ⟨⟨rfl, Or.inl rfl⟩, ?_, ?_⟩
  · decide
  · decide

/-- C2: for every selected chain `L` of N >= 0 certificates for which
`mhd_gtls_get_selected_cert` succeeds, `mhd_gtls_gen_x509_crt` writes the
3-byte big-endian field of the total, the sum over the chain of 3 plus the
length, and then, in chain order, for each certificate the 3-byte big-endian
field of its length followed by its bytes; it returns 3 plus that sum, which
is the number of bytes written.  (A 3-byte field holds the low 24 bits of the
number; read back it gives the total whenever the total is below 2^24.) -/
theorem gen_x509_crt_layout (session : Session) (L : List gnutls_cert)
    (x : Option (List gnutls_cert) × Int × Option gnutls_privkey)
    (hsel : SelectedChain session L)
    (hget : mhd_gtls_get_selected_cert session = Outcome.done x) :
    ∃ (ret : Int) (out : Bytes),
      mhd_gtls_gen_x509_crt true session = Outcome.done (ret, out) ∧
        out = mhd_gtls_write_uint24 (L.map (fun c => 3 + c.raw.length)).sum ++
          entries_bytes (L.map gnutls_cert.raw) ∧
        ret = 3 + ((L.map (fun c => 3 + c.raw.length)).sum : Nat) ∧
        ret = (out.length : Int) ∧
        ((L.map (fun c => 3 + c.raw.length)).sum < 16777216 →
          mhd_gtls_read_uint24 out 0 = some (L.map (fun c => 3 + c.raw.length)).sum) := by
  have hg := gen_x509_crt_selected true session L session.selected_key hsel
    (get_selected_cert_done session x hget) rfl
  rw [entries_size_eq_sum] at hg
  refine ⟨_, _, hg, rfl, rfl, ?_, ?_⟩
  · simp only [List.length_append, write_uint24_length, entries_bytes_length,
      entries_size_eq_sum]
    push_cast
    ring
  · intro hlt
    have h := read_write_uint24 (L.map (fun c => 3 + c.raw.length)).sum []
      (entries_bytes (L.map gnutls_cert.raw))
    simp only [List.nil_append, List.length_nil] at h
    rw [h, Nat.mod_eq_of_lt hlt]

/-- C2, instance: a client with the chain `[01 02], [07]` selected. -/
theorem gen_x509_crt_layout_witness :
    ∃ (ret : Int) (out : Bytes),
      mhd_gtls_gen_x509_crt true (session_of Entity.GNUTLS_CLIENT Protocol.MHD_GNUTLS_TLS1_0
          [{ raw := [1, 2] }, { raw := [7] }]) = Outcome.done (ret, out) ∧
        out = mhd_gtls_write_uint24 9 ++ entries_bytes [[1, 2], [7]] ∧
        ret = 3 + ((9 : Nat) : Int) ∧ ret = (out.length : Int) ∧
        ((9 : Nat) < 16777216 → mhd_gtls_read_uint24 out 0 = some 9) :=
  gen_x509_crt_layout
    (session_of Entity.GNUTLS_CLIENT Protocol.MHD_GNUTLS_TLS1_0 [{ raw := [1, 2] }, { raw := [7] }])
    [{ raw := [1, 2] }, { raw := [7] }] _ ⟨rfl, Or.inl rfl⟩ rfl

/-- C3 (as amended): when no certificate is selected on a client, the
Certificate encoder writes a 3-byte total-length field whose value is 0, with
no certificate entries after it, and returns 3, the length of these bytes. -/
theorem gen_x509_crt_empty (session : Session)
    (hclient : session.entity = Entity.GNUTLS_CLIENT) (hsel : SelectedChain session []) :
    mhd_gtls_gen_x509_crt true session = Outcome.done (3, [0, 0, 0]) ∧
      mhd_gtls_read_uint24 [0, 0, 0] 0 = some 0 := by
  have hget : mhd_gtls_get_selected_cert session =
      Outcome.done (session.selected_cert_list, session.selected_cert_list_length,
        session.selected_key) := by
    unfold mhd_gtls_get_selected_cert
    rw [hclient]
  have hg := gen_x509_crt_selected true session [] session.selected_key hsel hget rfl
  exact ⟨by simpa [entries_size, entries_bytes, mhd_gtls_write_uint24] using hg, rfl⟩

/-- C3, instance of the amended statement: the client on which
`mhd_gtls_selected_certs_set (session, NULL, 0, NULL, 0)` was called. -/
theorem gen_x509_crt_empty_witness :
    mhd_gtls_gen_x509_crt true client_without_cert = Outcome.done (3, [0, 0, 0]) ∧
      mhd_gtls_read_uint24 [0, 0, 0] 0 = some 0 :=
  gen_x509_crt_empty client_without_cert rfl ⟨rfl, Or.inr ⟨rfl, rfl⟩⟩

/-- C3, counterexample to the claim as stated: for the client without a
selected certificate no output of the encoder has a total-length field of
value 3; the field written is `00 00 00`. -/
theorem empty_total_field_is_not_three :
    ¬ ∃ (ret : Int) (out : Bytes),
      mhd_gtls_gen_x509_crt true client_without_cert = Outcome.done (ret, out) ∧
        mhd_gtls_read_uint24 out 0 = some 3 := by
  rintro ⟨ret, out, hg, hrd⟩
  have h : mhd_gtls_gen_x509_crt true client_without_cert = Outcome.done (3, [0, 0, 0]) := by
    decide
  rw [h] at hg
  have hout : out = [0, 0, 0] := by
    have := Outcome.done.inj hg
    exact (Prod.mk.inj this).2.symm
  rw [hout] at hrd
  exact absurd hrd (by decide)

/-- C4 (as amended): the bytes produced by the Certificate encoder for an
empty certificate list are taken by the Certificate decoder as "no certificate
supplied": it returns `GNUTLS_E_NO_CERTIFICATE_FOUND`, and no certificate
list. -/
theorem empty_list_decodes_to_no_certificate (ext : CertExternals)
    (sender receiver : Session) (hclient : sender.entity = Entity.GNUTLS_CLIENT)
    (hsel : SelectedChain sender []) (hr : Ready ext receiver) :
    ∃ (ret : Int) (out : Bytes),
      mhd_gtls_gen_x509_crt true sender = Outcome.done (ret, out) ∧
        mhd_gtls_proc_x509_server_certificate ext receiver (some out) =
          Outcome.fail ErrorCode.GNUTLS_E_NO_CERTIFICATE_FOUND := by
  have hget : mhd_gtls_get_selected_cert sender =
      Outcome.done (sender.selected_cert_list, sender.selected_cert_list_length,
        sender.selected_key) := by
    unfold mhd_gtls_get_selected_cert
    rw [hclient]
  have hg := gen_x509_crt_selected true sender [] sender.selected_key hsel hget rfl
  refine ⟨_, _, hg, ?_⟩
  obtain ⟨hc, ha⟩ := hr
  obtain ⟨cred, hcred⟩ : ∃ c, receiver.cred = some c := by
    cases h : receiver.cred with
    | none => exact absurd h hc
    | some c => exact ⟨c, rfl⟩
  unfold mhd_gtls_proc_x509_server_certificate
  simp only [hcred, ha]
  rfl

/-- C4, instance of the amended statement. -/
theorem empty_list_decodes_to_no_certificate_witness :
    ∃ (ret : Int) (out : Bytes),
      mhd_gtls_gen_x509_crt true client_without_cert = Outcome.done (ret, out) ∧
        mhd_gtls_proc_x509_server_certificate accept_all
            (session_of Entity.GNUTLS_SERVER Protocol.MHD_GNUTLS_TLS1_0 []) (some out) =
          Outcome.fail ErrorCode.GNUTLS_E_NO_CERTIFICATE_FOUND :=
  empty_list_decodes_to_no_certificate accept_all client_without_cert
    (session_of Entity.GNUTLS_SERVER Protocol.MHD_GNUTLS_TLS1_0 []) rfl
    ⟨rfl, Or.inr ⟨rfl, rfl⟩⟩ ⟨by decide, rfl⟩

/-- C4, counterexample to the claim as stated: the encoder output for the
empty list is `00 00 00`, and decoding it ends with the error code
`GNUTLS_E_NO_CERTIFICATE_FOUND`, not with success and an empty list. -/
theorem empty_list_not_decoded_to_empty :
    mhd_gtls_gen_x509_crt true client_without_cert = Outcome.done (3, [0, 0, 0]) ∧
      mhd_gtls_proc_x509_server_certificate accept_all
          (session_of Entity.GNUTLS_SERVER Protocol.MHD_GNUTLS_TLS1_0 []) (some [0, 0, 0]) =
        Outcome.fail ErrorCode.GNUTLS_E_NO_CERTIFICATE_FOUND ∧
      mhd_gtls_proc_x509_server_certificate accept_all
          (session_of Entity.GNUTLS_SERVER Protocol.MHD_GNUTLS_TLS1_0 []) (some [0, 0, 0]) ≠
        Outcome.done [] := by
  refine ⟨by decide, by decide, ?_⟩
  have h : mhd_gtls_proc_x509_server_certificate accept_all
      (session_of Entity.GNUTLS_SERVER Protocol.MHD_GNUTLS_TLS1_0 []) (some [0, 0, 0]) =
      Outcome.fail ErrorCode.GNUTLS_E_NO_CERTIFICATE_FOUND := by decide
  rw [h]
  exact fun h => Outcome.noConfusion h

/-! ## Certificate message: truncated and malformed input -/

/-- C5 (as amended): for every encoded Certificate message, the encoder output
for a non-empty list other than the list holding just the empty string, with
lengths and total below 2^24, and every byte offset `k` strictly inside it that
is neither the end of the 3-byte total-length field nor the end of an entry,
the Certificate decoder applied to the first `k` bytes returns
`GNUTLS_E_UNEXPECTED_PACKET_LENGTH`. -/
theorem truncated_message_unexpected_length (ext : CertExternals)
    (sender receiver : Session) (L : List gnutls_cert) (ret : Int) (out : Bytes) (k : Nat)
    (hsel : SelectedChain sender L) (hne : L ≠ [])
    (hone : L.map gnutls_cert.raw ≠ [[]])
    (hb : ∀ c ∈ L, c.raw.length < 16777216)
    (htot : entries_size (L.map gnutls_cert.raw) < 16777216)
    (hgen : mhd_gtls_gen_x509_crt true sender = Outcome.done (ret, out))
    (hr : Ready ext receiver) (hk0 : 0 < k) (hk : k < out.length)
    (hcut : ∀ j, j ≤ L.length → k ≠ 3 + entries_size ((L.take j).map gnutls_cert.raw)) :
    mhd_gtls_proc_x509_server_certificate ext receiver (some (out.take k)) =
      Outcome.fail ErrorCode.GNUTLS_E_UNEXPECTED_PACKET_LENGTH := by
  have hg := gen_x509_crt_nonempty sender L hsel hne
  rw [hg] at hgen
  have hout : out = mhd_gtls_write_uint24 (entries_size (L.map gnutls_cert.raw)) ++
      entries_bytes (L.map gnutls_cert.raw) := (Prod.mk.inj (Outcome.done.inj hgen)).2.symm
  have hlen : out.length = 3 + entries_size (L.map gnutls_cert.raw) := by
    rw [hout]; simp [write_uint24_length, entries_bytes_length]
  have hne2 : L.map gnutls_cert.raw ≠ [] := by simpa using hne
  have hpos := entries_size_pos _ hne2
  have hval := uint24_write _ htot
  have hb2 : ∀ c ∈ L.map gnutls_cert.raw, c.length < 16777216 := by
    intro c hc
    obtain ⟨d, hd, rfl⟩ := List.mem_map.mp hc
    exact hb d hd
  by_cases h3 : k < 3
  · apply proc_x509_short ext receiver _ hr
    · simp [List.length_take]; omega
    · simp [List.length_take]; omega
  · obtain ⟨m, rfl⟩ : ∃ m, k = m + 3 := ⟨k - 3, by omega⟩
    have hm0 : 0 < m := by
      have := hcut 0 (Nat.zero_le _)
      simp [entries_size] at this
      omega
    have hshape : out.take (m + 3) =
        UInt8.ofNat (entries_size (L.map gnutls_cert.raw) / 65536 % 256) ::
          UInt8.ofNat (entries_size (L.map gnutls_cert.raw) / 256 % 256) ::
          UInt8.ofNat (entries_size (L.map gnutls_cert.raw) % 256) ::
          (entries_bytes (L.map gnutls_cert.raw)).take m := by
      rw [hout]; simp [mhd_gtls_write_uint24]
    rw [hshape]
    apply proc_x509_overrun ext receiver _ _ _ _ hr
    · unfold uint24; rw [hval]; omega
    · unfold uint24; rw [hval]
      exact fun h => hone (entries_size_eq_three _ h)
    · apply take_entries_overrun _ hb2 m hm0 (by omega)
      intro j hj he
      have hj2 : j ≤ L.length := by simpa using hj
      apply hcut j hj2
      rw [List.map_take, ← he]
      omega

/-- C5, instance of the amended statement: the message for `[01], [02]` cut
after 5 bytes, inside the first entry. -/
theorem truncated_message_unexpected_length_witness :
    mhd_gtls_gen_x509_crt true (session_of Entity.GNUTLS_SERVER Protocol.MHD_GNUTLS_TLS1_0
        [{ raw := [1] }, { raw := [2] }]) = Outcome.done (11, [0, 0, 8, 0, 0, 1, 1, 0, 0, 1, 2]) ∧
      mhd_gtls_proc_x509_server_certificate accept_all client_without_cert
          (some ([0, 0, 8, 0, 0, 1, 1, 0, 0, 1, 2].take 5)) =
        Outcome.fail ErrorCode.GNUTLS_E_UNEXPECTED_PACKET_LENGTH :=
  ⟨by decide,
    truncated_message_unexpected_length accept_all
      (session_of Entity.GNUTLS_SERVER Protocol.MHD_GNUTLS_TLS1_0 [{ raw := [1] }, { raw := [2] }])
      client_without_cert [{ raw := [1] }, { raw := [2] }] 11 [0, 0, 8, 0, 0, 1, 1, 0, 0, 1, 2] 5
      ⟨rfl, Or.inl rfl⟩ (by decide) (by decide) (by decide) (by decide) (by decide)
      ⟨by decide, rfl⟩ (by decide) (by decide) (by decide)⟩

/-- C5, counterexample to the claim as stated: of the 11-byte message for
`[01], [02]`, the first 3 bytes decode to `GNUTLS_E_NO_CERTIFICATE_FOUND` and
the first 7 bytes decode successfully to the list `[01]`; and of the 6-byte
message for the list holding the empty string, the first 4 bytes decode to
`GNUTLS_E_NO_CERTIFICATE_FOUND`. -/
theorem truncation_without_length_error :
    mhd_gtls_gen_x509_crt true (session_of Entity.GNUTLS_SERVER Protocol.MHD_GNUTLS_TLS1_0
        [{ raw := [1] }, { raw := [2] }]) = Outcome.done (11, [0, 0, 8, 0, 0, 1, 1, 0, 0, 1, 2]) ∧
      mhd_gtls_proc_x509_server_certificate accept_all client_without_cert
          (some ([0, 0, 8, 0, 0, 1, 1, 0, 0, 1, 2].take 3)) =
        Outcome.fail ErrorCode.GNUTLS_E_NO_CERTIFICATE_FOUND ∧
      mhd_gtls_proc_x509_server_certificate accept_all client_without_cert
          (some ([0, 0, 8, 0, 0, 1, 1, 0, 0, 1, 2].take 7)) = Outcome.done [[1]] ∧
      mhd_gtls_gen_x509_crt true (session_of Entity.GNUTLS_SERVER Protocol.MHD_GNUTLS_TLS1_0
        [{ raw := [] }]) = Outcome.done (6, [0, 0, 3, 0, 0, 0]) ∧
      mhd_gtls_proc_x509_server_certificate accept_all client_without_cert
          (some ([0, 0, 3, 0, 0, 0].take 4)) =
        Outcome.fail ErrorCode.GNUTLS_E_NO_CERTIFICATE_FOUND := by
  refine ⟨by decide, by decide, by decide, by decide, by decide⟩

/-- C6: for every input buffer, `mhd_gtls_proc_x509_server_certificate` treats
the empty encodings as "no certificate supplied": if the buffer is `NULL` or
empty, or has at least 3 bytes and its 24-bit total-length field is 0 or 3,
the result is `GNUTLS_E_NO_CERTIFICATE_FOUND`, and so not
`GNUTLS_E_UNEXPECTED_PACKET_LENGTH`, whatever bytes follow the field. -/
theorem empty_encodings_no_certificate (ext : CertExternals) (session : Session)
    (hr : Ready ext session) :
    mhd_gtls_proc_x509_server_certificate ext session none =
        Outcome.fail ErrorCode.GNUTLS_E_NO_CERTIFICATE_FOUND ∧
      ∀ data : Bytes,
        (data = [] ∨ mhd_gtls_read_uint24 data 0 = some 0 ∨
          mhd_gtls_read_uint24 data 0 = some 3) →
        mhd_gtls_proc_x509_server_certificate ext session (some data) =
            Outcome.fail ErrorCode.GNUTLS_E_NO_CERTIFICATE_FOUND ∧
          mhd_gtls_proc_x509_server_certificate ext session (some data) ≠
            Outcome.fail ErrorCode.GNUTLS_E_UNEXPECTED_PACKET_LENGTH := by
  obtain ⟨hc, ha⟩ := hr
  obtain ⟨cred, hcred⟩ : ∃ c, session.cred = some c := by
    cases h : session.cred with
    | none => exact absurd h hc
    | some c => exact ⟨c, rfl⟩
  have key : ∀ data : Bytes,
      (data = [] ∨ mhd_gtls_read_uint24 data 0 = some 0 ∨
        mhd_gtls_read_uint24 data 0 = some 3) →
      mhd_gtls_proc_x509_server_certificate ext session (some data) =
        Outcome.fail ErrorCode.GNUTLS_E_NO_CERTIFICATE_FOUND := by
    intro data hd
    unfold mhd_gtls_proc_x509_server_certificate
    simp only [hcred, ha]
    rcases hd with rfl | hd
    · simp
    · have h3 : 3 ≤ data.length := by
        by_contra hlt
        rw [read_uint24_short data 0 (by omega)] at hd
        simp at hd
      rw [if_neg (by omega), DECR_LEN_le _ _ (by omega)]
      rcases hd with hd | hd <;> simp [hd]
  refine ⟨?_, fun data hd => ⟨key data hd, ?_⟩⟩
  · unfold mhd_gtls_proc_x509_server_certificate
    simp only [hcred, ha]
  · rw [key data hd]
    simp

/-- C6, instance: the buffer `00 00 03 AA BB CC DD` with bytes behind a
total-length field of value 3. -/
theorem empty_encodings_no_certificate_witness :
    mhd_gtls_proc_x509_server_certificate accept_all client_without_cert
        (some [0, 0, 3, 170, 187, 204, 221]) =
      Outcome.fail ErrorCode.GNUTLS_E_NO_CERTIFICATE_FOUND :=
  ((empty_encodings_no_certificate accept_all client_without_cert ⟨by decide, rfl⟩).2
    [0, 0, 3, 170, 187, 204, 221] (Or.inr (Or.inr rfl))).1

/-- C7: for every Certificate message buffer whose total-length field is
neither 0 nor 3, if while walking the (3-byte length, payload) entries behind
the field some entry's 3-byte header or its declared length exceeds the bytes
remaining in the buffer, the decoder returns
`GNUTLS_E_UNEXPECTED_PACKET_LENGTH`; the outcome carries no certificate list. -/
theorem overrun_unexpected_length (ext : CertExternals) (session : Session)
    (b0 b1 b2 : UInt8) (rest : Bytes) (hr : Ready ext session)
    (h0 : uint24 b0 b1 b2 ≠ 0) (h3 : uint24 b0 b1 b2 ≠ 3) (hov : Overrun rest) :
    mhd_gtls_proc_x509_server_certificate ext session (some (b0 :: b1 :: b2 :: rest)) =
      Outcome.fail ErrorCode.GNUTLS_E_UNEXPECTED_PACKET_LENGTH :=
  proc_x509_overrun ext session b0 b1 b2 rest hr h0 h3 hov

/-- C7, instance: in `00 00 09 | 00 00 01 AA | 00 00 05 BB` the second entry
declares 5 bytes and 1 byte remains. -/
theorem overrun_unexpected_length_witness :
    Overrun [0, 0, 1, 170, 0, 0, 5, 187] ∧
      mhd_gtls_proc_x509_server_certificate accept_all client_without_cert
          (some [0, 0, 9, 0, 0, 1, 170, 0, 0, 5, 187]) =
        Outcome.fail ErrorCode.GNUTLS_E_UNEXPECTED_PACKET_LENGTH :=
  have hov : Overrun [0, 0, 1, 170, 0, 0, 5, 187] :=
    Overrun.later 0 0 1 [170, 0, 0, 5, 187] (by decide)
      (Overrun.payload 0 0 5 [187] (by decide))
  ⟨hov, overrun_unexpected_length accept_all client_without_cert 0 0 9
    [0, 0, 1, 170, 0, 0, 5, 187] ⟨by decide, rfl⟩ (by decide) (by decide) hov⟩

/-- C8 (as amended): the Certificate decoder reads (3-byte length, payload)
entries until the buffer is consumed; the value of the total-length field is
used only to recognise the empty encodings 0 and 3.  For every buffer whose
field is neither 0 nor 3, whenever the decoder returns certificates, all the
bytes of the buffer behind the field are the (length, payload) entries of a
non-empty list, one certificate is returned for each entry, and the
certificates returned are exactly these entries when the first entry is not
empty and the converter keeps the bytes of each entry; and when the bytes
behind the field are the entries of a non-empty list whose first entry is not
empty and that the collaborators accept, that list is returned. -/
theorem certificates_fill_the_buffer (ext : CertExternals) (session : Session)
    (b0 b1 b2 : UInt8) (rest : Bytes) (hr : Ready ext session)
    (h0 : uint24 b0 b1 b2 ≠ 0) (h3 : uint24 b0 b1 b2 ≠ 3) :
    (∀ cs : List Bytes,
        mhd_gtls_proc_x509_server_certificate ext session (some (b0 :: b1 :: b2 :: rest)) =
          Outcome.done cs →
        ∃ entries : List Bytes,
          entries ≠ [] ∧ (∀ c ∈ entries, c.length < 16777216) ∧
            rest = entries_bytes entries ∧ cs.length = entries.length ∧
            ((∀ c ∈ entries, (ext.gcert_of c).raw = c) → entries.head? ≠ some [] →
              cs = entries)) ∧
      (∀ cs : List Bytes, cs ≠ [] → cs.head? ≠ some [] → (∀ c ∈ cs, c.length < 16777216) →
        rest = entries_bytes cs → Accepts ext cs →
        mhd_gtls_proc_x509_server_certificate ext session (some (b0 :: b1 :: b2 :: rest)) =
          Outcome.done cs) := by
  constructor
  · intro cs hd
    rcases entries_or_overrun rest.length rest (Nat.le_refl _) with ⟨cs', hb, hrest⟩ | hov
    · subst hrest
      obtain ⟨hne, hlen, hsame⟩ :=
        proc_x509_done_entries ext session b0 b1 b2 cs' hr h0 h3 hb cs hd
      exact ⟨cs', hne, hb, rfl, hlen, hsame⟩
    · rw [proc_x509_overrun ext session b0 b1 b2 rest hr h0 h3 hov] at hd
      exact absurd hd (by simp)
  · intro cs hne hfirst hb hrest hacc
    subst hrest
    exact proc_x509_entries ext session b0 b1 b2 cs hr h0 h3 hne hfirst hb hacc

/-- C8, instance of the amended statement: the buffer
`00 00 04 | 00 00 01 AA | 00 00 01 BB`, whose field declares 4 bytes. -/
theorem certificates_fill_the_buffer_witness :
    mhd_gtls_proc_x509_server_certificate accept_all client_without_cert
        (some (0 :: 0 :: 4 :: entries_bytes [[170], [187]])) = Outcome.done [[170], [187]] :=
  (certificates_fill_the_buffer accept_all client_without_cert 0 0 4
    (entries_bytes [[170], [187]]) ⟨by decide, rfl⟩ (by decide) (by decide)).2
    [[170], [187]] (by decide) (by decide) (by decide) rfl
    ⟨rfl, fun _ _ => rfl, fun _ _ => rfl, rfl, fun _ _ => rfl, rfl⟩

/-- C8, counterexample to the claim as stated: in
`00 00 04 | 00 00 01 AA | 00 00 01 BB` the field declares a total of 4 bytes,
the first 4 bytes behind the field are the one entry `AA`, and the decoder
returns the two certificates `AA` and `BB`. -/
theorem bytes_beyond_declared_total_returned :
    mhd_gtls_read_uint24 [0, 0, 4, 0, 0, 1, 170, 0, 0, 1, 187] 0 = some 4 ∧
      (([0, 0, 4, 0, 0, 1, 170, 0, 0, 1, 187] : Bytes).drop 3).take 4 =
        entries_bytes [[170]] ∧
      mhd_gtls_proc_x509_server_certificate accept_all client_without_cert
          (some [0, 0, 4, 0, 0, 1, 170, 0, 0, 1, 187]) = Outcome.done [[170], [187]] := by
  refine ⟨by decide, by decide, by decide⟩

/-- C9: in `mhd_gtls_proc_x509_server_certificate`, whenever the first,
length-checked pass over the buffer succeeds and counts `n` entries, the
second pass, which parses again without length checks, reads exactly the same
`n` (length, payload) entries, as long as the certificate converter does not
stop it, and every byte it reads lies inside the input buffer: it never ends
in a fault, whatever the converter answers. -/
theorem second_pass_reads_same_entries (ext : CertExternals) (b0 b1 b2 : UInt8)
    (rest : Bytes) (n : Nat) (seen : List (Nat × Nat))
    (hcount : proc_x509_count (b0 :: b1 :: b2 :: rest) (b0 :: b1 :: b2 :: rest).length
      (rest.length : Int) 3 (rest.length : Int) 0 [] = Outcome.done (n, seen)) :
    seen.length = n ∧
      (∀ t ∈ seen, 6 ≤ t.1 ∧ t.1 + t.2 ≤ (b0 :: b1 :: b2 :: rest).length) ∧
      proc_x509_convert ext (b0 :: b1 :: b2 :: rest) n 3 ≠ Outcome.fault ∧
      (proc_x509_convert ext (b0 :: b1 :: b2 :: rest) n 3 = Outcome.done seen ∨
        ∃ e, proc_x509_convert ext (b0 :: b1 :: b2 :: rest) n 3 = Outcome.fail e) ∧
      ((∀ t ∈ seen, ext.raw_cert_to_gcert (((b0 :: b1 :: b2 :: rest).drop t.1).take t.2) = none) →
        proc_x509_convert ext (b0 :: b1 :: b2 :: rest) n 3 = Outcome.done seen) := by
  rcases entries_or_overrun rest.length rest (Nat.le_refl _) with ⟨cs, hb, hrest⟩ | hov
  · subst hrest
    rw [proc_x509_count_body b0 b1 b2 cs hb] at hcount
    obtain ⟨hn, hs⟩ := Prod.mk.inj (Outcome.done.inj hcount)
    subst hn hs
    have htot := proc_x509_convert_total ext cs hb [b0, b1, b2]
    have hdb := datum_bytes_entries cs [b0, b1, b2]
    simp only [List.cons_append, List.nil_append, List.length_cons, List.length_nil,
      Nat.zero_add] at htot hdb
    refine ⟨entries_index_length cs 3, ?_, ?_, htot, ?_⟩
    · intro t ht
      have := entries_index_bounds cs 3 t ht
      simp only [List.length_cons, entries_bytes_length]
      omega
    · rcases htot with h | ⟨e, h⟩ <;> rw [h] <;> simp
    · intro hacc
      have hacc2 : ∀ c ∈ cs, ext.raw_cert_to_gcert c = none := by
        intro c hc
        have hmem : c ∈ datum_bytes (b0 :: b1 :: b2 :: entries_bytes cs) (entries_index 3 cs) := by
          rw [hdb]; exact hc
        obtain ⟨t, ht, rfl⟩ := List.mem_map.mp hmem
        exact hacc t ht
      have h := proc_x509_convert_entries ext cs hb hacc2 [b0, b1, b2]
      simpa using h
  · have h := proc_x509_count_overrun rest hov [b0, b1, b2] (b0 :: b1 :: b2 :: rest).length 0 []
      (by simp only [List.length_cons]; omega)
    simp only [List.cons_append, List.nil_append, List.length_cons, List.length_nil,
      Nat.zero_add] at h
    simp only [List.length_cons] at hcount
    rw [h] at hcount
    exact absurd hcount (by simp)

/-- C9, instance: the buffer `00 00 09 | 00 00 02 AA BB | 00 00 01 CC`; both
passes step over the entries at offsets 6 and 11. -/
theorem second_pass_reads_same_entries_witness :
    proc_x509_count [0, 0, 9, 0, 0, 2, 170, 187, 0, 0, 1, 204] 12 9 3 9 0 [] =
        Outcome.done (2, [(6, 2), (11, 1)]) ∧
      proc_x509_convert accept_all [0, 0, 9, 0, 0, 2, 170, 187, 0, 0, 1, 204] 2 3 =
        Outcome.done [(6, 2), (11, 1)] :=
  have hcount : proc_x509_count [0, 0, 9, 0, 0, 2, 170, 187, 0, 0, 1, 204] 12 9 3 9 0 [] =
      Outcome.done (2, [(6, 2), (11, 1)]) := by decide
  ⟨hcount, (second_pass_reads_same_entries accept_all 0 0 9 [0, 0, 2, 170, 187, 0, 0, 1, 204]
    2 [(6, 2), (11, 1)] hcount).2.2.2.2 (fun _ _ => rfl)⟩

/-! ## CertificateRequest message encoder -/

/-- C10: `mhd_gtls_gen_cert_server_cert_req` produces exactly: one count byte
equal to 2 and the two algorithm octets `RSA_SIGN` (1) and `DSA_SIGN` (2);
then, if and only if the negotiated version is TLS 1.2, one hash-count byte
equal to 0; then the 2-byte big-endian length followed by the bytes of the
credentials' `x509_rdn_sequence` when the certificate type is X.509 and
`ignore_rdn_sequence` is 0, and otherwise the two bytes `00 00`.  The returned
size equals the number of bytes produced. -/
theorem gen_cert_server_cert_req_layout (session : Session) (cred : cert_credentials)
    (hcred : session.cred = some cred) :
    ∃ (size : Int) (out : Bytes),
      mhd_gtls_gen_cert_server_cert_req true session = Outcome.done (size, out) ∧
        out = [2, 1, 2] ++
          (if session.version = Protocol.MHD_GNUTLS_TLS1_2 then [0] else []) ++
          (if session.cert_type = CertificateType.MHD_GNUTLS_CRT_X509 ∧
              session.ignore_rdn_sequence = 0 then
            mhd_gtls_write_uint16 cred.x509_rdn_sequence.length ++ cred.x509_rdn_sequence
          else [0, 0]) ∧
        size = (out.length : Int) := by
  unfold mhd_gtls_gen_cert_server_cert_req
  simp only [hcred]
  refine ⟨_, _, rfl, ?_, ?_⟩
  · by_cases hv : session.version = Protocol.MHD_GNUTLS_TLS1_2 <;>
      by_cases hx : session.cert_type = CertificateType.MHD_GNUTLS_CRT_X509 ∧
        session.ignore_rdn_sequence = 0 <;>
      simp [hv, hx, mhd_gtls_write_datum16, mhd_gtls_write_uint16, CERTTYPE_SIZE, RSA_SIGN,
        DSA_SIGN]
  · by_cases hv : session.version = Protocol.MHD_GNUTLS_TLS1_2 <;>
      by_cases hx : session.cert_type = CertificateType.MHD_GNUTLS_CRT_X509 ∧
        session.ignore_rdn_sequence = 0 <;>
      simp [hv, hx, mhd_gtls_write_datum16, mhd_gtls_write_uint16, CERTTYPE_SIZE] <;> omega

/-- C10, instance: a TLS 1.2 X.509 server whose issuer sequence is
`00 01 41`. -/
theorem gen_cert_server_cert_req_layout_witness :
    ∃ (size : Int) (out : Bytes),
      mhd_gtls_gen_cert_server_cert_req true
          (session_of Entity.GNUTLS_SERVER Protocol.MHD_GNUTLS_TLS1_2 []) =
        Outcome.done (size, out) ∧
        out = [2, 1, 2] ++ [0] ++ (mhd_gtls_write_uint16 3 ++ [0, 1, 65]) ∧
        size = (out.length : Int) :=
  gen_cert_server_cert_req_layout (session_of Entity.GNUTLS_SERVER Protocol.MHD_GNUTLS_TLS1_2 [])
    { x509_rdn_sequence := [0, 1, 65] } rfl

/-! ## Lemmas on the search for a client certificate -/

theorem read_uint16_cons (b0 b1 : UInt8) (pre r : Bytes) :
    mhd_gtls_read_uint16 (pre ++ b0 :: b1 :: r) pre.length =
      some (b0.toNat * 256 + b1.toNat) := by
  simp [mhd_gtls_read_uint16]

theorem DECR_LENGTH_RET_le (len x : Int) (h : x ≤ len) :
    DECR_LENGTH_RET len x = some (len - x) := by
  unfold DECR_LENGTH_RET
  rw [if_neg (by omega)]

theorem DECR_LENGTH_RET_lt (len x : Int) (h : len < x) : DECR_LENGTH_RET len x = none := by
  unfold DECR_LENGTH_RET
  rw [if_pos (by omega)]

theorem DECR_LENGTH_COM_le (len x : Int) (h : x ≤ len) :
    DECR_LENGTH_COM len x = some (len - x) := by
  unfold DECR_LENGTH_COM
  rw [if_neg (by omega)]

theorem DECR_LENGTH_COM_lt (len x : Int) (h : len < x) : DECR_LENGTH_COM len x = none := by
  unfold DECR_LENGTH_COM
  rw [if_pos (by omega)]

theorem check_pk_algo_in_list_eq_zero (pk_algos : List Int) (algo : Int) :
    _gnutls_check_pk_algo_in_list pk_algos algo = 0 ↔ algo ∈ pk_algos := by
  induction pk_algos with
  | nil => simp [_gnutls_check_pk_algo_in_list]
  | cons a rest ih =>
    unfold _gnutls_check_pk_algo_in_list
    by_cases h : algo = a
    · simp [h]
    · simp [h, ih]

theorem find_x509_cert_chain_sound (ext : SelectExternals) (pk_algos : List Int)
    (name : Bytes) (leaf : gnutls_cert) (chain : List gnutls_cert)
    (h : find_x509_cert_chain ext pk_algos name leaf chain = Outcome.done true) :
    (∃ c ∈ chain, ext.issuer_dn c = some name) ∧ leaf.subject_pk_algorithm ∈ pk_algos := by
  induction chain with
  | nil => simp [find_x509_cert_chain] at h
  | cons c rest ih =>
    unfold find_x509_cert_chain _gnutls_cert_get_issuer_dn at h
    cases hdn : ext.issuer_dn c with
    | none => rw [hdn] at h; simp at h
    | some odn =>
      rw [hdn] at h
      simp only at h
      split at h
      · obtain ⟨⟨d, hd, hd2⟩, hp⟩ := ih h
        exact ⟨⟨d, List.mem_cons_of_mem _ hd, hd2⟩, hp⟩
      · split at h
        · rename_i hm
          exact ⟨⟨c, List.mem_cons_self _ _, by rw [hdn, hm.1]⟩,
            (check_pk_algo_in_list_eq_zero _ _).mp hm.2⟩
        · obtain ⟨⟨d, hd, hd2⟩, hp⟩ := ih h
          exact ⟨⟨d, List.mem_cons_of_mem _ hd, hd2⟩, hp⟩

theorem find_x509_cert_chain_complete (ext : SelectExternals) (pk_algos : List Int)
    (name : Bytes) (leaf : gnutls_cert) (chain : List gnutls_cert)
    (hdec : ∀ c ∈ chain, ext.issuer_dn c ≠ none) :
    find_x509_cert_chain ext pk_algos name leaf chain =
      Outcome.done (decide ((∃ c ∈ chain, ext.issuer_dn c = some name) ∧
        leaf.subject_pk_algorithm ∈ pk_algos)) := by
  induction chain with
  | nil => simp [find_x509_cert_chain]
  | cons c rest ih =>
    have ih2 := ih (fun d hd => hdec d (List.mem_cons_of_mem _ hd))
    unfold find_x509_cert_chain _gnutls_cert_get_issuer_dn
    cases hdn : ext.issuer_dn c with
    | none => exact absurd hdn (hdec c (List.mem_cons_self _ _))
    | some odn =>
      simp only
      by_cases hlen : odn.length ≠ name.length
      · rw [if_pos hlen, ih2]
        have hne : odn ≠ name := fun h => hlen (by rw [h])
        congr 1
        simp [hdn, hne]
      · rw [if_neg hlen]
        by_cases hm : odn = name ∧
            _gnutls_check_pk_algo_in_list pk_algos leaf.subject_pk_algorithm = 0
        · rw [if_pos hm]
          have hp := (check_pk_algo_in_list_eq_zero _ _).mp hm.2
          congr 1
          simp [hdn, hm.1, hp]
        · rw [if_neg hm, ih2]
          congr 1
          by_cases hp : leaf.subject_pk_algorithm ∈ pk_algos
          · have hne : odn ≠ name :=
              fun h => hm ⟨h, (check_pk_algo_in_list_eq_zero _ _).mpr hp⟩
            simp [hdn, hne, hp]
          · simp [hp]

theorem entry_matches_iff (ext : SelectExternals) (pk_algos : List Int) (name : Bytes)
    (leaf : gnutls_cert) (chain : List gnutls_cert) (pkey : gnutls_privkey) :
    EntryMatches ext pk_algos name { cert_list := leaf :: chain, pkey := pkey } ↔
      (∃ c ∈ leaf :: chain, ext.issuer_dn c = some name) ∧
        leaf.subject_pk_algorithm ∈ pk_algos := by
  simp [EntryMatches]

theorem not_entry_matches_nil (ext : SelectExternals) (pk_algos : List Int) (name : Bytes)
    (pkey : gnutls_privkey) :
    ¬ EntryMatches ext pk_algos name { cert_list := [], pkey := pkey } := by
  simp [EntryMatches]

theorem find_x509_cert_store_sound (ext : SelectExternals) (pk_algos : List Int)
    (name : Bytes) (entries : List cred_entry) :
    ∀ (i0 i : Nat), find_x509_cert_store ext pk_algos name entries i0 = Outcome.done (some i) →
      ∃ e, i0 ≤ i ∧ entries.get? (i - i0) = some e ∧ EntryMatches ext pk_algos name e := by
  induction entries with
  | nil => intro i0 i h; simp [find_x509_cert_store] at h
  | cons e rest ih =>
    intro i0 i h
    obtain ⟨chain, pkey⟩ := e
    unfold find_x509_cert_store at h
    cases chain with
    | nil =>
      simp only at h
      obtain ⟨x, hle, hget, hm⟩ := ih (i0 + 1) i h
      refine ⟨x, by omega, ?_, hm⟩
      rw [show i - i0 = (i - (i0 + 1)) + 1 by omega]
      simpa using hget
    | cons leaf chain =>
      simp only at h
      split at h
      · rename_i hc
        have hi : i0 = i := by simpa using h
        subst hi
        refine ⟨{ cert_list := leaf :: chain, pkey := pkey }, Nat.le_refl _, by simp, ?_⟩
        rw [entry_matches_iff]
        exact find_x509_cert_chain_sound ext pk_algos name leaf _ hc
      · obtain ⟨x, hle, hget, hm⟩ := ih (i0 + 1) i h
        refine ⟨x, by omega, ?_, hm⟩
        rw [show i - i0 = (i - (i0 + 1)) + 1 by omega]
        simpa using hget
      · simp at h
      · simp at h
      · simp at h

theorem find_x509_cert_store_none (ext : SelectExternals) (pk_algos : List Int)
    (name : Bytes) (entries : List cred_entry) (hdec : IssuersDecodable ext entries)
    (hno : ∀ e ∈ entries, ¬ EntryMatches ext pk_algos name e) :
    ∀ i0 : Nat, find_x509_cert_store ext pk_algos name entries i0 = Outcome.done none := by
  induction entries with
  | nil => intro i0; rfl
  | cons e rest ih =>
    intro i0
    have ih2 := ih (fun x hx => hdec x (List.mem_cons_of_mem _ hx))
      (fun x hx => hno x (List.mem_cons_of_mem _ hx))
    have he := hno e (List.mem_cons_self _ _)
    have hd := hdec e (List.mem_cons_self _ _)
    obtain ⟨chain, pkey⟩ := e
    unfold find_x509_cert_store
    cases chain with
    | nil => exact ih2 (i0 + 1)
    | cons leaf chain =>
      rw [entry_matches_iff] at he
      simp only
      rw [find_x509_cert_chain_complete ext pk_algos name leaf _ hd, decide_eq_false he]
      exact ih2 (i0 + 1)

theorem find_x509_cert_store_first (ext : SelectExternals) (pk_algos : List Int)
    (name : Bytes) (s1 : List cred_entry) (e : cred_entry) (s2 : List cred_entry)
    (hdec : IssuersDecodable ext (s1 ++ e :: s2))
    (hno : ∀ x ∈ s1, ¬ EntryMatches ext pk_algos name x)
    (he : EntryMatches ext pk_algos name e) :
    ∀ i0 : Nat, find_x509_cert_store ext pk_algos name (s1 ++ e :: s2) i0 =
      Outcome.done (some (i0 + s1.length)) := by
  induction s1 with
  | nil =>
    intro i0
    have hd := hdec e (by simp)
    obtain ⟨chain, pkey⟩ := e
    cases chain with
    | nil => exact absurd he (not_entry_matches_nil ext pk_algos name pkey)
    | cons leaf chain =>
      rw [entry_matches_iff] at he
      simp only [List.nil_append, find_x509_cert_store]
      rw [find_x509_cert_chain_complete ext pk_algos name leaf _ hd, decide_eq_true he]
      simp
  | cons x rest ih =>
    intro i0
    have ih2 := ih (fun y hy => hdec y (by simp at hy ⊢; tauto))
      (fun y hy => hno y (List.mem_cons_of_mem _ hy))
    have hx := hno x (List.mem_cons_self _ _)
    have hd := hdec x (by simp)
    obtain ⟨chain, pkey⟩ := x
    simp only [List.cons_append]
    unfold find_x509_cert_store
    cases chain with
    | nil =>
      simp only
      rw [ih2 (i0 + 1)]
      simp only [List.length_cons]
      congr 2
      omega
    | cons leaf chain =>
      rw [entry_matches_iff] at hx
      simp only
      rw [find_x509_cert_chain_complete ext pk_algos name leaf _ hd, decide_eq_false hx]
      simp only
      rw [ih2 (i0 + 1)]
      simp only [List.length_cons]
      congr 2
      omega

theorem advertised_total (k : Nat) :
    ∀ r : Bytes, r.length ≤ k → ∃ names, Advertised r names := by
  induction k with
  | zero =>
    intro r hr
    exact ⟨[], Advertised.stop r (by omega)⟩
  | succ k ih =>
    intro r hr
    match r, hr with
    | [], _ => exact ⟨[], Advertised.stop _ (by simp)⟩
    | [b], _ => exact ⟨[], Advertised.stop _ (by simp)⟩
    | b0 :: b1 :: r, hr =>
      by_cases hle : b0.toNat * 256 + b1.toNat ≤ r.length
      · obtain ⟨names, hn⟩ := ih (r.drop (b0.toNat * 256 + b1.toNat))
          (by simp at hr ⊢; omega)
        exact ⟨_, Advertised.next b0 b1 r names hle hn⟩
      · exact ⟨[], Advertised.cut b0 b1 r (by omega)⟩

theorem drop_take_name (pre r : Bytes) (b0 b1 : UInt8) (n : Nat) :
    ((pre ++ b0 :: b1 :: r).drop (pre.length + 2)).take n = r.take n := by
  have e : pre ++ b0 :: b1 :: r = (pre ++ [b0, b1]) ++ r := by simp
  have l : pre.length + 2 = (pre ++ [b0, b1]).length := by simp
  rw [e, l, List.drop_left]

theorem find_x509_cert_loop_step (ext : SelectExternals) (entries : List cred_entry)
    (pk_algos : List Int) (pre r : Bytes) (b0 b1 : UInt8) (fuel : Nat)
    (hle : b0.toNat * 256 + b1.toNat ≤ r.length) :
    find_x509_cert_loop ext entries pk_algos (pre ++ b0 :: b1 :: r) (fuel + 1) pre.length
        ((b0 :: b1 :: r).length : Int) =
      match find_x509_cert_store ext pk_algos (r.take (b0.toNat * 256 + b1.toNat)) entries 0 with
      | Outcome.done none =>
        find_x509_cert_loop ext entries pk_algos
          ((pre ++ b0 :: b1 :: r.take (b0.toNat * 256 + b1.toNat)) ++
            r.drop (b0.toNat * 256 + b1.toNat)) fuel
          (pre ++ b0 :: b1 :: r.take (b0.toNat * 256 + b1.toNat)).length
          ((r.drop (b0.toNat * 256 + b1.toNat)).length : Int)
      | other => other := by
  rw [find_x509_cert_loop, DECR_LENGTH_RET_le _ _ (by simp only [List.length_cons]; push_cast; omega)]
  simp only [read_uint16_cons]
  rw [DECR_LENGTH_RET_le _ _ (by simp only [List.length_cons]; push_cast; omega)]
  simp only [drop_take_name]
  have e1 : (pre ++ b0 :: b1 :: r.take (b0.toNat * 256 + b1.toNat)) ++
      r.drop (b0.toNat * 256 + b1.toNat) = pre ++ b0 :: b1 :: r := by
    simp [List.take_append_drop]
  have e2 : (pre ++ b0 :: b1 :: r.take (b0.toNat * 256 + b1.toNat)).length =
      pre.length + 2 + (b0.toNat * 256 + b1.toNat) := by
    simp [List.length_take, Nat.min_eq_left hle]; omega
  have e3 : ((b0 :: b1 :: r).length : Int) - 2 -
      ((b0.toNat * 256 + b1.toNat : Nat) : Int) =
      ((r.drop (b0.toNat * 256 + b1.toNat)).length : Int) := by
    simp only [List.length_cons, List.length_drop]; push_cast; omega
  rw [e1, e2, e3]

theorem find_x509_cert_loop_sound (ext : SelectExternals) (entries : List cred_entry)
    (pk_algos : List Int) :
    ∀ (fuel : Nat) (pre r : Bytes) (i : Nat),
      find_x509_cert_loop ext entries pk_algos (pre ++ r) fuel pre.length (r.length : Int) =
        Outcome.done (some i) →
      ∃ names name e, Advertised r names ∧ name ∈ names ∧ entries.get? i = some e ∧
        EntryMatches ext pk_algos name e := by
  intro fuel
  induction fuel with
  | zero => intro pre r i h; simp [find_x509_cert_loop] at h
  | succ fuel ih =>
    intro pre r i h
    match r, h with
    | [], h =>
      rw [find_x509_cert_loop, DECR_LENGTH_RET_lt _ _ (by simp)] at h
      simp at h
    | [b], h =>
      rw [find_x509_cert_loop, DECR_LENGTH_RET_lt _ _ (by simp)] at h
      simp at h
    | b0 :: b1 :: r, h =>
      by_cases hle : b0.toNat * 256 + b1.toNat ≤ r.length
      · rw [find_x509_cert_loop_step ext entries pk_algos pre r b0 b1 fuel hle] at h
        cases hst : find_x509_cert_store ext pk_algos
            (r.take (b0.toNat * 256 + b1.toNat)) entries 0 with
        | done found =>
          cases found with
          | none =>
            rw [hst] at h
            simp only at h
            obtain ⟨names, name, e, hadv, hmem, hget, hm⟩ := ih _ _ i h
            exact ⟨_, name, e, Advertised.next b0 b1 r names hle hadv,
              List.mem_cons_of_mem _ hmem, hget, hm⟩
          | some j =>
            rw [hst] at h
            simp only at h
            have hj : j = i := by simpa using h
            subst hj
            obtain ⟨e, _, hget, hm⟩ := find_x509_cert_store_sound ext pk_algos _ entries 0 j hst
            obtain ⟨names, hadv⟩ := advertised_total _ (r.drop (b0.toNat * 256 + b1.toNat))
              (Nat.le_refl _)
            exact ⟨_, _, e, Advertised.next b0 b1 r names hle hadv,
              List.mem_cons_self _ _, by simpa using hget, hm⟩
        | fail err => rw [hst] at h; simp at h
        | fault => rw [hst] at h; simp at h
        | timeout => rw [hst] at h; simp at h
      · rw [find_x509_cert_loop,
          DECR_LENGTH_RET_le _ _ (by simp only [List.length_cons]; push_cast; omega)] at h
        simp only [read_uint16_cons] at h
        rw [DECR_LENGTH_RET_lt _ _ (by simp only [List.length_cons]; push_cast; omega)] at h
        simp at h

theorem find_x509_cert_loop_none (ext : SelectExternals) (entries : List cred_entry)
    (pk_algos : List Int) (hdec : IssuersDecodable ext entries) (r : Bytes)
    (names : List Bytes) (hadv : Advertised r names)
    (hno : ∀ n ∈ names, ∀ e ∈ entries, ¬ EntryMatches ext pk_algos n e) :
    ∀ (fuel : Nat) (pre : Bytes), r.length / 2 + 1 ≤ fuel →
      find_x509_cert_loop ext entries pk_algos (pre ++ r) fuel pre.length (r.length : Int) =
        Outcome.done none := by
  induction hadv with
  | stop r hlt =>
    intro fuel pre hf
    obtain ⟨f, rfl⟩ : ∃ f, fuel = f + 1 := ⟨fuel - 1, by omega⟩
    rw [find_x509_cert_loop, DECR_LENGTH_RET_lt _ _ (by omega)]
  | cut b0 b1 r hlt =>
    intro fuel pre hf
    obtain ⟨f, rfl⟩ : ∃ f, fuel = f + 1 := ⟨fuel - 1, by omega⟩
    rw [find_x509_cert_loop,
      DECR_LENGTH_RET_le _ _ (by simp only [List.length_cons]; push_cast; omega)]
    simp only [read_uint16_cons]
    rw [DECR_LENGTH_RET_lt _ _ (by simp only [List.length_cons]; push_cast; omega)]
  | next b0 b1 r names hle _ ih =>
    intro fuel pre hf
    obtain ⟨f, rfl⟩ : ∃ f, fuel = f + 1 := ⟨fuel - 1, by omega⟩
    rw [find_x509_cert_loop_step ext entries pk_algos pre r b0 b1 f hle]
    rw [find_x509_cert_store_none ext pk_algos _ entries hdec
      (hno _ (List.mem_cons_self _ _)) 0]
    simp only
    apply ih (fun n hn => hno n (List.mem_cons_of_mem _ hn))
    simp only [List.length_cons, List.length_drop] at hf ⊢
    omega

theorem find_x509_cert_loop_first (ext : SelectExternals) (pk_algos : List Int)
    (s1 : List cred_entry) (e : cred_entry) (s2 : List cred_entry)
    (hdec : IssuersDecodable ext (s1 ++ e :: s2)) (r : Bytes) (names : List Bytes)
    (hadv : Advertised r names) :
    ∀ (before : List Bytes) (n : Bytes) (after : List Bytes), names = before ++ n :: after →
      (∀ m ∈ before, ∀ x ∈ s1 ++ e :: s2, ¬ EntryMatches ext pk_algos m x) →
      (∀ x ∈ s1, ¬ EntryMatches ext pk_algos n x) → EntryMatches ext pk_algos n e →
      ∀ (fuel : Nat) (pre : Bytes), r.length / 2 + 1 ≤ fuel →
        find_x509_cert_loop ext (s1 ++ e :: s2) pk_algos (pre ++ r) fuel pre.length
          (r.length : Int) = Outcome.done (some s1.length) := by
  induction hadv with
  | stop r hlt => intro before n after hn; simp at hn
  | cut b0 b1 r hlt => intro before n after hn; simp at hn
  | next b0 b1 r names hle _ ih =>
    intro before n after hn hbefore hs1 he fuel pre hf
    obtain ⟨f, rfl⟩ : ∃ f, fuel = f + 1 := ⟨fuel - 1, by omega⟩
    rw [find_x509_cert_loop_step ext (s1 ++ e :: s2) pk_algos pre r b0 b1 f hle]
    cases before with
    | nil =>
      simp only [List.nil_append, List.cons.injEq] at hn
      rw [hn.1, find_x509_cert_store_first ext pk_algos n s1 e s2 hdec hs1 he 0]
      simp
    | cons m before =>
      simp only [List.cons_append, List.cons.injEq] at hn
      rw [hn.1, find_x509_cert_store_none ext pk_algos m _ hdec
        (hbefore m (List.mem_cons_self _ _)) 0]
      simp only
      apply ih before n after hn.2
        (fun x hx => hbefore x (List.mem_cons_of_mem _ hx)) hs1 he
      simp only [List.length_cons, List.length_drop] at hf ⊢
      omega

/-! ## Lemmas on the CertificateRequest decoder -/

theorem names_overrun_pos (r : Bytes) (h : NamesOverrun r) : 0 < r.length := by
  cases h <;> simp

theorem get_issuers_num_loop_overrun (r : Bytes) (h : NamesOverrun r) :
    ∀ (fuel : Nat) (pre : Bytes) (n : Nat), r.length / 2 + 1 ≤ fuel →
      get_issuers_num_loop (pre ++ r) fuel pre.length (r.length : Int) n =
        Outcome.fail ErrorCode.GNUTLS_E_UNEXPECTED_PACKET_LENGTH := by
  induction h with
  | header b =>
    intro fuel pre n hf
    obtain ⟨f, rfl⟩ : ∃ f, fuel = f + 1 := ⟨fuel - 1, by omega⟩
    rw [get_issuers_num_loop, DECR_LENGTH_COM_lt _ _ (by simp)]
  | payload b0 b1 r hlt =>
    intro fuel pre n hf
    obtain ⟨f, rfl⟩ : ∃ f, fuel = f + 1 := ⟨fuel - 1, by omega⟩
    rw [get_issuers_num_loop,
      DECR_LENGTH_COM_le _ _ (by simp only [List.length_cons]; push_cast; omega)]
    simp only [read_uint16_cons]
    rw [DECR_LENGTH_COM_lt _ _ (by simp only [List.length_cons]; push_cast; omega)]
  | later b0 b1 r hle hov ih =>
    intro fuel pre n hf
    obtain ⟨f, rfl⟩ : ∃ f, fuel = f + 1 := ⟨fuel - 1, by omega⟩
    have hpos := names_overrun_pos _ hov
    rw [get_issuers_num_loop,
      DECR_LENGTH_COM_le _ _ (by simp only [List.length_cons]; push_cast; omega)]
    simp only [read_uint16_cons]
    rw [DECR_LENGTH_COM_le _ _ (by simp only [List.length_cons]; push_cast; omega)]
    have e3 : ((b0 :: b1 :: r).length : Int) - 2 -
        ((b0.toNat * 256 + b1.toNat : Nat) : Int) =
        ((r.drop (b0.toNat * 256 + b1.toNat)).length : Int) := by
      simp only [List.length_cons, List.length_drop]; push_cast; omega
    have hp : (if b0.toNat * 256 + b1.toNat > 0 then
        pre.length + 2 + (b0.toNat * 256 + b1.toNat) else pre.length + 2) =
        (pre ++ b0 :: b1 :: r.take (b0.toNat * 256 + b1.toNat)).length := by
      simp only [List.length_append, List.length_cons, List.length_take, Nat.min_eq_left hle]
      split <;> omega
    have e1 : pre ++ b0 :: b1 :: r = (pre ++ b0 :: b1 :: r.take (b0.toNat * 256 + b1.toNat)) ++
        r.drop (b0.toNat * 256 + b1.toNat) := by
      simp [List.take_append_drop]
    simp only [e3, hp]
    rw [if_neg (by omega)]
    rw [e1]
    apply ih
    simp only [List.length_cons, List.length_drop] at hf ⊢
    omega

theorem get_issuers_num_overrun (data : Bytes) (h : NamesOverrun data) :
    get_issuers_num data = Outcome.fail ErrorCode.GNUTLS_E_UNEXPECTED_PACKET_LENGTH := by
  have hpos := names_overrun_pos _ h
  unfold get_issuers_num
  rw [if_neg (by omega)]
  exact get_issuers_num_loop_overrun data h _ [] 0 (Nat.le_refl _)

theorem keep_algos_step (acc : List Int) (ret : Int) (tail : List Int)
    (hacc : acc.length ≤ MAX_SIGN_ALGOS) :
    ((if acc.length < MAX_SIGN_ALGOS then acc ++ [ret] else acc) ++ tail).take MAX_SIGN_ALGOS =
      (acc ++ ret :: tail).take MAX_SIGN_ALGOS := by
  by_cases h : acc.length < MAX_SIGN_ALGOS
  · simp [h]
  · have he : acc.length = MAX_SIGN_ALGOS := by omega
    rw [if_neg h, List.take_append_of_le_length (by omega),
      List.take_append_of_le_length (by omega)]

theorem keep_algos_length (acc : List Int) (ret : Int) (hacc : acc.length ≤ MAX_SIGN_ALGOS) :
    (if acc.length < MAX_SIGN_ALGOS then acc ++ [ret] else acc).length ≤ MAX_SIGN_ALGOS := by
  by_cases h : acc.length < MAX_SIGN_ALGOS
  · simp [h]; omega
  · simp [h]; omega

theorem get_append_cons (pre r : Bytes) (b : UInt8) :
    (pre ++ b :: r).get? pre.length = some b := by
  have h : (pre ++ b :: r)[pre.length]? = some b := by
    rw [List.getElem?_append_right (Nat.le_refl _)]
    simp
  simpa using h

theorem proc_cert_cert_req_algos_eq (algos : Bytes) :
    ∀ (pre rest : Bytes) (acc : List Int), acc.length ≤ MAX_SIGN_ALGOS →
      proc_cert_cert_req_algos (pre ++ (algos ++ rest)) algos.length pre.length
          ((algos.length + rest.length : Nat) : Int) acc =
        Outcome.done (pre.length + algos.length, (rest.length : Int),
          (acc ++ (algos.filter supported_sign_algo).map
            _gnutls_check_supported_sign_algo).take MAX_SIGN_ALGOS) := by
  induction algos with
  | nil =>
    intro pre rest acc hacc
    simp [proc_cert_cert_req_algos, List.take_of_length_le hacc]
  | cons b algos ih =>
    intro pre rest acc hacc
    have hget : (pre ++ (b :: algos ++ rest)).get? pre.length = some b :=
      get_append_cons pre (algos ++ rest) b
    rw [List.length_cons, proc_cert_cert_req_algos,
      DECR_LEN_le _ _ (by push_cast; omega)]
    simp only [hget]
    have e1 : pre ++ (b :: algos ++ rest) = (pre ++ [b]) ++ (algos ++ rest) := by simp
    have e2 : pre.length + 1 = (pre ++ [b]).length := by simp
    have e3 : (((algos.length + 1 + rest.length : Nat) : Int) - 1) =
        ((algos.length + rest.length : Nat) : Int) := by push_cast; omega
    rw [e1, e2, e3]
    by_cases hs : _gnutls_check_supported_sign_algo b > 0
    · rw [if_pos hs, ih _ _ _ (keep_algos_length acc _ hacc)]
      have hsb : supported_sign_algo b = true := by simp [supported_sign_algo, hs]
      simp only [List.filter_cons, hsb, if_true, List.map_cons, List.length_append,
        List.length_singleton]
      rw [keep_algos_step acc _ _ hacc]
      congr 2
      omega
    · rw [if_neg hs, ih _ _ _ hacc]
      have hsb : supported_sign_algo b = false := by simp [supported_sign_algo, hs]
      simp only [List.filter_cons, hsb, List.length_append, List.length_singleton]
      congr 2
      omega

theorem proc_cert_cert_req_algos_short (r : Bytes) :
    ∀ (k : Nat) (pre : Bytes) (acc : List Int), r.length < k →
      proc_cert_cert_req_algos (pre ++ r) k pre.length (r.length : Int) acc =
        Outcome.fail ErrorCode.GNUTLS_E_UNEXPECTED_PACKET_LENGTH := by
  induction r with
  | nil =>
    intro k pre acc hk
    obtain ⟨k', rfl⟩ : ∃ k', k = k' + 1 := ⟨k - 1, by simp at hk; omega⟩
    rw [proc_cert_cert_req_algos, DECR_LEN_lt _ _ (by simp)]
  | cons b r ih =>
    intro k pre acc hk
    obtain ⟨k', rfl⟩ : ∃ k', k = k' + 1 := ⟨k - 1, by simp at hk; omega⟩
    have hget : (pre ++ b :: r).get? pre.length = some b := get_append_cons pre r b
    rw [proc_cert_cert_req_algos,
      DECR_LEN_le _ _ (by simp only [List.length_cons]; push_cast; omega)]
    simp only [hget]
    have e1 : pre ++ b :: r = (pre ++ [b]) ++ r := by simp
    have e2 : pre.length + 1 = (pre ++ [b]).length := by simp
    have e3 : (((b :: r).length : Int) - 1) = (r.length : Int) := by
      simp only [List.length_cons]; push_cast; omega
    rw [e1, e2, e3]
    apply ih
    simp only [List.length_cons] at hk
    omega

theorem cert_req_skip_hashes_suffix (ver : Protocol) (r r1 : Bytes)
    (h : cert_req_skip_hashes ver r = some r1) : ∃ mid, r = mid ++ r1 := by
  unfold cert_req_skip_hashes at h
  split at h
  · match r, h with
    | [], h => simp at h
    | hash_num :: r', h =>
      simp only at h
      split at h
      · simp at h
      · have he : r'.drop hash_num.toNat = r1 := by simpa using h
        exact ⟨hash_num :: r'.take hash_num.toNat, by simp [← he, List.take_append_drop]⟩
  · exact ⟨[], by simpa using h⟩

theorem proc_cert_cert_req_hashes_eq (ver : Protocol) (pre r : Bytes) :
    proc_cert_cert_req_hashes ver (pre ++ r) pre.length (r.length : Int) =
      match cert_req_skip_hashes ver r with
      | none => Outcome.fail ErrorCode.GNUTLS_E_UNEXPECTED_PACKET_LENGTH
      | some r1 => Outcome.done ((pre ++ r).length - r1.length, (r1.length : Int)) := by
  unfold proc_cert_cert_req_hashes cert_req_skip_hashes
  by_cases hv : ver = Protocol.MHD_GNUTLS_TLS1_2
  · rw [if_pos hv, if_pos hv]
    match r with
    | [] => rw [DECR_LEN_lt _ _ (by simp)]
    | hash_num :: r' =>
      rw [DECR_LEN_le _ _ (by simp only [List.length_cons]; push_cast; omega)]
      simp only [get_append_cons]
      by_cases hlt : r'.length < hash_num.toNat
      · rw [DECR_LEN_lt _ _ (by simp only [List.length_cons]; push_cast; omega)]
        simp [hlt]
      · rw [DECR_LEN_le _ _ (by simp only [List.length_cons]; push_cast; omega)]
        simp only [hlt, if_false]
        congr 2
        · simp only [List.length_append, List.length_cons, List.length_drop]; omega
        · simp only [List.length_cons, List.length_drop]; push_cast; omega
  · rw [if_neg hv, if_neg hv]
    simp

theorem proc_cert_cert_req_names_eq (pre r : Bytes) :
    proc_cert_cert_req_names (pre ++ r) pre.length (r.length : Int) =
      match cert_req_names r with
      | none => Outcome.fail ErrorCode.GNUTLS_E_UNEXPECTED_PACKET_LENGTH
      | some names => Outcome.done names := by
  unfold proc_cert_cert_req_names cert_req_names
  match r with
  | [] => rw [DECR_LEN_lt _ _ (by simp)]
  | [b] => rw [DECR_LEN_lt _ _ (by simp)]
  | b0 :: b1 :: r' =>
    rw [DECR_LEN_le _ _ (by simp only [List.length_cons]; push_cast; omega)]
    simp only [read_uint16_cons]
    by_cases hlt : r'.length < b0.toNat * 256 + b1.toNat
    · rw [DECR_LEN_lt _ _ (by simp only [List.length_cons]; push_cast; omega)]
      simp [hlt]
    · rw [DECR_LEN_le _ _ (by simp only [List.length_cons]; push_cast; omega)]
      simp only [hlt, if_false]
      have hd : datum_at (pre ++ b0 :: b1 :: r') (pre.length + 2) (b0.toNat * 256 + b1.toNat) =
          some (r'.take (b0.toNat * 256 + b1.toNat)) := by
        unfold datum_at
        rw [if_pos (by simp only [List.length_append, List.length_cons]; omega), drop_take_name]
      rw [hd]

theorem kept_sign_algos_eq (algos : Bytes) :
    ([] ++ (algos.filter supported_sign_algo).map _gnutls_check_supported_sign_algo).take
      MAX_SIGN_ALGOS = kept_sign_algos algos := rfl

/-- The reading part of the request decoder computes the fields of section 4.2
and fails exactly where a field is missing or no algorithm is supported. -/
theorem proc_cert_cert_req_read_eq (ver : Protocol) (data : Bytes) :
    proc_cert_cert_req_read ver data =
      match cert_req_sign_algos data with
      | none => Outcome.fail ErrorCode.GNUTLS_E_UNEXPECTED_PACKET_LENGTH
      | some (algos, r) =>
        if kept_sign_algos algos = [] then
          Outcome.fail ErrorCode.GNUTLS_E_UNKNOWN_PK_ALGORITHM
        else
          match cert_req_skip_hashes ver r with
          | none => Outcome.fail ErrorCode.GNUTLS_E_UNEXPECTED_PACKET_LENGTH
          | some r1 =>
            match cert_req_names r1 with
            | none => Outcome.fail ErrorCode.GNUTLS_E_UNEXPECTED_PACKET_LENGTH
            | some names => Outcome.done (names, kept_sign_algos algos) := by
  match data with
  | [] =>
    unfold proc_cert_cert_req_read cert_req_sign_algos
    rw [DECR_LEN_lt _ _ (by simp)]
  | count :: r0 =>
    unfold proc_cert_cert_req_read cert_req_sign_algos
    rw [DECR_LEN_le _ _ (by simp only [List.length_cons]; push_cast; omega)]
    have e0 : (((count :: r0).length : Int) - 1) = (r0.length : Int) := by
      simp only [List.length_cons]; push_cast; omega
    simp only [List.get?_cons_zero, e0]
    by_cases hlt : r0.length < count.toNat
    · have h := proc_cert_cert_req_algos_short r0 count.toNat [count] [] hlt
      simp only [List.singleton_append, List.length_singleton] at h
      rw [h]
      simp [hlt]
    · have hlen : (r0.take count.toNat).length = count.toNat := by
        simp [List.length_take]; omega
      have h := proc_cert_cert_req_algos_eq (r0.take count.toNat) [count]
        (r0.drop count.toNat) [] (by simp)
      simp only [List.take_append_drop, List.singleton_append, List.length_singleton, hlen,
        List.length_drop, kept_sign_algos_eq] at h
      rw [show count.toNat + (r0.length - count.toNat) = r0.length by omega] at h
      rw [h]
      simp only [hlt, if_false]
      by_cases hk : kept_sign_algos (r0.take count.toNat) = []
      · simp [hk]
      · have hk2 : (kept_sign_algos (r0.take count.toNat)).length ≠ 0 := by
          simpa using hk
        rw [if_neg hk2, if_neg hk]
        have hh := proc_cert_cert_req_hashes_eq ver (count :: r0.take count.toNat)
          (r0.drop count.toNat)
        simp only [List.cons_append, List.take_append_drop, List.length_cons, hlen,
          List.length_drop] at hh
        rw [show 1 + count.toNat = count.toNat + 1 by omega, hh]
        cases hs : cert_req_skip_hashes ver (r0.drop count.toNat) with
        | none => rfl
        | some r1 =>
          simp only
          obtain ⟨mid, hmid⟩ := cert_req_skip_hashes_suffix ver _ r1 hs
          have hn := proc_cert_cert_req_names_eq (count :: r0.take count.toNat ++ mid) r1
          have hdata : count :: r0 = (count :: r0.take count.toNat ++ mid) ++ r1 := by
            rw [List.append_assoc, ← hmid]
            simp [List.take_append_drop]
          have hp : r0.length + 1 - r1.length = (count :: r0.take count.toNat ++ mid).length := by
            have := congrArg List.length hdata
            simp only [List.length_cons, List.length_append] at this ⊢
            omega
          rw [hp, hdata, hn]
          cases cert_req_names r1 <;> rfl

/-! ## Lemmas on the selection functions -/

theorem server_select_cert_loop_sound (cert_type : CertificateType) (requested_algo : Int)
    (entries : List cred_entry) :
    ∀ (i0 i : Nat), server_select_cert_loop cert_type requested_algo entries i0 =
        Outcome.done (some i) →
      ∃ e, i0 ≤ i ∧ entries.get? (i - i0) = some e ∧ LeafAccepted cert_type requested_algo e ∧
        ∀ (j : Nat) (x : cred_entry), j < i - i0 → entries.get? j = some x →
          ¬ LeafAccepted cert_type requested_algo x := by
  induction entries with
  | nil => intro i0 i h; simp [server_select_cert_loop] at h
  | cons e rest ih =>
    intro i0 i h
    unfold server_select_cert_loop at h
    cases hh : e.cert_list.head? with
    | none => rw [hh] at h; simp at h
    | some leaf =>
      rw [hh] at h
      simp only at h
      have hrec : server_select_cert_loop cert_type requested_algo rest (i0 + 1) =
          Outcome.done (some i) → ¬ LeafAccepted cert_type requested_algo e →
          ∃ x, i0 ≤ i ∧ (e :: rest).get? (i - i0) = some x ∧
            LeafAccepted cert_type requested_algo x ∧
            ∀ (j : Nat) (y : cred_entry), j < i - i0 → (e :: rest).get? j = some y →
              ¬ LeafAccepted cert_type requested_algo y := by
        intro h2 hne
        obtain ⟨x, hle, hget, hacc, hmin⟩ := ih (i0 + 1) i h2
        refine ⟨x, by omega, ?_, hacc, ?_⟩
        · rw [show i - i0 = (i - (i0 + 1)) + 1 by omega]
          simpa using hget
        · intro j y hj hy
          cases j with
          | zero =>
            have : y = e := by simpa using hy.symm
            rw [this]; exact hne
          | succ j =>
            exact hmin j y (by omega) (by simpa using hy)
      split at h
      · rename_i halgo
        split at h
        · rename_i htype
          have hi : i0 = i := by simpa using h
          subst hi
          refine ⟨e, Nat.le_refl _, by simp, ⟨leaf, hh, halgo, htype⟩, ?_⟩
          intro j x hj
          omega
        · rename_i htype
          apply hrec h
          rintro ⟨l, hl, _, ht⟩
          rw [hh] at hl
          exact htype (by rw [Option.some.inj hl]; exact ht)
      · rename_i halgo
        apply hrec h
        rintro ⟨l, hl, ha, _⟩
        rw [hh] at hl
        exact halgo (by rw [Option.some.inj hl]; exact ha)

theorem server_select_cert_loop_none (cert_type : CertificateType) (requested_algo : Int)
    (entries : List cred_entry) :
    ∀ i0 : Nat, server_select_cert_loop cert_type requested_algo entries i0 =
        Outcome.done none ↔
      ∀ e ∈ entries, e.cert_list ≠ [] ∧ ¬ LeafAccepted cert_type requested_algo e := by
  induction entries with
  | nil => intro i0; simp [server_select_cert_loop]
  | cons e rest ih =>
    intro i0
    unfold server_select_cert_loop
    cases hh : e.cert_list.head? with
    | none =>
      have hnil : e.cert_list = [] := by
        cases hc : e.cert_list with
        | nil => rfl
        | cons a b => rw [hc] at hh; simp at hh
      simp [hnil]
    | some leaf =>
      have hne : e.cert_list ≠ [] := by
        intro hc; rw [hc] at hh; simp at hh
      have hacc : LeafAccepted cert_type requested_algo e ↔
          (requested_algo = GNUTLS_PK_ANY ∨ requested_algo = leaf.subject_pk_algorithm) ∧
            cert_type = leaf.cert_type := by
        constructor
        · rintro ⟨l, hl, ha, ht⟩
          rw [hh] at hl
          rw [Option.some.inj hl]
          exact ⟨ha, ht⟩
        · rintro ⟨ha, ht⟩
          exact ⟨leaf, hh, ha, ht⟩
      simp only
      by_cases halgo : requested_algo = GNUTLS_PK_ANY ∨
          requested_algo = leaf.subject_pk_algorithm
      · rw [if_pos halgo]
        by_cases htype : cert_type = leaf.cert_type
        · rw [if_pos htype]
          have : LeafAccepted cert_type requested_algo e := hacc.mpr ⟨halgo, htype⟩
          simp [this]
        · rw [if_neg htype, ih (i0 + 1)]
          have : ¬ LeafAccepted cert_type requested_algo e := fun h => htype (hacc.mp h).2
          simp [this, hne]
      · rw [if_neg halgo, ih (i0 + 1)]
        have : ¬ LeafAccepted cert_type requested_algo e := fun h => halgo (hacc.mp h).1
        simp [this, hne]

theorem server_select_cert_loop_not_fail (cert_type : CertificateType)
    (requested_algo : Int) (entries : List cred_entry) :
    ∀ (i0 : Nat) (err : ErrorCode),
      server_select_cert_loop cert_type requested_algo entries i0 ≠ Outcome.fail err := by
  induction entries with
  | nil => intro i0 err; simp [server_select_cert_loop]
  | cons e rest ih =>
    intro i0 err
    unfold server_select_cert_loop
    cases e.cert_list.head? with
    | none => simp
    | some leaf =>
      simp only
      split
      · split
        · simp
        · exact ih _ _
      · exact ih _ _

theorem selected_certs_set_fields (session : Session) (certs : Option (List gnutls_cert))
    (ncerts : Int) (key : Option gnutls_privkey) (need_free : Int) :
    (mhd_gtls_selected_certs_set session certs ncerts key need_free).selected_cert_list = certs ∧
      (mhd_gtls_selected_certs_set session certs ncerts key need_free).selected_cert_list_length =
        ncerts ∧
      (mhd_gtls_selected_certs_set session certs ncerts key need_free).selected_key = key ∧
      (mhd_gtls_selected_certs_set session certs ncerts key need_free).selected_need_free =
        need_free := by
  simp [mhd_gtls_selected_certs_set]

theorem select_client_cert_none (ext : SelectExternals) (session : Session)
    (cred : cert_credentials) (data : Bytes) (pk_algos : List Int) (names : List Bytes)
    (hcred : session.cred = some cred) (hcb : cred.client_get_cert_callback = none)
    (hadv : Advertised data names) (hdec : IssuersDecodable ext cred.entries)
    (hno : ∀ n ∈ names, ∀ e ∈ cred.entries, ¬ EntryMatches ext pk_algos n e) :
    _select_client_cert ext session data pk_algos =
      (Outcome.done (), mhd_gtls_selected_certs_set session none 0 none 0) := by
  have hfind : _find_x509_cert ext cred data pk_algos = Outcome.done none := by
    have h := find_x509_cert_loop_none ext cred.entries pk_algos hdec data names hadv hno
      (data.length / 2 + 1) [] (Nat.le_refl _)
    simpa [_find_x509_cert] using h
  unfold _select_client_cert
  simp only [hcred, hcb, ne_eq, not_true_eq_false, if_false, hfind, ite_self]

theorem select_client_cert_callback_overrun (ext : SelectExternals) (session : Session)
    (cred : cert_credentials) (data : Bytes) (pk_algos : List Int)
    (hcred : session.cred = some cred) (hcb : cred.client_get_cert_callback ≠ none)
    (hx : session.cert_type = CertificateType.MHD_GNUTLS_CRT_X509)
    (hov : NamesOverrun data) :
    _select_client_cert ext session data pk_algos =
      (Outcome.fail ErrorCode.GNUTLS_E_UNEXPECTED_PACKET_LENGTH, session) := by
  unfold _select_client_cert
  simp only [hcred, hx, get_issuers_num_overrun data hov]
  simp [hcb]

theorem find_x509_cert_chain_fail (ext : SelectExternals) (pk_algos : List Int)
    (name : Bytes) (leaf : gnutls_cert) (chain : List gnutls_cert) (err : ErrorCode)
    (h : find_x509_cert_chain ext pk_algos name leaf chain = Outcome.fail err) :
    err = ErrorCode.GNUTLS_E_ASN1_GENERIC_ERROR := by
  induction chain with
  | nil => simp [find_x509_cert_chain] at h
  | cons c rest ih =>
    unfold find_x509_cert_chain _gnutls_cert_get_issuer_dn at h
    cases hdn : ext.issuer_dn c with
    | none => rw [hdn] at h; simpa using h.symm
    | some odn =>
      rw [hdn] at h
      simp only at h
      split at h
      · exact ih h
      · split at h
        · simp at h
        · exact ih h

theorem find_x509_cert_store_fail (ext : SelectExternals) (pk_algos : List Int)
    (name : Bytes) (entries : List cred_entry) (err : ErrorCode) :
    ∀ i0 : Nat, find_x509_cert_store ext pk_algos name entries i0 = Outcome.fail err →
      err = ErrorCode.GNUTLS_E_ASN1_GENERIC_ERROR := by
  induction entries with
  | nil => intro i0 h; simp [find_x509_cert_store] at h
  | cons e rest ih =>
    intro i0 h
    unfold find_x509_cert_store at h
    cases hc : e.cert_list with
    | nil => rw [hc] at h; exact ih _ h
    | cons leaf chain =>
      rw [hc] at h
      simp only at h
      split at h
      · simp at h
      · exact ih _ h
      · rename_i err2 hch
        have := find_x509_cert_chain_fail ext pk_algos name leaf _ err2 hch
        have he : err2 = err := by simpa using h
        rw [← he]; exact this
      · simp at h
      · simp at h

theorem find_x509_cert_loop_fail (ext : SelectExternals) (entries : List cred_entry)
    (pk_algos : List Int) (data : Bytes) (err : ErrorCode) :
    ∀ (fuel p : Nat) (data_size : Int),
      find_x509_cert_loop ext entries pk_algos data fuel p data_size = Outcome.fail err →
      err = ErrorCode.GNUTLS_E_ASN1_GENERIC_ERROR := by
  intro fuel
  induction fuel with
  | zero => intro p ds h; simp [find_x509_cert_loop] at h
  | succ fuel ih =>
    intro p ds h
    unfold find_x509_cert_loop at h
    split at h
    · simp at h
    · split at h
      · simp at h
      · split at h
        · simp at h
        · split at h
          · exact ih _ _ h
          · exact find_x509_cert_store_fail ext pk_algos _ entries err 0 h

theorem get_issuers_num_loop_fail (data : Bytes) (err : ErrorCode) :
    ∀ (fuel p : Nat) (data_size : Int) (n : Nat),
      get_issuers_num_loop data fuel p data_size n = Outcome.fail err →
      err = ErrorCode.GNUTLS_E_UNEXPECTED_PACKET_LENGTH := by
  intro fuel
  induction fuel with
  | zero => intro p ds n h; simp [get_issuers_num_loop] at h
  | succ fuel ih =>
    intro p ds n h
    unfold get_issuers_num_loop at h
    split at h
    · simpa using h.symm
    · split at h
      · simp at h
      · split at h
        · simpa using h.symm
        · simp only at h
          split at h
          · simp at h
          · exact ih _ _ _ h

theorem get_issuers_loop_not_fail (data : Bytes) (err : ErrorCode) :
    ∀ (k p : Nat), get_issuers_loop data k p ≠ Outcome.fail err := by
  intro k
  induction k with
  | zero => intro p; simp [get_issuers_loop]
  | succ k ih =>
    intro p
    unfold get_issuers_loop
    split
    · simp
    · split
      · simp
      · split
        · simp
        · intro h
          exact ih _ h

theorem get_issuers_num_fail (data : Bytes) (err : ErrorCode)
    (h : get_issuers_num data = Outcome.fail err) :
    err = ErrorCode.GNUTLS_E_UNEXPECTED_PACKET_LENGTH := by
  unfold get_issuers_num at h
  split at h
  · simp at h
  · exact get_issuers_num_loop_fail data err _ _ _ _ h

theorem load_x509_certs_loop_not_fail (ext : SelectExternals)
    (certs : List gnutls_x509_crt_t) (err : ErrorCode) :
    ∀ (k i : Nat), load_x509_certs_loop ext certs k i ≠ Outcome.fail err := by
  intro k
  induction k with
  | zero => intro i; simp [load_x509_certs_loop]
  | succ k ih =>
    intro i
    unfold load_x509_certs_loop
    split
    · simp
    · split
      · simp
      · split
        · simp
        · intro h
          exact ih _ h

theorem alloc_and_load_x509_certs_not_fail (ext : SelectExternals)
    (certs : Option (List gnutls_x509_crt_t)) (ncerts : Nat) (err : ErrorCode) :
    alloc_and_load_x509_certs ext certs ncerts ≠ Outcome.fail err := by
  unfold alloc_and_load_x509_certs
  split
  · simp
  · split
    · simp
    · exact load_x509_certs_loop_not_fail ext _ err _ _

theorem call_get_cert_callback_adopt_fail (ext : SelectExternals) (session : Session)
    (ret : Int) (st : gnutls_retr_st) (err : ErrorCode)
    (h : (call_get_cert_callback_adopt ext session ret st).1 = Outcome.fail err) :
    (err = ErrorCode.GNUTLS_E_INTERNAL_ERROR ∨ err = ErrorCode.GNUTLS_E_INVALID_REQUEST) ∧
      (call_get_cert_callback_adopt ext session ret st).2 = session := by
  unfold call_get_cert_callback_adopt at h ⊢
  by_cases h1 : ret < 0
  · rw [if_pos h1] at h ⊢
    exact ⟨Or.inl (by simpa using h.symm), rfl⟩
  · rw [if_neg h1] at h ⊢
    by_cases h2 : st.ncerts = 0
    · rw [if_pos h2] at h
      simp at h
    · rw [if_neg h2] at h ⊢
      by_cases h3 : session.cert_type ≠ st.type
      · rw [if_pos h3] at h ⊢
        exact ⟨Or.inr (by simpa using h.symm), rfl⟩
      · rw [if_neg h3] at h ⊢
        by_cases h4 : session.cert_type = CertificateType.MHD_GNUTLS_CRT_X509
        · rw [if_pos h4] at h ⊢
          cases hal : alloc_and_load_x509_certs ext st.cert_x509 st.ncerts with
          | done lc => rw [hal] at h; simp at h
          | fail e2 => exact absurd hal (alloc_and_load_x509_certs_not_fail ext _ _ e2)
          | fault => rw [hal] at h; simp at h
          | timeout => rw [hal] at h; simp at h
        · rw [if_neg h4] at h ⊢
          exact ⟨Or.inr (by simpa using h.symm), rfl⟩

theorem call_get_cert_callback_fail (ext : SelectExternals) (session : Session)
    (issuers_dn : List Bytes) (pk_algos : List Int) (err : ErrorCode)
    (h : (call_get_cert_callback ext session issuers_dn pk_algos).1 = Outcome.fail err) :
    (err = ErrorCode.GNUTLS_E_INSUFFICIENT_CREDENTIALS ∨
        err = ErrorCode.GNUTLS_E_INTERNAL_ERROR ∨ err = ErrorCode.GNUTLS_E_INVALID_REQUEST) ∧
      (call_get_cert_callback ext session issuers_dn pk_algos).2 = session := by
  cases hc : session.cred with
  | none =>
    have e : call_get_cert_callback ext session issuers_dn pk_algos =
        (Outcome.fail ErrorCode.GNUTLS_E_INSUFFICIENT_CREDENTIALS, session) := by
      simp only [call_get_cert_callback, hc]
    rw [e] at h ⊢
    exact ⟨Or.inl (by simpa using h.symm), rfl⟩
  | some cred =>
    cases he : session.entity with
    | GNUTLS_SERVER =>
      cases hcb : cred.server_get_cert_callback with
      | none =>
        have e : call_get_cert_callback ext session issuers_dn pk_algos =
            (Outcome.fault, session) := by
          simp only [call_get_cert_callback, hc, he, hcb]
        rw [e] at h
        simp at h
      | some rs =>
        have e : call_get_cert_callback ext session issuers_dn pk_algos =
            call_get_cert_callback_adopt ext session rs.1 rs.2 := by
          simp only [call_get_cert_callback, hc, he, hcb]
        rw [e] at h ⊢
        have := call_get_cert_callback_adopt_fail ext session rs.1 rs.2 err h
        exact ⟨Or.inr this.1, this.2⟩
    | GNUTLS_CLIENT =>
      cases hcb : cred.client_get_cert_callback with
      | none =>
        have e : call_get_cert_callback ext session issuers_dn pk_algos =
            (Outcome.fault, session) := by
          simp only [call_get_cert_callback, hc, he, hcb]
        rw [e] at h
        simp at h
      | some cb =>
        have e : call_get_cert_callback ext session issuers_dn pk_algos =
            call_get_cert_callback_adopt ext session (cb issuers_dn pk_algos).1
              (cb issuers_dn pk_algos).2 := by
          simp only [call_get_cert_callback, hc, he, hcb]
        rw [e] at h ⊢
        have := call_get_cert_callback_adopt_fail ext session _ _ err h
        exact ⟨Or.inr this.1, this.2⟩

theorem select_client_cert_fail (ext : SelectExternals) (session : Session) (data : Bytes)
    (pk_algos : List Int) (err : ErrorCode)
    (h : (_select_client_cert ext session data pk_algos).1 = Outcome.fail err) :
    err ≠ ErrorCode.GNUTLS_E_UNKNOWN_PK_ALGORITHM ∧
      (_select_client_cert ext session data pk_algos).2 = session := by
  unfold _select_client_cert at h ⊢
  cases hc : session.cred with
  | none =>
    rw [hc] at h
    have : err = ErrorCode.GNUTLS_E_INSUFFICIENT_CREDENTIALS := by simpa using h.symm
    exact ⟨by rw [this]; decide, rfl⟩
  | some cred =>
    rw [hc] at h
    have hcall : ∀ dn : List Bytes,
        (call_get_cert_callback ext session dn pk_algos).1 = Outcome.fail err →
        err ≠ ErrorCode.GNUTLS_E_UNKNOWN_PK_ALGORITHM ∧
          (call_get_cert_callback ext session dn pk_algos).2 = session := by
      intro dn hd
      obtain ⟨he, hs⟩ := call_get_cert_callback_fail ext session dn pk_algos err hd
      refine ⟨?_, hs⟩
      rcases he with he | he | he <;> rw [he] <;> decide
    simp only at h ⊢
    by_cases hcb : cred.client_get_cert_callback ≠ none
    · rw [if_pos hcb] at h ⊢
      by_cases hx : session.cert_type ≠ CertificateType.MHD_GNUTLS_CRT_X509
      · rw [if_pos hx] at h ⊢
        exact hcall [] h
      · rw [if_neg hx] at h ⊢
        cases hn : get_issuers_num data with
        | fail e2 =>
          rw [hn] at h
          have h2 := get_issuers_num_fail data e2 hn
          have : err = e2 := by simpa using h.symm
          exact ⟨by rw [this, h2]; decide, rfl⟩
        | fault => rw [hn] at h; simp at h
        | timeout => rw [hn] at h; simp at h
        | done n =>
          rw [hn] at h
          simp only at h ⊢
          by_cases hpos : n > 0
          · rw [if_pos hpos] at h ⊢
            by_cases hm : ext.malloc_ok = false
            · rw [if_pos hm] at h ⊢
              have : err = ErrorCode.GNUTLS_E_MEMORY_ERROR := by simpa using h.symm
              exact ⟨by rw [this]; decide, rfl⟩
            · rw [if_neg hm] at h ⊢
              cases hg : get_issuers n data with
              | done dns =>
                rw [hg] at h
                exact hcall dns h
              | fail e2 => exact absurd hg (get_issuers_loop_not_fail data e2 _ _)
              | fault => rw [hg] at h; simp at h
              | timeout => rw [hg] at h; simp at h
          · rw [if_neg hpos] at h ⊢
            exact hcall [] h
    · rw [if_neg hcb] at h ⊢
      by_cases hx : session.cert_type = CertificateType.MHD_GNUTLS_CRT_X509
      · simp only [if_pos hx] at h ⊢
        cases hf : _find_x509_cert ext cred data pk_algos with
        | fail e2 =>
          rw [hf] at h
          have h2 := find_x509_cert_loop_fail ext cred.entries pk_algos data e2 _ _ _ hf
          have : err = e2 := by simpa using h.symm
          exact ⟨by rw [this, h2]; decide, rfl⟩
        | fault => rw [hf] at h; simp at h
        | timeout => rw [hf] at h; simp at h
        | done found =>
          rw [hf] at h
          cases found with
          | none => simp at h
          | some i =>
            simp only at h
            split at h <;> simp at h
      · simp only [if_neg hx] at h
        simp at h

theorem ready_request_cred (ext : SelectExternals) (session : Session)
    (hr : ReadyRequest ext session) : ∃ cred, session.cred = some cred := by
  cases h : session.cred with
  | none => exact absurd h hr.1
  | some c => exact ⟨c, rfl⟩

theorem proc_cert_cert_req_of_read_fail (ext : SelectExternals) (session : Session)
    (data : Bytes) (err : ErrorCode) (hr : ReadyRequest ext session)
    (hread : proc_cert_cert_req_read session.version data = Outcome.fail err) :
    mhd_gtls_proc_cert_cert_req ext session data = (Outcome.fail err, session) := by
  obtain ⟨cred, hc⟩ := ready_request_cred ext session hr
  simp only [mhd_gtls_proc_cert_cert_req, hc, hr.2, hread]

theorem proc_cert_cert_req_of_read_done (ext : SelectExternals) (session : Session)
    (data names : Bytes) (pk_algos : List Int) (hr : ReadyRequest ext session)
    (hread : proc_cert_cert_req_read session.version data = Outcome.done (names, pk_algos)) :
    mhd_gtls_proc_cert_cert_req ext session data =
      match _select_client_cert ext session names pk_algos with
      | (Outcome.done _, session1) =>
        (Outcome.done (), { session1 with certificate_requested := 1 })
      | other => other := by
  obtain ⟨cred, hc⟩ := ready_request_cred ext session hr
  simp only [mhd_gtls_proc_cert_cert_req, hc, hr.2, hread]

theorem proc_cert_cert_req_select_fail (ext : SelectExternals) (session : Session)
    (data names : Bytes) (pk_algos : List Int) (err : ErrorCode)
    (hr : ReadyRequest ext session)
    (hread : proc_cert_cert_req_read session.version data = Outcome.done (names, pk_algos))
    (hsel : _select_client_cert ext session names pk_algos = (Outcome.fail err, session)) :
    mhd_gtls_proc_cert_cert_req ext session data = (Outcome.fail err, session) := by
  rw [proc_cert_cert_req_of_read_done ext session data names pk_algos hr hread, hsel]

theorem proc_cert_cert_req_select_done (ext : SelectExternals) (session session1 : Session)
    (data names : Bytes) (pk_algos : List Int) (hr : ReadyRequest ext session)
    (hread : proc_cert_cert_req_read session.version data = Outcome.done (names, pk_algos))
    (hsel : _select_client_cert ext session names pk_algos = (Outcome.done (), session1)) :
    mhd_gtls_proc_cert_cert_req ext session data =
      (Outcome.done (), { session1 with certificate_requested := 1 }) := by
  rw [proc_cert_cert_req_of_read_done ext session data names pk_algos hr hread, hsel]

theorem proc_cert_cert_req_not_unknown_pk (ext : SelectExternals) (session : Session)
    (data names : Bytes) (pk_algos : List Int) (hr : ReadyRequest ext session)
    (hread : proc_cert_cert_req_read session.version data = Outcome.done (names, pk_algos)) :
    (mhd_gtls_proc_cert_cert_req ext session data).1 ≠
      Outcome.fail ErrorCode.GNUTLS_E_UNKNOWN_PK_ALGORITHM := by
  rw [proc_cert_cert_req_of_read_done ext session data names pk_algos hr hread]
  cases hs : _select_client_cert ext session names pk_algos with
  | mk o s1 =>
    cases o with
    | done u => simp
    | fail e =>
      have h1 : (_select_client_cert ext session names pk_algos).1 = Outcome.fail e := by
        rw [hs]
      have := (select_client_cert_fail ext session names pk_algos e h1).1
      simpa using this
    | fault => simp
    | timeout => simp

theorem kept_sign_algos_nil (algos : Bytes) :
    kept_sign_algos algos = [] ↔ ∀ b ∈ algos, supported_sign_algo b = false := by
  unfold kept_sign_algos MAX_SIGN_ALGOS
  constructor
  · intro h b hb
    by_contra hs
    have hs2 : supported_sign_algo b = true := by simpa using hs
    have hmem : b ∈ algos.filter supported_sign_algo := List.mem_filter.mpr ⟨hb, hs2⟩
    cases hf : algos.filter supported_sign_algo with
    | nil => rw [hf] at hmem; simp at hmem
    | cons x xs => rw [hf] at h; simp at h
  · intro h
    have hf : algos.filter supported_sign_algo = [] := by
      rw [List.filter_eq_nil_iff]
      intro b hb
      simp [h b hb]
    rw [hf]
    rfl

theorem kept_sign_algos_length (algos : Bytes) :
    (kept_sign_algos algos).length ≤ MAX_SIGN_ALGOS := by
  unfold kept_sign_algos
  simp [List.length_take]

theorem cert_req_sign_algos_complete (count : UInt8) (algos rest : Bytes)
    (hlen : algos.length = count.toNat) :
    cert_req_sign_algos (count :: (algos ++ rest)) = some (algos, rest) := by
  unfold cert_req_sign_algos
  simp only
  rw [if_neg (by simp only [List.length_append]; omega), ← hlen]
  simp

theorem server_select_cert_loop_total (cert_type : CertificateType) (requested_algo : Int)
    (entries : List cred_entry) (hne : ∀ e ∈ entries, e.cert_list ≠ []) :
    ∀ i0 : Nat,
      server_select_cert_loop cert_type requested_algo entries i0 = Outcome.done none ∨
        ∃ i, server_select_cert_loop cert_type requested_algo entries i0 =
          Outcome.done (some i) := by
  induction entries with
  | nil => intro i0; left; rfl
  | cons e rest ih =>
    intro i0
    have ih2 := ih (fun x hx => hne x (List.mem_cons_of_mem _ hx)) (i0 + 1)
    unfold server_select_cert_loop
    cases hh : e.cert_list.head? with
    | none =>
      have : e.cert_list = [] := by
        cases hc : e.cert_list with
        | nil => rfl
        | cons a b => rw [hc] at hh; simp at hh
      exact absurd this (hne e (List.mem_cons_self _ _))
    | some leaf =>
      simp only
      split
      · split
        · exact Or.inr ⟨i0, rfl⟩
        · exact ih2
      · exact ih2

theorem server_select_cert_heuristic (ext : SelectExternals) (session : Session)
    (cred : cert_credentials) (requested_algo : Int) (hcred : session.cred = some cred)
    (hcb : cred.server_get_cert_callback = none) :
    mhd_gtls_server_select_cert ext session requested_algo =
      match server_select_cert_loop session.cert_type requested_algo cred.entries 0 with
      | Outcome.fail e => (Outcome.fail e, session)
      | Outcome.fault => (Outcome.fault, session)
      | Outcome.timeout => (Outcome.timeout, session)
      | Outcome.done none =>
        (Outcome.fail ErrorCode.GNUTLS_E_INSUFFICIENT_CREDENTIALS, session)
      | Outcome.done (some idx) =>
        match cred.entries.get? idx with
        | none => (Outcome.fault, session)
        | some entry =>
          (Outcome.done (),
            mhd_gtls_selected_certs_set session (some entry.cert_list)
              (entry.cert_list.length : Int) (some entry.pkey) 0) := by
  simp only [mhd_gtls_server_select_cert, hcred, hcb, ne_eq, not_true_eq_false, if_false]

/-! ## CertificateRequest message decoder -/

/-- C11, the code at a request written by the encoder: the request of an X.509
TLS 1.0 server with the issuer sequence `00 01 41` is `02 01 02 00 03 00 01 41`;
the decoder reads it and hands to `_select_client_cert` the issuer names and
one algorithm only, RSA, because `_gnutls_check_supported_sign_algo` answers -1
for the advertised octet `DSA_SIGN`. -/
theorem cert_req_decoder_drops_dsa :
    mhd_gtls_gen_cert_server_cert_req true
        (session_of Entity.GNUTLS_SERVER Protocol.MHD_GNUTLS_TLS1_0 []) =
      Outcome.done (8, [2, 1, 2, 0, 3, 0, 1, 65]) ∧
      proc_cert_cert_req_read Protocol.MHD_GNUTLS_TLS1_0 [2, 1, 2, 0, 3, 0, 1, 65] =
        Outcome.done ([0, 1, 65], [MHD_GNUTLS_PK_RSA]) ∧
      _gnutls_check_supported_sign_algo RSA_SIGN = MHD_GNUTLS_PK_RSA ∧
      _gnutls_check_supported_sign_algo DSA_SIGN = -1 := by
  refine ⟨by decide, by decide, by decide, by decide⟩

/-- The signature-algorithm loop of `mhd_gtls_proc_cert_cert_req` as coded,
for every CertificateRequest body whose signature-algorithm list is completely
present in the buffer: it steps over the octets for which
`_gnutls_check_supported_sign_algo` answers a negative number and keeps the
other ones, in order, at most `MAX_SIGN_ALGOS` (2) of them; the function
returns `GNUTLS_E_UNKNOWN_PK_ALGORITHM` if and only if
`_gnutls_check_supported_sign_algo` answers a negative number for every listed
octet. -/
theorem cert_req_filters_sign_algos (ext : SelectExternals) (session : Session)
    (count : UInt8) (algos rest : Bytes) (hr : ReadyRequest ext session)
    (hlen : algos.length = count.toNat) :
    proc_cert_cert_req_algos (count :: (algos ++ rest)) count.toNat 1
        ((algos.length + rest.length : Nat) : Int) [] =
      Outcome.done (1 + algos.length, (rest.length : Int),
        ((algos.filter supported_sign_algo).map _gnutls_check_supported_sign_algo).take
          MAX_SIGN_ALGOS) ∧
      (((algos.filter supported_sign_algo).map _gnutls_check_supported_sign_algo).take
        MAX_SIGN_ALGOS).length ≤ MAX_SIGN_ALGOS ∧
      ((mhd_gtls_proc_cert_cert_req ext session (count :: (algos ++ rest))).1 =
          Outcome.fail ErrorCode.GNUTLS_E_UNKNOWN_PK_ALGORITHM ↔
        ∀ b ∈ algos, supported_sign_algo b = false) := by
  refine ⟨?_, kept_sign_algos_length algos, ?_⟩
  · have h := proc_cert_cert_req_algos_eq algos [count] rest [] (by simp)
    simp only [List.singleton_append, List.length_singleton, List.nil_append] at h
    rw [← hlen]
    exact h
  · have hread := proc_cert_cert_req_read_eq session.version (count :: (algos ++ rest))
    rw [cert_req_sign_algos_complete count algos rest hlen] at hread
    simp only at hread
    constructor
    · intro h
      by_contra hno
      have hk : kept_sign_algos algos ≠ [] := fun hk => hno ((kept_sign_algos_nil algos).mp hk)
      rw [if_neg hk] at hread
      cases hs : cert_req_skip_hashes session.version rest with
      | none =>
        rw [hs] at hread
        rw [proc_cert_cert_req_of_read_fail ext session _ _ hr hread] at h
        simp at h
      | some r1 =>
        rw [hs] at hread
        simp only at hread
        cases hn : cert_req_names r1 with
        | none =>
          rw [hn] at hread
          rw [proc_cert_cert_req_of_read_fail ext session _ _ hr hread] at h
          simp at h
        | some names =>
          rw [hn] at hread
          exact proc_cert_cert_req_not_unknown_pk ext session _ names _ hr hread h
    · intro hno
      rw [if_pos ((kept_sign_algos_nil algos).mpr hno)] at hread
      rw [proc_cert_cert_req_of_read_fail ext session _ _ hr hread]

/-- The signature-algorithm loop at the list `02 01 09` of three octets
followed by `00 00`: the octet 1 (RSA) is kept, the octets 2 and 9 are stepped
over. -/
theorem cert_req_filters_sign_algos_instance :
    proc_cert_cert_req_algos [3, 2, 1, 9, 0, 0] 3 1 5 [] =
      Outcome.done (4, 2, [MHD_GNUTLS_PK_RSA]) :=
  (cert_req_filters_sign_algos select_all (session_with_store Entity.GNUTLS_CLIENT [])
    3 [2, 1, 9] [0, 0] ⟨by decide, rfl⟩ rfl).1

/-- C12, the code at the CertificateRequest body `01 02 00 00` on a TLS 1.0
client with credentials: the signature-algorithm list is completely present
and holds the one octet `DSA_SIGN`, which the encoder of the same file
advertises and the comment of `_gnutls_check_supported_sign_algo` names as
supported; `_gnutls_check_supported_sign_algo` answers -1 for it, no algorithm
is kept and the decoder returns `GNUTLS_E_UNKNOWN_PK_ALGORITHM`. -/
theorem dsa_only_request_unknown_pk :
    DSA_SIGN = 2 ∧
      _gnutls_check_supported_sign_algo DSA_SIGN = -1 ∧
      proc_cert_cert_req_algos [1, 2, 0, 0] 1 1 3 [] = Outcome.done (2, 2, []) ∧
      (mhd_gtls_proc_cert_cert_req select_all (session_with_store Entity.GNUTLS_CLIENT [])
          [1, 2, 0, 0]).1 =
        Outcome.fail ErrorCode.GNUTLS_E_UNKNOWN_PK_ALGORITHM := by
  refine ⟨by decide, by decide, by decide, by decide⟩

/-- C13 (as amended): for every CertificateRequest whose issuer-name list is
malformed (an inner 2-byte name length is cut short or runs past the end of
the list), `mhd_gtls_proc_cert_cert_req` fails with
`GNUTLS_E_UNEXPECTED_PACKET_LENGTH` when a client selection callback is
registered and the certificate type is X.509.  In heuristic mode, when no
advertised name in front of the malformed entry matches a store entry, it does
not fail: it returns 0, selects no certificate and sets
`certificate_requested`. -/
theorem malformed_issuer_names (ext : SelectExternals) (session : Session)
    (cred : cert_credentials) (data names : Bytes) (pk_algos : List Int)
    (hauth : ext.auth_info_set = none) (hcred : session.cred = some cred)
    (hread : proc_cert_cert_req_read session.version data = Outcome.done (names, pk_algos))
    (hmal : NamesOverrun names) :
    (cred.client_get_cert_callback ≠ none →
        session.cert_type = CertificateType.MHD_GNUTLS_CRT_X509 →
        mhd_gtls_proc_cert_cert_req ext session data =
          (Outcome.fail ErrorCode.GNUTLS_E_UNEXPECTED_PACKET_LENGTH, session)) ∧
      (cred.client_get_cert_callback = none → IssuersDecodable ext cred.entries →
        ∀ advertised : List Bytes, Advertised names advertised →
          (∀ n ∈ advertised, ∀ e ∈ cred.entries, ¬ EntryMatches ext pk_algos n e) →
          (mhd_gtls_proc_cert_cert_req ext session data).1 = Outcome.done () ∧
            (mhd_gtls_proc_cert_cert_req ext session data).2.certificate_requested = 1 ∧
            (mhd_gtls_proc_cert_cert_req ext session data).2.selected_cert_list = none ∧
            (mhd_gtls_proc_cert_cert_req ext session data).2.selected_cert_list_length = 0) := by
  have hr : ReadyRequest ext session := ⟨by rw [hcred]; simp, hauth⟩
  constructor
  · intro hcb hx
    exact proc_cert_cert_req_select_fail ext session data names pk_algos _ hr hread
      (select_client_cert_callback_overrun ext session cred names pk_algos hcred hcb hx hmal)
  · intro hcb hdec advertised hadv hno
    rw [proc_cert_cert_req_select_done ext session _ data names pk_algos hr hread
      (select_client_cert_none ext session cred names pk_algos advertised hcred hcb hadv hdec
        hno)]
    simp [mhd_gtls_selected_certs_set]

/-- C13, instance of the amended statement: a client with a callback
registered receives `02 01 02 00 03 00 05 42`, whose issuer-name list
`00 05 42` declares a name of 5 bytes and holds 1. -/
theorem malformed_issuer_names_witness :
    NamesOverrun [0, 5, 66] ∧
      mhd_gtls_proc_cert_cert_req select_all client_with_callback [2, 1, 2, 0, 3, 0, 5, 66] =
        (Outcome.fail ErrorCode.GNUTLS_E_UNEXPECTED_PACKET_LENGTH, client_with_callback) :=
  ⟨NamesOverrun.payload 0 5 [66] (by decide),
    (malformed_issuer_names select_all client_with_callback
      { x509_rdn_sequence := [], client_get_cert_callback := some declining_callback }
      [2, 1, 2, 0, 3, 0, 5, 66] [0, 5, 66] [MHD_GNUTLS_PK_RSA] rfl rfl (by decide)
      (NamesOverrun.payload 0 5 [66] (by decide))).1 (by simp) rfl⟩

/-- C13, counterexample to the claim as stated: in heuristic mode a client
whose store holds one entry receives `02 01 02 00 03 00 05 42`; the
issuer-name list `00 05 42` is malformed, and the function returns 0 with
`certificate_requested` set to 1. -/
theorem heuristic_accepts_malformed_names :
    NamesOverrun [0, 5, 66] ∧
      proc_cert_cert_req_read Protocol.MHD_GNUTLS_TLS1_0 [2, 1, 2, 0, 3, 0, 5, 66] =
        Outcome.done ([0, 5, 66], [MHD_GNUTLS_PK_RSA]) ∧
      (mhd_gtls_proc_cert_cert_req select_all
          (session_with_store Entity.GNUTLS_CLIENT [entry_of 65 0])
          [2, 1, 2, 0, 3, 0, 5, 66]).1 = Outcome.done () ∧
      (mhd_gtls_proc_cert_cert_req select_all
          (session_with_store Entity.GNUTLS_CLIENT [entry_of 65 0])
          [2, 1, 2, 0, 3, 0, 5, 66]).2.certificate_requested = 1 := by
  refine ⟨NamesOverrun.payload 0 5 [66] (by decide), by decide, by decide, by decide⟩

/-- C15 (as amended): whenever `_find_x509_cert` selects a credential entry,
some certificate of that entry's chain (the leaf or a certificate after it) has
an issuer name byte-for-byte equal to one of the peer's advertised issuer
names, and the public-key algorithm of the entry's leaf certificate is in the
peer's accepted signature-algorithm set. -/
theorem find_x509_cert_selects_matching_chain (ext : SelectExternals)
    (cred : cert_credentials) (data : Bytes) (pk_algos : List Int) (i : Nat)
    (h : _find_x509_cert ext cred data pk_algos = Outcome.done (some i)) :
    ∃ names name e, Advertised data names ∧ name ∈ names ∧ cred.entries.get? i = some e ∧
      (∃ c ∈ e.cert_list, ext.issuer_dn c = some name) ∧
      ∃ leaf, e.cert_list.head? = some leaf ∧ leaf.subject_pk_algorithm ∈ pk_algos := by
  have hs := find_x509_cert_loop_sound ext cred.entries pk_algos (data.length / 2 + 1) [] data i
    (by simpa [_find_x509_cert] using h)
  obtain ⟨names, name, e, hadv, hmem, hget, hm⟩ := hs
  exact ⟨names, name, e, hadv, hmem, hget, hm.1, hm.2⟩

/-- C15, instance of the amended statement: the store holds the entries for
the issuers `41` and `42`, the peer advertises `42`, and entry 1 is selected. -/
theorem find_x509_cert_selects_matching_chain_witness :
    _find_x509_cert select_all
        { x509_rdn_sequence := [], entries := [entry_of 65 0, entry_of 66 1] }
        [0, 1, 66] [MHD_GNUTLS_PK_RSA] = Outcome.done (some 1) ∧
      ∃ names name e, Advertised [0, 1, 66] names ∧ name ∈ names ∧
        [entry_of 65 0, entry_of 66 1].get? 1 = some e ∧
        (∃ c ∈ e.cert_list, select_all.issuer_dn c = some name) ∧
        ∃ leaf, e.cert_list.head? = some leaf ∧
          leaf.subject_pk_algorithm ∈ [MHD_GNUTLS_PK_RSA] :=
  ⟨by decide,
    find_x509_cert_selects_matching_chain select_all
      { x509_rdn_sequence := [], entries := [entry_of 65 0, entry_of 66 1] }
      [0, 1, 66] [MHD_GNUTLS_PK_RSA] 1 (by decide)⟩

/-- C15, counterexample to the claim as stated: the only store entry has a
leaf certificate with issuer name `58` and a second chain certificate with
issuer name `41`; the peer advertises the single name `41`, and the entry is
selected although the issuer name of its leaf is not an advertised name. -/
theorem entry_selected_by_chain_certificate :
    _find_x509_cert select_all { x509_rdn_sequence := [], entries := [chained_entry] }
        [0, 1, 65] [MHD_GNUTLS_PK_RSA] = Outcome.done (some 0) ∧
      Advertised [0, 1, 65] [[65]] ∧
      chained_entry.cert_list.head?.bind select_all.issuer_dn = some [88] ∧
      ([88] : Bytes) ∉ ([[65]] : List Bytes) := by
  refine ⟨by decide, ?_, by decide, by decide⟩
  exact Advertised.next 0 1 [65] [] (by decide) (Advertised.stop [] (by decide))

/-- C16 (as amended): in client heuristic mode the order of the issuer-name
list governs over the order of the store.  For every issuer-name list and
credential store whose certificates have decodable issuer names, if `n` is the
first advertised name, in list order, that any store entry matches with an
accepted algorithm, then `_find_x509_cert` selects the lowest-indexed store
entry matching `n`, where an entry matches a name when some certificate of its
chain (the leaf or a certificate after it) has that issuer name and the
algorithm of its leaf is accepted. -/
theorem issuer_list_order_governs (ext : SelectExternals) (cred : cert_credentials)
    (data : Bytes) (pk_algos : List Int) (names before after : List Bytes) (n : Bytes)
    (s1 s2 : List cred_entry) (e : cred_entry)
    (hdec : IssuersDecodable ext cred.entries) (hadv : Advertised data names)
    (hnames : names = before ++ n :: after)
    (hbefore : ∀ m ∈ before, ∀ x ∈ cred.entries, ¬ EntryMatches ext pk_algos m x)
    (hstore : cred.entries = s1 ++ e :: s2)
    (hs1 : ∀ x ∈ s1, ¬ EntryMatches ext pk_algos n x)
    (he : EntryMatches ext pk_algos n e) :
    _find_x509_cert ext cred data pk_algos = Outcome.done (some s1.length) ∧
      cred.entries.get? s1.length = some e := by
  constructor
  · rw [hstore] at hdec hbefore
    have h := find_x509_cert_loop_first ext pk_algos s1 e s2 hdec data names hadv before n after
      hnames hbefore hs1 he (data.length / 2 + 1) [] (Nat.le_refl _)
    simpa [_find_x509_cert, hstore] using h
  · rw [hstore, List.get?_eq_getElem?, List.getElem?_append_right (Nat.le_refl _)]
    simp

/-- C16, instance of the amended statement: the store holds the
single-certificate entries for the issuers `41`, `42`, `43` in this order and
the peer advertises `43`, `41`: the entry for `43`, at index 2, is selected. -/
theorem issuer_list_order_governs_witness :
    _find_x509_cert select_all
        { x509_rdn_sequence := [], entries := [entry_of 65 0, entry_of 66 1, entry_of 67 2] }
        [0, 1, 67, 0, 1, 65] [MHD_GNUTLS_PK_RSA] = Outcome.done (some 2) :=
  (issuer_list_order_governs select_all
    { x509_rdn_sequence := [], entries := [entry_of 65 0, entry_of 66 1, entry_of 67 2] }
    [0, 1, 67, 0, 1, 65] [MHD_GNUTLS_PK_RSA] [[67], [65]] [] [[65]] [67]
    [entry_of 65 0, entry_of 66 1] [] (entry_of 67 2)
    (by simp [IssuersDecodable, entry_of, select_all])
    (Advertised.next 0 1 [67, 0, 1, 65] [[65]] (by decide)
      (Advertised.next 0 1 [65] [] (by decide) (Advertised.stop [] (by decide))))
    rfl (by simp) rfl
    (by simp [EntryMatches, entry_of, select_all])
    (by simp [EntryMatches, entry_of, select_all, MHD_GNUTLS_PK_RSA])).1

/-- C16, counterexample to the claim as stated: the leaf issuer names of the
store are `41`, `42`, `43`, the peer advertises `43`, `41`, and the first
entry holds behind its leaf a certificate with issuer name `43`.  The first
advertised name with a matching entry is `43` and the only entry whose leaf
has this issuer name is entry 2, yet `_find_x509_cert` selects entry 0. -/
theorem chain_certificate_precedes_leaf_match :
    ([cross_chained_entry, entry_of 66 1, entry_of 67 2].map
        (fun e => e.cert_list.head?.bind select_all.issuer_dn)) =
        [some [65], some [66], some [67]] ∧
      Advertised [0, 1, 67, 0, 1, 65] [[67], [65]] ∧
      _find_x509_cert select_all
          { x509_rdn_sequence := [],
            entries := [cross_chained_entry, entry_of 66 1, entry_of 67 2] }
          [0, 1, 67, 0, 1, 65] [MHD_GNUTLS_PK_RSA] = Outcome.done (some 0) := by
  refine ⟨by decide, ?_, by decide⟩
  exact Advertised.next 0 1 [67, 0, 1, 65] [[65]] (by decide)
    (Advertised.next 0 1 [65] [] (by decide) (Advertised.stop [] (by decide)))

/-- C17 (as amended): in client heuristic mode, if for no store entry some
certificate of its chain has an advertised issuer name while the algorithm of
its leaf is accepted, `_select_client_cert` returns 0 and the session's
selected credential becomes none: the selected list is NULL, its length 0, the
key NULL and `need_free` 0. -/
theorem no_match_selects_none (ext : SelectExternals) (session : Session)
    (cred : cert_credentials) (data : Bytes) (pk_algos : List Int) (names : List Bytes)
    (hcred : session.cred = some cred) (hcb : cred.client_get_cert_callback = none)
    (hdec : IssuersDecodable ext cred.entries) (hadv : Advertised data names)
    (hno : ∀ n ∈ names, ∀ e ∈ cred.entries, ¬ EntryMatches ext pk_algos n e) :
    (_select_client_cert ext session data pk_algos).1 = Outcome.done () ∧
      (_select_client_cert ext session data pk_algos).2.selected_cert_list = none ∧
      (_select_client_cert ext session data pk_algos).2.selected_cert_list_length = 0 ∧
      (_select_client_cert ext session data pk_algos).2.selected_key = none ∧
      (_select_client_cert ext session data pk_algos).2.selected_need_free = 0 := by
  rw [select_client_cert_none ext session cred data pk_algos names hcred hcb hadv hdec hno]
  exact ⟨rfl, selected_certs_set_fields session none 0 none 0⟩

/-- C17, instance of the amended statement: the store holds the entry for the
issuer `41` and the peer advertises `42`. -/
theorem no_match_selects_none_witness :
    (_select_client_cert select_all (session_with_store Entity.GNUTLS_CLIENT [entry_of 65 0])
        [0, 1, 66] [MHD_GNUTLS_PK_RSA]).1 = Outcome.done () ∧
      (_select_client_cert select_all (session_with_store Entity.GNUTLS_CLIENT [entry_of 65 0])
        [0, 1, 66] [MHD_GNUTLS_PK_RSA]).2.selected_cert_list = none :=
  have h := no_match_selects_none select_all
    (session_with_store Entity.GNUTLS_CLIENT [entry_of 65 0])
    { x509_rdn_sequence := [], entries := [entry_of 65 0] } [0, 1, 66] [MHD_GNUTLS_PK_RSA] [[66]]
    rfl rfl (by simp [IssuersDecodable, entry_of, select_all])
    (Advertised.next 0 1 [66] [] (by decide) (Advertised.stop [] (by decide)))
    (by simp [EntryMatches, entry_of, select_all])
  ⟨h.1, h.2.1⟩

/-- C17, counterexample to the claim as stated: the only store entry has a
leaf certificate with issuer name `58`, which is not the advertised name `41`,
so no store entry matches an advertised issuer name; `_select_client_cert`
returns 0 and selects the entry, of two certificates with key 3, because the
second certificate of its chain has the issuer name `41`. -/
theorem unmatched_leaf_entry_selected :
    Advertised [0, 1, 65] [[65]] ∧
      chained_entry.cert_list.head?.bind select_all.issuer_dn = some [88] ∧
      ([88] : Bytes) ∉ ([[65]] : List Bytes) ∧
      (_select_client_cert select_all
        (session_with_store Entity.GNUTLS_CLIENT [chained_entry])
        [0, 1, 65] [MHD_GNUTLS_PK_RSA]).1 = Outcome.done () ∧
      (_select_client_cert select_all
        (session_with_store Entity.GNUTLS_CLIENT [chained_entry])
        [0, 1, 65] [MHD_GNUTLS_PK_RSA]).2.selected_cert_list =
          some chained_entry.cert_list ∧
      (_select_client_cert select_all
        (session_with_store Entity.GNUTLS_CLIENT [chained_entry])
        [0, 1, 65] [MHD_GNUTLS_PK_RSA]).2.selected_cert_list_length = 2 ∧
      (_select_client_cert select_all
        (session_with_store Entity.GNUTLS_CLIENT [chained_entry])
        [0, 1, 65] [MHD_GNUTLS_PK_RSA]).2.selected_key = some { handle := 3 } := by
  refine ⟨?_, by decide, by decide, by decide, by decide, by decide, by decide⟩
  exact Advertised.next 0 1 [65] [] (by decide) (Advertised.stop [] (by decide))

/-- C18: in server heuristic mode (no server callback), when
`mhd_gtls_server_select_cert` succeeds the selected entry is the
lowest-indexed store entry whose leaf public-key algorithm equals
`requested_algo` (any entry when `requested_algo` is `GNUTLS_PK_ANY`) and whose
leaf certificate type equals the negotiated certificate type; the session then
references that entry's chain, chain length and private key with `need_free`
0. -/
theorem server_select_cert_lowest_index (ext : SelectExternals) (session : Session)
    (cred : cert_credentials) (requested_algo : Int) (hcred : session.cred = some cred)
    (hcb : cred.server_get_cert_callback = none)
    (hok : (mhd_gtls_server_select_cert ext session requested_algo).1 = Outcome.done ()) :
    ∃ i e, cred.entries.get? i = some e ∧
      LeafAccepted session.cert_type requested_algo e ∧
      (∀ (j : Nat) (x : cred_entry), j < i → cred.entries.get? j = some x →
        ¬ LeafAccepted session.cert_type requested_algo x) ∧
      (mhd_gtls_server_select_cert ext session requested_algo).2.selected_cert_list =
        some e.cert_list ∧
      (mhd_gtls_server_select_cert ext session requested_algo).2.selected_cert_list_length =
        (e.cert_list.length : Int) ∧
      (mhd_gtls_server_select_cert ext session requested_algo).2.selected_key =
        some e.pkey ∧
      (mhd_gtls_server_select_cert ext session requested_algo).2.selected_need_free = 0 := by
  rw [server_select_cert_heuristic ext session cred requested_algo hcred hcb] at hok ⊢
  cases hl : server_select_cert_loop session.cert_type requested_algo cred.entries 0 with
  | fail err => rw [hl] at hok; simp at hok
  | fault => rw [hl] at hok; simp at hok
  | timeout => rw [hl] at hok; simp at hok
  | done o =>
    cases o with
    | none => rw [hl] at hok; simp at hok
    | some i =>
      obtain ⟨e, _, hget, hacc, hmin⟩ :=
        server_select_cert_loop_sound session.cert_type requested_algo cred.entries 0 i hl
      rw [Nat.sub_zero] at hget hmin
      refine ⟨i, e, hget, hacc, hmin, ?_⟩
      simp only [hget]
      exact selected_certs_set_fields session (some e.cert_list) _ (some e.pkey) 0

/-- C18, instance: the server store holds two RSA entries and the peer asks
for RSA; the first entry is selected in place of the earlier selection. -/
theorem server_select_cert_lowest_index_witness :
    ∃ i e, [entry_of 65 0, entry_of 66 1].get? i = some e ∧
      LeafAccepted CertificateType.MHD_GNUTLS_CRT_X509 MHD_GNUTLS_PK_RSA e ∧
      (∀ (j : Nat) (x : cred_entry), j < i → [entry_of 65 0, entry_of 66 1].get? j = some x →
        ¬ LeafAccepted CertificateType.MHD_GNUTLS_CRT_X509 MHD_GNUTLS_PK_RSA x) ∧
      (mhd_gtls_server_select_cert select_all server_with_selection
        MHD_GNUTLS_PK_RSA).2.selected_cert_list = some e.cert_list ∧
      (mhd_gtls_server_select_cert select_all server_with_selection
        MHD_GNUTLS_PK_RSA).2.selected_cert_list_length = (e.cert_list.length : Int) ∧
      (mhd_gtls_server_select_cert select_all server_with_selection
        MHD_GNUTLS_PK_RSA).2.selected_key = some e.pkey ∧
      (mhd_gtls_server_select_cert select_all server_with_selection
        MHD_GNUTLS_PK_RSA).2.selected_need_free = 0 :=
  server_select_cert_lowest_index select_all server_with_selection
    { x509_rdn_sequence := [], entries := [entry_of 65 0, entry_of 66 1] } MHD_GNUTLS_PK_RSA
    rfl rfl (by decide)

/-- C19: in server heuristic mode, over a store whose chains are not empty,
`mhd_gtls_server_select_cert` returns `GNUTLS_E_INSUFFICIENT_CREDENTIALS` if
and only if no credentials are attached or no store entry satisfies both the
algorithm and the certificate-type condition; in that case the session, and
with it the previously selected credential fields, is left unchanged. -/
theorem server_select_cert_insufficient (ext : SelectExternals) (session : Session)
    (requested_algo : Int)
    (hcb : ∀ cred, session.cred = some cred → cred.server_get_cert_callback = none)
    (hstore : ∀ cred, session.cred = some cred → ∀ e ∈ cred.entries, e.cert_list ≠ []) :
    ((mhd_gtls_server_select_cert ext session requested_algo).1 =
          Outcome.fail ErrorCode.GNUTLS_E_INSUFFICIENT_CREDENTIALS ↔
        (session.cred = none ∨ ∃ cred, session.cred = some cred ∧
          ∀ e ∈ cred.entries, ¬ LeafAccepted session.cert_type requested_algo e)) ∧
      ((mhd_gtls_server_select_cert ext session requested_algo).1 =
          Outcome.fail ErrorCode.GNUTLS_E_INSUFFICIENT_CREDENTIALS →
        (mhd_gtls_server_select_cert ext session requested_algo).2 = session) := by
  cases hc : session.cred with
  | none =>
    have hres : mhd_gtls_server_select_cert ext session requested_algo =
        (Outcome.fail ErrorCode.GNUTLS_E_INSUFFICIENT_CREDENTIALS, session) := by
      simp only [mhd_gtls_server_select_cert, hc]
    rw [hres]
    exact ⟨⟨fun _ => Or.inl rfl, fun _ => rfl⟩, fun _ => rfl⟩
  | some cred =>
    rw [server_select_cert_heuristic ext session cred requested_algo hc (hcb cred hc)]
    have hne := hstore cred hc
    rcases server_select_cert_loop_total session.cert_type requested_algo cred.entries hne 0
      with hl | ⟨i, hl⟩
    · rw [hl]
      refine ⟨⟨fun _ => Or.inr ⟨cred, rfl, ?_⟩, fun _ => rfl⟩, fun _ => rfl⟩
      intro e he
      exact (((server_select_cert_loop_none session.cert_type requested_algo cred.entries 0).mp
        hl) e he).2
    · rw [hl]
      obtain ⟨e, _, hget, hacc, _⟩ :=
        server_select_cert_loop_sound session.cert_type requested_algo cred.entries 0 i hl
      rw [Nat.sub_zero] at hget
      simp only [hget]
      refine ⟨⟨fun h => by simp at h, ?_⟩, fun h => by simp at h⟩
      rintro (h | ⟨cred2, h2, hno⟩)
      · simp at h
      · simp only [Option.some.injEq] at h2
        rw [← h2] at hno
        exact absurd hacc (hno e (List.get?_mem hget))

/-- C19, instance: the server store holds RSA entries only and the peer asks
for the algorithm 5; the earlier selection, of length 1, is still in place. -/
theorem server_select_cert_insufficient_witness :
    (mhd_gtls_server_select_cert select_all server_with_selection 5).1 =
        Outcome.fail ErrorCode.GNUTLS_E_INSUFFICIENT_CREDENTIALS ∧
      (mhd_gtls_server_select_cert select_all server_with_selection 5).2 =
        server_with_selection :=
  have h := server_select_cert_insufficient select_all server_with_selection 5
    (fun cred hc => by
      have hc2 : cred = { x509_rdn_sequence := [], entries := [entry_of 65 0, entry_of 66 1] } :=
        (Option.some.inj hc).symm
      rw [hc2])
    (fun cred hc => by
      have hc2 : cred = { x509_rdn_sequence := [], entries := [entry_of 65 0, entry_of 66 1] } :=
        (Option.some.inj hc).symm
      rw [hc2]
      simp [entry_of])
  ⟨by decide, h.2 (by decide)⟩

/-- C20, the code at a declining callback: on a client where a chain of length
1 was selected before, the callback returns 0 with zero certificates;
`call_get_cert_callback` returns 0 and the session still holds the earlier
selection, of length 1, whereas the heuristic path on the same session with no
matching entry resets the selection to none. -/
theorem declining_callback_keeps_selection :
    (call_get_cert_callback select_all client_with_callback [] [MHD_GNUTLS_PK_RSA]).1 =
        Outcome.done () ∧
      (call_get_cert_callback select_all client_with_callback []
        [MHD_GNUTLS_PK_RSA]).2.selected_cert_list_length = 1 ∧
      (call_get_cert_callback select_all client_with_callback []
        [MHD_GNUTLS_PK_RSA]).2.selected_cert_list =
        some [({ raw := [170] } : gnutls_cert)] ∧
      (_select_client_cert select_all
        { client_with_callback with cred := some { x509_rdn_sequence := [] } } []
        [MHD_GNUTLS_PK_RSA]).2.selected_cert_list_length = 0 := by
  refine ⟨by decide, by decide, by decide, by decide⟩

/-! ## Lemmas on `memcpy` and the seeds -/

theorem memcpy_append (pre rest src : Bytes) (n : Nat) (hn : n = src.length)
    (hle : src.length ≤ rest.length) :
    memcpy (pre ++ rest) pre.length src n = some (pre ++ src ++ rest.drop src.length) := by
  subst hn
  unfold memcpy
  rw [if_pos ⟨Nat.le_refl _, by simp only [List.length_append]; omega⟩]
  congr 1
  rw [List.take_left, List.take_length, List.drop_append_eq_append_drop]
  simp

theorem memcpy_front (dst src : Bytes) (n : Nat) (hn : n = src.length)
    (hle : src.length ≤ dst.length) :
    memcpy dst 0 src n = some (src ++ dst.drop src.length) := by
  have h := memcpy_append [] dst src n hn hle
  simpa using h

theorem memcpy_none_iff (dst : Bytes) (off : Nat) (src : Bytes) (n : Nat) :
    memcpy dst off src n = none ↔ ¬ (n ≤ src.length ∧ off + n ≤ dst.length) := by
  unfold memcpy
  split <;> simp_all

theorem generate_normal_master_rnd_eq (session : Session)
    (hc : session.client_random.length = TLS_RANDOM_SIZE)
    (hs : session.server_random.length = TLS_RANDOM_SIZE) :
    generate_normal_master_rnd session =
      some (session.client_random ++ session.server_random) := by
  unfold generate_normal_master_rnd
  have h1 : memcpy (List.replicate (2 * TLS_RANDOM_SIZE + 1) 0) 0 session.client_random
      TLS_RANDOM_SIZE =
      some (session.client_random ++ List.replicate (TLS_RANDOM_SIZE + 1) 0) := by
    rw [memcpy_front _ _ _ hc.symm (by simp [hc, TLS_RANDOM_SIZE])]
    simp [hc, TLS_RANDOM_SIZE]
  rw [h1]
  simp only
  have h2 : memcpy (session.client_random ++ List.replicate (TLS_RANDOM_SIZE + 1) 0)
      TLS_RANDOM_SIZE session.server_random TLS_RANDOM_SIZE =
      some (session.client_random ++ session.server_random ++ List.replicate 1 0) := by
    have h := memcpy_append session.client_random (List.replicate (TLS_RANDOM_SIZE + 1) 0)
      session.server_random TLS_RANDOM_SIZE hs.symm (by simp [hs])
    rw [hc] at h
    rw [h]
    simp [hs, TLS_RANDOM_SIZE]
  rw [h2]
  simp only
  congr 1
  rw [List.take_append_of_le_length (by simp [hc, hs, TLS_RANDOM_SIZE])]
  rw [List.take_of_length_le (by simp [hc, hs, TLS_RANDOM_SIZE])]

theorem generate_normal_master_rnd_oprfi_eq (session : Session)
    (hc : session.client_random.length = TLS_RANDOM_SIZE)
    (hs : session.server_random.length = TLS_RANDOM_SIZE) :
    generate_normal_master_rnd_oprfi session =
      some (session.client_random ++ session.oprfi_client ++ session.server_random ++
        session.oprfi_server) := by
  unfold generate_normal_master_rnd_oprfi
  simp only
  have h1 : memcpy
      (List.replicate (2 * TLS_RANDOM_SIZE + session.oprfi_client.length +
        session.oprfi_server.length + 1) 0) 0 session.client_random TLS_RANDOM_SIZE =
      some (session.client_random ++
        List.replicate (TLS_RANDOM_SIZE + session.oprfi_client.length +
          session.oprfi_server.length + 1) 0) := by
    rw [memcpy_front _ _ _ hc.symm (by simp only [List.length_replicate, hc]; omega)]
    congr 2
    rw [List.drop_replicate, hc]
    congr 1
    omega
  rw [h1]
  simp only
  have h2 : memcpy
      (session.client_random ++
        List.replicate (TLS_RANDOM_SIZE + session.oprfi_client.length +
          session.oprfi_server.length + 1) 0) TLS_RANDOM_SIZE session.oprfi_client
        session.oprfi_client.length =
      some (session.client_random ++ session.oprfi_client ++
        List.replicate (TLS_RANDOM_SIZE + session.oprfi_server.length + 1) 0) := by
    have h := memcpy_append session.client_random
      (List.replicate (TLS_RANDOM_SIZE + session.oprfi_client.length +
          session.oprfi_server.length + 1) 0)
      session.oprfi_client session.oprfi_client.length rfl
      (by simp only [List.length_replicate]; omega)
    rw [hc] at h
    rw [h]
    congr 2
    rw [List.drop_replicate]
    congr 1
    omega
  rw [h2]
  simp only
  have h3 : memcpy
      (session.client_random ++ session.oprfi_client ++
        List.replicate (TLS_RANDOM_SIZE + session.oprfi_server.length + 1) 0)
        (TLS_RANDOM_SIZE + session.oprfi_client.length) session.server_random
        TLS_RANDOM_SIZE =
      some (session.client_random ++ session.oprfi_client ++ session.server_random ++
        List.replicate (session.oprfi_server.length + 1) 0) := by
    have h := memcpy_append (session.client_random ++ session.oprfi_client)
      (List.replicate (TLS_RANDOM_SIZE + session.oprfi_server.length + 1) 0)
      session.server_random TLS_RANDOM_SIZE hs.symm
      (by simp only [List.length_replicate, hs]; omega)
    rw [List.length_append, hc] at h
    rw [h]
    congr 2
    rw [List.drop_replicate, hs]
    congr 1
    omega
  rw [h3]
  simp only
  have h4 : memcpy
      (session.client_random ++ session.oprfi_client ++ session.server_random ++
        List.replicate (session.oprfi_server.length + 1) 0)
        (TLS_RANDOM_SIZE + session.oprfi_client.length + TLS_RANDOM_SIZE)
        session.oprfi_server session.oprfi_server.length =
      some (session.client_random ++ session.oprfi_client ++ session.server_random ++
        session.oprfi_server ++ List.replicate 1 0) := by
    have h := memcpy_append
      (session.client_random ++ session.oprfi_client ++ session.server_random)
      (List.replicate (session.oprfi_server.length + 1) 0)
      session.oprfi_server session.oprfi_server.length rfl
      (by simp only [List.length_replicate]; omega)
    rw [List.length_append, List.length_append, hc, hs] at h
    rw [h]
    congr 2
    rw [List.drop_replicate]
    congr 1
    omega
  rw [h4]
  simp only
  congr 1
  rw [List.take_append_of_le_length
    (by simp only [List.length_append, hc, hs]; omega)]
  rw [List.take_of_length_le (by simp only [List.length_append, hc, hs]; omega)]

/-! ## Lemmas on `generate_normal_master` -/

theorem generate_normal_master_expand_eq (ext : KxExternals) (session : Session)
    (hc : session.client_random.length = TLS_RANDOM_SIZE)
    (hs : session.server_random.length = TLS_RANDOM_SIZE)
    (hmalloc : session.version ≠ Protocol.MHD_GNUTLS_SSL3 → 0 < session.oprfi_client.length →
      0 < session.oprfi_server.length → ext.malloc_ok = true) :
    generate_normal_master_expand ext session =
      Outcome.done (derive_master_secret ext session TLS_MASTER_SIZE) := by
  unfold generate_normal_master_expand derive_master_secret master_seed
  by_cases hv : session.version = Protocol.MHD_GNUTLS_SSL3
  · rw [if_pos hv, if_pos hv, generate_normal_master_rnd_eq session hc hs]
  · rw [if_neg hv, if_neg hv]
    by_cases ho : session.oprfi_client.length > 0 ∧ session.oprfi_server.length > 0
    · have hm := hmalloc hv ho.1 ho.2
      rw [if_pos ho, if_pos ho, generate_normal_master_rnd_oprfi_eq session hc hs]
      simp [hm]
    · rw [if_neg ho, if_neg ho, generate_normal_master_rnd_eq session hc hs]

theorem generate_normal_master_done (ext : KxExternals) (session : Session)
    (keep_premaster : Int) (out : Bytes) (hw : WellSized session)
    (hexp : generate_normal_master_expand ext session = Outcome.done (Except.ok out))
    (hout : out.length ≤ TLS_MASTER_SIZE) :
    generate_normal_master ext session keep_premaster =
      (Outcome.done (),
        if keep_premaster = 0 then
          { session with
            master_secret := out ++ session.master_secret.drop out.length
            inner_secret := out ++ session.master_secret.drop out.length
            PREMASTER := [] }
        else
          { session with
            master_secret := out ++ session.master_secret.drop out.length
            inner_secret := out ++ session.master_secret.drop out.length }) := by
  obtain ⟨_, _, hm, hi⟩ := hw
  unfold generate_normal_master
  rw [hexp]
  simp only
  rw [memcpy_front session.master_secret out out.length rfl (by rw [hm]; exact hout)]
  simp only
  have hlen : (out ++ session.master_secret.drop out.length).length = TLS_MASTER_SIZE := by
    simp only [List.length_append, List.length_drop, hm]
    omega
  rw [memcpy_front session.inner_secret _ TLS_MASTER_SIZE hlen.symm (by rw [hlen, hi])]
  simp only
  rw [hlen, ← hi, List.drop_length, List.append_nil]

theorem generate_normal_master_error (ext : KxExternals) (session : Session)
    (keep_premaster : Int) (err : ErrorCode) (hw : WellSized session)
    (hexp : generate_normal_master_expand ext session = Outcome.done (Except.error err)) :
    generate_normal_master ext session keep_premaster =
      (Outcome.fail err,
        if keep_premaster = 0 then
          { session with inner_secret := session.master_secret, PREMASTER := [] }
        else { session with inner_secret := session.master_secret }) := by
  obtain ⟨_, _, hm, hi⟩ := hw
  unfold generate_normal_master
  rw [hexp]
  simp only
  rw [memcpy_front session.inner_secret _ TLS_MASTER_SIZE hm.symm (by rw [hm, hi])]
  simp only
  rw [hm, ← hi, List.drop_length, List.append_nil]

theorem generate_normal_master_done_inv (ext : KxExternals) (session : Session)
    (keep_premaster : Int)
    (hok : (generate_normal_master ext session keep_premaster).1 = Outcome.done ()) :
    ∃ out, generate_normal_master_expand ext session = Outcome.done (Except.ok out) ∧
      out.length ≤ session.master_secret.length := by
  unfold generate_normal_master at hok
  cases hexp : generate_normal_master_expand ext session with
  | fail e => rw [hexp] at hok; simp at hok
  | fault => rw [hexp] at hok; simp at hok
  | timeout => rw [hexp] at hok; simp at hok
  | done ret =>
    cases ret with
    | error e =>
      rw [hexp] at hok
      simp only at hok
      split at hok
      · simp at hok
      · simp at hok
    | ok out =>
      refine ⟨out, rfl, ?_⟩
      by_contra hgt
      rw [hexp] at hok
      simp only at hok
      have hnone : memcpy session.master_secret 0 out out.length = none := by
        rw [memcpy_none_iff]
        intro h
        exact hgt (by omega)
      rw [hnone] at hok
      simp at hok

/-! ## Lemmas on the CertificateVerify functions -/

theorem proc_cert_client_cert_vrfy_short (ext : VrfyExternals) (session : Session)
    (info : cert_auth_info) (data : Bytes) (hrec : PeerOnRecord session info)
    (hshort : data.length < 2) :
    mhd_gtls_proc_cert_client_cert_vrfy ext session data =
      (Outcome.fail ErrorCode.GNUTLS_E_UNEXPECTED_PACKET_LENGTH, []) := by
  unfold mhd_gtls_proc_cert_client_cert_vrfy
  rw [hrec.1]
  simp only
  rw [if_neg hrec.2, DECR_LEN_lt _ _ (by omega)]

theorem proc_cert_client_cert_vrfy_cut (ext : VrfyExternals) (session : Session)
    (info : cert_auth_info) (b0 b1 : UInt8) (rest : Bytes) (hrec : PeerOnRecord session info)
    (hcut : rest.length < b0.toNat * 256 + b1.toNat) :
    mhd_gtls_proc_cert_client_cert_vrfy ext session (b0 :: b1 :: rest) =
      (Outcome.fail ErrorCode.GNUTLS_E_UNEXPECTED_PACKET_LENGTH, []) := by
  unfold mhd_gtls_proc_cert_client_cert_vrfy
  rw [hrec.1]
  simp only
  rw [if_neg hrec.2, DECR_LEN_le _ _ (by simp only [List.length_cons]; push_cast; omega)]
  simp only
  have hread := read_uint16_cons b0 b1 [] rest
  simp only [List.nil_append, List.length_nil] at hread
  rw [hread]
  simp only
  rw [DECR_LEN_lt _ _ (by simp only [List.length_cons]; push_cast; omega)]

theorem proc_cert_client_cert_vrfy_framed (ext : VrfyExternals) (session : Session)
    (info : cert_auth_info) (raw : Bytes) (b0 b1 : UInt8) (rest : Bytes)
    (hrec : PeerOnRecord session info)
    (hraw : info.raw_certificate_list.get? 0 = some raw)
    (hfit : b0.toNat * 256 + b1.toNat ≤ rest.length) :
    mhd_gtls_proc_cert_client_cert_vrfy ext session (b0 :: b1 :: rest) =
      match mhd_gtls_raw_cert_to_gcert ext session.cert_type raw with
      | Except.error e => (Outcome.fail e, [])
      | Except.ok peer_cert =>
        match mhd_gtls_verify_sig_hdata ext session peer_cert
            (rest.take (b0.toNat * 256 + b1.toNat)) with
        | some e => (Outcome.fail e, [(peer_cert, rest.take (b0.toNat * 256 + b1.toNat))])
        | none => (Outcome.done (), [(peer_cert, rest.take (b0.toNat * 256 + b1.toNat))]) := by
  unfold mhd_gtls_proc_cert_client_cert_vrfy
  rw [hrec.1]
  simp only
  rw [if_neg hrec.2, DECR_LEN_le _ _ (by simp only [List.length_cons]; push_cast; omega)]
  simp only
  have hread := read_uint16_cons b0 b1 [] rest
  simp only [List.nil_append, List.length_nil] at hread
  rw [hread]
  simp only
  rw [DECR_LEN_le _ _ (by simp only [List.length_cons]; push_cast; omega), hraw]
  simp only
  have hdat : datum_at (b0 :: b1 :: rest) 2 (b0.toNat * 256 + b1.toNat) =
      some (rest.take (b0.toNat * 256 + b1.toNat)) := by
    unfold datum_at
    rw [if_pos (by simp only [List.length_cons]; omega)]
    rfl
  rw [hdat]

theorem read_write_uint16 (n : Nat) (hn : n < 65536) (r : Bytes) :
    mhd_gtls_read_uint16 (mhd_gtls_write_uint16 n ++ r) 0 = some n := by
  unfold mhd_gtls_read_uint16 mhd_gtls_write_uint16
  simp only [List.drop_zero, List.cons_append, List.nil_append]
  congr 1
  rw [toNat_ofNat_u8, toNat_ofNat_u8]
  omega

theorem gen_cert_client_cert_vrfy_signed (ext : VrfyExternals) (session : Session)
    (leaf : gnutls_cert) (chain : List gnutls_cert) (key : gnutls_privkey)
    (signature : Bytes) (hsel : SelectedChain session (leaf :: chain))
    (hkey : session.selected_key = some key) (hmalloc : ext.malloc_ok = true)
    (hsign : ext.sign key (ext.transcript_digest session) = Except.ok signature) :
    mhd_gtls_gen_cert_client_cert_vrfy ext session =
      (Outcome.done ((signature.length : Int) + 2,
          some (mhd_gtls_write_uint16 signature.length ++ signature)),
        [(leaf, some key)]) := by
  have hget := get_selected_cert_nonempty session (leaf :: chain) hsel (by simp)
  have hlist : session.selected_cert_list = some (leaf :: chain) := by
    rcases hsel.2 with h | ⟨_, h⟩
    · exact h
    · simp at h
  have hlen : session.selected_cert_list_length > 0 := by
    rw [hsel.1]
    simp only [List.length_cons]
    push_cast
    omega
  unfold mhd_gtls_gen_cert_client_cert_vrfy
  rw [hget]
  simp only
  rw [if_pos hlen, hlist, hkey]
  simp only [cert_at, List.get?_cons_zero, mhd_gtls_tls_sign_hdata, hsign, hmalloc]
  simp

theorem write_uint16_bytes (n : Nat) (hn : n < 65536) :
    ∃ b0 b1 : UInt8, mhd_gtls_write_uint16 n = [b0, b1] ∧ b0.toNat * 256 + b1.toNat = n := by
  refine ⟨UInt8.ofNat (n / 256 % 256), UInt8.ofNat (n % 256), rfl, ?_⟩
  rw [toNat_ofNat_u8, toNat_ofNat_u8]
  omega

theorem set_ne_self (l : Bytes) (i : Nat) (b : UInt8) (hi : i < l.length)
    (hb : l.get? i ≠ some b) : l.set i b ≠ l := by
  intro h
  apply hb
  rw [← h, List.get?_eq_getElem?, List.getElem?_set_self (by simpa using hi)]

theorem verify_sig_hdata_accepts (ext : VrfyExternals) (session : Session)
    (key : gnutls_privkey) (pub : gnutls_cert) (signature : Bytes)
    (hpair : KeyPair ext key pub)
    (hs : ext.sign key (ext.transcript_digest session) = Except.ok signature) :
    mhd_gtls_verify_sig_hdata ext session pub signature = none := by
  unfold mhd_gtls_verify_sig_hdata
  rw [if_pos ((hpair.1 _ _).mpr hs)]

theorem verify_sig_hdata_rejects (ext : VrfyExternals) (session : Session)
    (key : gnutls_privkey) (pub : gnutls_cert) (signature : Bytes)
    (hpair : KeyPair ext key pub)
    (hs : ext.sign key (ext.transcript_digest session) ≠ Except.ok signature) :
    mhd_gtls_verify_sig_hdata ext session pub signature =
      some ErrorCode.GNUTLS_E_PK_SIG_VERIFY_FAILED := by
  unfold mhd_gtls_verify_sig_hdata
  rw [if_neg (fun h => hs ((hpair.1 _ _).mp h))]

/-! ## Issuer names handed to the client callback -/

/-- C21, the code at an issuer-name list with an empty name: the list
`00 00 00 01 41` encodes the empty name and the name `41`, and each entry lies
inside the list.  `get_issuers_num` counts 1 name, since it steps over the
empty one, and `get_issuers` then stores the first entry: the client callback
is handed the single empty name, neither the two names of the list nor the
name `41`. -/
theorem issuer_count_and_list_disagree :
    Advertised [0, 0, 0, 1, 65] [[], [65]] ∧
      get_issuers_num [0, 0, 0, 1, 65] = Outcome.done 1 ∧
      get_issuers 1 [0, 0, 0, 1, 65] = Outcome.done [[]] ∧
      (_select_client_cert select_all (probing_client [[]]) [0, 0, 0, 1, 65]
        [MHD_GNUTLS_PK_RSA]).1 = Outcome.done () ∧
      (_select_client_cert select_all (probing_client [[], [65]]) [0, 0, 0, 1, 65]
        [MHD_GNUTLS_PK_RSA]).1 = Outcome.fail ErrorCode.GNUTLS_E_INTERNAL_ERROR ∧
      (_select_client_cert select_all (probing_client [[65]]) [0, 0, 0, 1, 65]
        [MHD_GNUTLS_PK_RSA]).1 = Outcome.fail ErrorCode.GNUTLS_E_INTERNAL_ERROR := by
  refine ⟨?_, by decide, by decide, by decide, by decide, by decide⟩
  exact Advertised.next 0 0 [0, 1, 65] [[65]] (by decide)
    (Advertised.next 0 1 [65] [] (by decide) (Advertised.stop [] (by decide)))

/-! ## Master secret derivation -/

/-- C22: for a protocol version other than SSL3, `generate_normal_master` calls
the PRF on the premaster with the label "master secret" (13 ASCII bytes), the
seed and 48 as the number of bytes; the seed is
client_random ‖ oprfi_client ‖ server_random ‖ oprfi_server exactly when both
extension blob lengths are positive and the 64 bytes
client_random ‖ server_random otherwise, also when only one blob is present.
The bytes the PRF gives become the master secret, and an error of the PRF is
returned. -/
theorem normal_master_uses_prf (ext : KxExternals) (session : Session) (keep_premaster : Int)
    (hw : WellSized session) (hv : session.version ≠ Protocol.MHD_GNUTLS_SSL3)
    (hmalloc : ext.malloc_ok = true) :
    generate_normal_master_expand ext session =
        Outcome.done (ext.PRF session session.PREMASTER MASTER_SECRET
          (if 0 < session.oprfi_client.length ∧ 0 < session.oprfi_server.length then
            session.client_random ++ session.oprfi_client ++ session.server_random ++
              session.oprfi_server
          else session.client_random ++ session.server_random) 48) ∧
      MASTER_SECRET = [109, 97, 115, 116, 101, 114, 32, 115, 101, 99, 114, 101, 116] ∧
      MASTER_SECRET.length = 13 ∧
      (session.client_random ++ session.server_random).length = 64 ∧
      (∀ out, generate_normal_master_expand ext session = Outcome.done (Except.ok out) →
        out.length = 48 →
        (generate_normal_master ext session keep_premaster).1 = Outcome.done () ∧
          (generate_normal_master ext session keep_premaster).2.master_secret = out) ∧
      ∀ err, generate_normal_master_expand ext session = Outcome.done (Except.error err) →
        (generate_normal_master ext session keep_premaster).1 = Outcome.fail err := by
  have hexp := generate_normal_master_expand_eq ext session hw.1 hw.2.1
    (fun _ _ _ => hmalloc)
  refine ⟨?_, by decide, by decide, ?_, ?_, ?_⟩
  · rw [hexp]
    unfold derive_master_secret master_seed
    rw [if_neg hv]
    rfl
  · rw [List.length_append, hw.1, hw.2.1]
    rfl
  · intro out hout hlen
    rw [generate_normal_master_done ext session keep_premaster out hw hout (by rw [hlen]; decide)]
    refine ⟨rfl, ?_⟩
    have hdrop : session.master_secret.drop out.length = [] := by
      rw [List.drop_eq_nil_iff, hw.2.2.1, hlen]
      decide
    split <;> simp [hdrop]
  · intro err herr
    rw [generate_normal_master_error ext session keep_premaster err hw herr]

/-- C22, instance: a TLS 1.0 session on which only the client blob is present;
the seed has the 64 bytes of the two randoms, so that the example PRF, which
repeats the number of bytes of label and seed, gives 48 bytes `4D` (77). -/
theorem normal_master_uses_prf_witness :
    (generate_normal_master kx_repeat (kx_session Protocol.MHD_GNUTLS_TLS1_0 [5] []) 0).1 =
        Outcome.done () ∧
      (generate_normal_master kx_repeat (kx_session Protocol.MHD_GNUTLS_TLS1_0 [5] [])
        0).2.master_secret = List.replicate 48 77 :=
  have h := normal_master_uses_prf kx_repeat (kx_session Protocol.MHD_GNUTLS_TLS1_0 [5] []) 0
    ⟨rfl, rfl, rfl, rfl⟩ (by decide) rfl
  h.2.2.2.2.1 (List.replicate 48 77) h.1 rfl

/-- C23: when the negotiated version is SSL3, `generate_normal_master` calls
the SSL3 random-expansion function on the premaster and the 64 bytes
client_random ‖ server_random, with no label, for 48 bytes, whatever the
lengths of the extension blobs; the bytes it gives become the master secret,
and an error of the expansion is returned. -/
theorem ssl3_master_uses_random_expansion (ext : KxExternals) (session : Session)
    (keep_premaster : Int) (hw : WellSized session)
    (hv : session.version = Protocol.MHD_GNUTLS_SSL3) :
    generate_normal_master_expand ext session =
        Outcome.done (ext.ssl3_generate_random session.PREMASTER
          (session.client_random ++ session.server_random) 48) ∧
      (session.client_random ++ session.server_random).length = 64 ∧
      (∀ out, generate_normal_master_expand ext session = Outcome.done (Except.ok out) →
        out.length = 48 →
        (generate_normal_master ext session keep_premaster).1 = Outcome.done () ∧
          (generate_normal_master ext session keep_premaster).2.master_secret = out) ∧
      ∀ err, generate_normal_master_expand ext session = Outcome.done (Except.error err) →
        (generate_normal_master ext session keep_premaster).1 = Outcome.fail err := by
  have hexp := generate_normal_master_expand_eq ext session hw.1 hw.2.1
    (fun h _ _ => absurd hv h)
  refine ⟨?_, ?_, ?_, ?_⟩
  · rw [hexp]
    unfold derive_master_secret
    rw [if_pos hv]
    rfl
  · rw [List.length_append, hw.1, hw.2.1]
    rfl
  · intro out hout hlen
    rw [generate_normal_master_done ext session keep_premaster out hw hout (by rw [hlen]; decide)]
    refine ⟨rfl, ?_⟩
    have hdrop : session.master_secret.drop out.length = [] := by
      rw [List.drop_eq_nil_iff, hw.2.2.1, hlen]
      decide
    split <;> simp [hdrop]
  · intro err herr
    rw [generate_normal_master_error ext session keep_premaster err hw herr]

/-- C23, instance: an SSL3 session on which both extension blobs are present;
the example expansion, which repeats the first byte of the seed, gives 48
bytes `01`, the first byte of the client random. -/
theorem ssl3_master_uses_random_expansion_witness :
    (generate_normal_master kx_repeat (kx_session Protocol.MHD_GNUTLS_SSL3 [5] [6]) 0).1 =
        Outcome.done () ∧
      (generate_normal_master kx_repeat (kx_session Protocol.MHD_GNUTLS_SSL3 [5] [6])
        0).2.master_secret = List.replicate 48 1 :=
  have h := ssl3_master_uses_random_expansion kx_repeat
    (kx_session Protocol.MHD_GNUTLS_SSL3 [5] [6]) 0 ⟨rfl, rfl, rfl, rfl⟩ rfl
  h.2.2.1 (List.replicate 48 1) h.1 rfl

/-- C24: on each of the three derivation paths (SSL3, plain PRF,
extension-salted PRF) `generate_normal_master` asks the expansion function for
exactly 48 bytes (`TLS_MASTER_SIZE`), and after a successful call the master
secret is the output of that request: with expansion functions that give as
many bytes as they are asked for, the derived master secret is exactly 48
bytes long. -/
theorem master_secret_has_48_bytes (ext : KxExternals) (session : Session)
    (keep_premaster : Int) (hw : WellSized session) (hext : ExpandsAsAsked ext)
    (hok : (generate_normal_master ext session keep_premaster).1 = Outcome.done ()) :
    TLS_MASTER_SIZE = 48 ∧
      ∃ out, out.length = 48 ∧
        (generate_normal_master ext session keep_premaster).2.master_secret = out ∧
        (session.version = Protocol.MHD_GNUTLS_SSL3 →
          ext.ssl3_generate_random session.PREMASTER
            (session.client_random ++ session.server_random) 48 = Except.ok out) ∧
        (session.version ≠ Protocol.MHD_GNUTLS_SSL3 →
          ¬ (0 < session.oprfi_client.length ∧ 0 < session.oprfi_server.length) →
          ext.PRF session session.PREMASTER MASTER_SECRET
            (session.client_random ++ session.server_random) 48 = Except.ok out) ∧
        (session.version ≠ Protocol.MHD_GNUTLS_SSL3 →
          0 < session.oprfi_client.length ∧ 0 < session.oprfi_server.length →
          ext.PRF session session.PREMASTER MASTER_SECRET
            (session.client_random ++ session.oprfi_client ++ session.server_random ++
              session.oprfi_server) 48 = Except.ok out) := by
  refine ⟨rfl, ?_⟩
  obtain ⟨out, hexp, hle⟩ := generate_normal_master_done_inv ext session keep_premaster hok
  rw [hw.2.2.1] at hle
  have hmalloc : session.version ≠ Protocol.MHD_GNUTLS_SSL3 →
      0 < session.oprfi_client.length → 0 < session.oprfi_server.length →
      ext.malloc_ok = true := by
    intro hv hc hs
    by_contra hm
    have hf : ext.malloc_ok = false := by simpa using hm
    unfold generate_normal_master_expand at hexp
    rw [if_neg hv, if_pos ⟨hc, hs⟩, if_pos hf] at hexp
    simp at hexp
  have heq := generate_normal_master_expand_eq ext session hw.1 hw.2.1 hmalloc
  rw [hexp] at heq
  have hd : derive_master_secret ext session TLS_MASTER_SIZE = Except.ok out := by
    simpa using heq.symm
  have hlen : out.length = 48 := by
    unfold derive_master_secret at hd
    split at hd
    · exact hext.1 _ _ _ _ hd
    · exact hext.2 _ _ _ _ _ _ hd
  refine ⟨out, hlen, ?_, ?_, ?_, ?_⟩
  · rw [generate_normal_master_done ext session keep_premaster out hw hexp hle]
    have hdrop : session.master_secret.drop out.length = [] := by
      rw [List.drop_eq_nil_iff, hw.2.2.1, hlen]
      decide
    split <;> simp [hdrop]
  · intro hv
    unfold derive_master_secret at hd
    rw [if_pos hv] at hd
    exact hd
  · intro hv ho
    unfold derive_master_secret master_seed at hd
    rw [if_neg hv, if_neg ho] at hd
    exact hd
  · intro hv ho
    unfold derive_master_secret master_seed at hd
    rw [if_neg hv, if_pos ho] at hd
    exact hd

/-- C24, instance: the extension-salted path, a TLS 1.0 session with the blobs
`05` and `06 07`; the seed has 67 bytes, so the example PRF gives 48 bytes
`50` (80). -/
theorem master_secret_has_48_bytes_witness :
    ∃ out : Bytes, out.length = 48 ∧
      (generate_normal_master kx_repeat (kx_session Protocol.MHD_GNUTLS_TLS1_0 [5] [6, 7])
        1).2.master_secret = out :=
  have h := master_secret_has_48_bytes kx_repeat
    (kx_session Protocol.MHD_GNUTLS_TLS1_0 [5] [6, 7]) 1 ⟨rfl, rfl, rfl, rfl⟩
    ⟨fun _ _ _ _ h => by cases h; simp,
      fun _ _ _ _ _ _ h => by cases h; simp⟩
    (by decide)
  h.2.elim (fun out ho => ⟨out, ho.1, ho.2.1⟩)

/-- C25, the code at a failing PRF: on a TLS 1.0 session whose inner secret is
48 bytes `BB`, whose master secret is 48 bytes `AA` and whose premaster secret
is `09 08 07`, the PRF returns `GNUTLS_E_INTERNAL_ERROR`.
`generate_normal_master` returns that error, but the inner secret is then 48
bytes `AA` and the premaster secret is released; when instead the allocation
of the seed fails, the function returns `GNUTLS_E_MEMORY_ERROR` and both are
as before. -/
theorem failed_derivation_changes_session :
    (generate_normal_master kx_failing (kx_session Protocol.MHD_GNUTLS_TLS1_0 [] []) 0).1 =
        Outcome.fail ErrorCode.GNUTLS_E_INTERNAL_ERROR ∧
      (kx_session Protocol.MHD_GNUTLS_TLS1_0 [] []).inner_secret = List.replicate 48 187 ∧
      (generate_normal_master kx_failing (kx_session Protocol.MHD_GNUTLS_TLS1_0 [] [])
        0).2.inner_secret = List.replicate 48 170 ∧
      (kx_session Protocol.MHD_GNUTLS_TLS1_0 [] []).PREMASTER = [9, 8, 7] ∧
      (generate_normal_master kx_failing (kx_session Protocol.MHD_GNUTLS_TLS1_0 [] [])
        0).2.PREMASTER = [] ∧
      (generate_normal_master { kx_failing with malloc_ok := false }
        (kx_session Protocol.MHD_GNUTLS_TLS1_0 [5] [6]) 0).1 =
        Outcome.fail ErrorCode.GNUTLS_E_MEMORY_ERROR ∧
      (generate_normal_master { kx_failing with malloc_ok := false }
        (kx_session Protocol.MHD_GNUTLS_TLS1_0 [5] [6]) 0).2.inner_secret =
        List.replicate 48 187 ∧
      (generate_normal_master { kx_failing with malloc_ok := false }
        (kx_session Protocol.MHD_GNUTLS_TLS1_0 [5] [6]) 0).2.PREMASTER = [9, 8, 7] := by
  refine ⟨by decide, rfl, by decide, rfl, by decide, by decide, by decide, by decide⟩

/-- C26: after a successful `generate_normal_master` the inner secret equals
the 48-byte master secret; the premaster buffer is released (size 0) if
`keep_premaster` is 0 and is left as it was if `keep_premaster` is not 0; the
client and the server random are unchanged. -/
theorem successful_derivation_frame (ext : KxExternals) (session : Session)
    (keep_premaster : Int) (hw : WellSized session)
    (hok : (generate_normal_master ext session keep_premaster).1 = Outcome.done ()) :
    (generate_normal_master ext session keep_premaster).2.inner_secret =
        (generate_normal_master ext session keep_premaster).2.master_secret ∧
      (generate_normal_master ext session keep_premaster).2.master_secret.length = 48 ∧
      (keep_premaster = 0 →
        (generate_normal_master ext session keep_premaster).2.PREMASTER = [] ∧
          (generate_normal_master ext session keep_premaster).2.PREMASTER.length = 0) ∧
      (keep_premaster ≠ 0 →
        (generate_normal_master ext session keep_premaster).2.PREMASTER =
          session.PREMASTER) ∧
      (generate_normal_master ext session keep_premaster).2.client_random =
        session.client_random ∧
      (generate_normal_master ext session keep_premaster).2.server_random =
        session.server_random := by
  obtain ⟨out, hexp, hle⟩ := generate_normal_master_done_inv ext session keep_premaster hok
  rw [hw.2.2.1] at hle
  rw [generate_normal_master_done ext session keep_premaster out hw hexp hle]
  have hlen : (out ++ session.master_secret.drop out.length).length = 48 := by
    simp only [List.length_append, List.length_drop, hw.2.2.1]
    have : TLS_MASTER_SIZE = 48 := rfl
    omega
  by_cases hk : keep_premaster = 0
  · rw [if_pos hk]
    exact ⟨rfl, hlen, fun _ => ⟨rfl, rfl⟩, fun h => absurd hk h, rfl, rfl⟩
  · rw [if_neg hk]
    exact ⟨rfl, hlen, fun h => absurd h hk, fun _ => rfl, rfl, rfl⟩

/-- C26, instance: a TLS 1.0 session derived with `keep_premaster` 0: the
inner secret is the master secret and the premaster secret `09 08 07` is
released. -/
theorem successful_derivation_frame_witness :
    (generate_normal_master kx_repeat (kx_session Protocol.MHD_GNUTLS_TLS1_0 [] [])
        0).2.inner_secret =
        (generate_normal_master kx_repeat (kx_session Protocol.MHD_GNUTLS_TLS1_0 [] [])
          0).2.master_secret ∧
      (generate_normal_master kx_repeat (kx_session Protocol.MHD_GNUTLS_TLS1_0 [] [])
        0).2.PREMASTER = [] :=
  have h := successful_derivation_frame kx_repeat
    (kx_session Protocol.MHD_GNUTLS_TLS1_0 [] []) 0 ⟨rfl, rfl, rfl, rfl⟩ (by decide)
  ⟨h.1, (h.2.2.1 rfl).1⟩

/-! ## CertificateVerify message -/

/-- C27: for every input buffer, when a peer certificate is on record (and
converts), `mhd_gtls_proc_cert_client_cert_vrfy` hands to the verification
primitive exactly the n bytes that follow the 2-byte big-endian length n, and
its result is the result of the verification; it returns
`GNUTLS_E_UNEXPECTED_PACKET_LENGTH` without calling the verifier if and only if
the buffer is shorter than 2 bytes or shorter than 2 + n bytes. -/
theorem client_cert_vrfy_framing (ext : VrfyExternals) (session : Session)
    (info : cert_auth_info) (raw : Bytes) (peer_cert : gnutls_cert) (data : Bytes)
    (hrec : PeerOnRecord session info)
    (hraw : info.raw_certificate_list.get? 0 = some raw)
    (hconv : mhd_gtls_raw_cert_to_gcert ext session.cert_type raw = Except.ok peer_cert) :
    (∀ (b0 b1 : UInt8) (rest : Bytes), data = b0 :: b1 :: rest →
        b0.toNat * 256 + b1.toNat ≤ rest.length →
        (mhd_gtls_proc_cert_client_cert_vrfy ext session data).2 =
            [(peer_cert, rest.take (b0.toNat * 256 + b1.toNat))] ∧
          (mhd_gtls_proc_cert_client_cert_vrfy ext session data).1 =
            match mhd_gtls_verify_sig_hdata ext session peer_cert
                (rest.take (b0.toNat * 256 + b1.toNat)) with
            | none => Outcome.done ()
            | some e => Outcome.fail e) ∧
      (((mhd_gtls_proc_cert_client_cert_vrfy ext session data).1 =
            Outcome.fail ErrorCode.GNUTLS_E_UNEXPECTED_PACKET_LENGTH ∧
          (mhd_gtls_proc_cert_client_cert_vrfy ext session data).2 = []) ↔
        (data.length < 2 ∨
          ∃ (b0 b1 : UInt8) (rest : Bytes), data = b0 :: b1 :: rest ∧
            data.length < 2 + (b0.toNat * 256 + b1.toNat))) := by
  have hframed : ∀ (b0 b1 : UInt8) (rest : Bytes), data = b0 :: b1 :: rest →
      b0.toNat * 256 + b1.toNat ≤ rest.length →
      (mhd_gtls_proc_cert_client_cert_vrfy ext session data).2 =
          [(peer_cert, rest.take (b0.toNat * 256 + b1.toNat))] ∧
        (mhd_gtls_proc_cert_client_cert_vrfy ext session data).1 =
          match mhd_gtls_verify_sig_hdata ext session peer_cert
              (rest.take (b0.toNat * 256 + b1.toNat)) with
          | none => Outcome.done ()
          | some e => Outcome.fail e := by
    intro b0 b1 rest hd hfit
    rw [hd, proc_cert_client_cert_vrfy_framed ext session info raw b0 b1 rest hrec hraw hfit,
      hconv]
    simp only
    cases mhd_gtls_verify_sig_hdata ext session peer_cert
      (rest.take (b0.toNat * 256 + b1.toNat)) with
    | none => exact ⟨rfl, rfl⟩
    | some e => exact ⟨rfl, rfl⟩
  refine ⟨hframed, ?_, ?_⟩
  · intro hres
    match data, hframed, hres with
    | [], _, _ => left; simp
    | [_], _, _ => left; simp
    | b0 :: b1 :: rest, hframed, hres =>
      right
      refine ⟨b0, b1, rest, rfl, ?_⟩
      by_contra hnot
      have hfit : b0.toNat * 256 + b1.toNat ≤ rest.length := by
        simp only [List.length_cons] at hnot
        omega
      have h := (hframed b0 b1 rest rfl hfit).1
      rw [hres.2] at h
      simp at h
  · rintro (hshort | ⟨b0, b1, rest, hd, hcut⟩)
    · rw [proc_cert_client_cert_vrfy_short ext session info data hrec hshort]
      exact ⟨rfl, rfl⟩
    · rw [hd] at hcut ⊢
      rw [proc_cert_client_cert_vrfy_cut ext session info b0 b1 rest hrec
        (by simp only [List.length_cons] at hcut; omega)]
      exact ⟨rfl, rfl⟩

/-- C27, instance: the server has the certificate `05 00` on record and
receives `00 04 05 01 02 03 09 09`; the verifier is handed the four bytes
`05 01 02 03`. -/
theorem client_cert_vrfy_framing_witness :
    (mhd_gtls_proc_cert_client_cert_vrfy toy_signatures
        (verifying_server (some [[5, 0]]) [1, 2, 3]) [0, 4, 5, 1, 2, 3, 9, 9]).2 =
      [({ raw := [5, 0] }, [5, 1, 2, 3])] :=
  ((client_cert_vrfy_framing toy_signatures (verifying_server (some [[5, 0]]) [1, 2, 3])
    { raw_certificate_list := [[5, 0]], ncerts := 1 } [5, 0] { raw := [5, 0] }
    [0, 4, 5, 1, 2, 3, 9, 9] ⟨rfl, by decide⟩ rfl rfl).1 0 4 [5, 1, 2, 3, 9, 9] rfl
    (by decide)).1

/-- C28: a CertificateVerify message generated by
`mhd_gtls_gen_cert_client_cert_vrfy` for a transcript digest with the selected
private key (signature shorter than 65536 bytes) is accepted by
`mhd_gtls_proc_cert_client_cert_vrfy` on a server that has the certificate
with the corresponding public key on record and the same digest; it is
rejected with `GNUTLS_E_PK_SIG_VERIFY_FAILED` when a byte of the signature is
changed in the message, and when the digest of the server differs. -/
theorem certificate_verify_roundtrip (ext : VrfyExternals) (client server : Session)
    (leaf : gnutls_cert) (chain : List gnutls_cert) (key : gnutls_privkey)
    (info : cert_auth_info) (raw : Bytes) (pub : gnutls_cert) (signature : Bytes)
    (hsel : SelectedChain client (leaf :: chain)) (hkey : client.selected_key = some key)
    (hmalloc : ext.malloc_ok = true)
    (hsign : ext.sign key (ext.transcript_digest client) = Except.ok signature)
    (hlen : signature.length < 65536)
    (hrec : PeerOnRecord server info)
    (hraw : info.raw_certificate_list.get? 0 = some raw)
    (hconv : mhd_gtls_raw_cert_to_gcert ext server.cert_type raw = Except.ok pub)
    (hpair : KeyPair ext key pub) :
    ∃ msg : Bytes,
      (mhd_gtls_gen_cert_client_cert_vrfy ext client).1 =
          Outcome.done ((signature.length : Int) + 2, some msg) ∧
        msg = mhd_gtls_write_uint16 signature.length ++ signature ∧
        (ext.transcript_digest server = ext.transcript_digest client →
          (mhd_gtls_proc_cert_client_cert_vrfy ext server msg).1 = Outcome.done ()) ∧
        (ext.transcript_digest server = ext.transcript_digest client →
          ∀ (i : Nat) (b : UInt8), i < signature.length → signature.get? i ≠ some b →
            (mhd_gtls_proc_cert_client_cert_vrfy ext server
              (mhd_gtls_write_uint16 signature.length ++ signature.set i b)).1 =
              Outcome.fail ErrorCode.GNUTLS_E_PK_SIG_VERIFY_FAILED) ∧
        (ext.transcript_digest server ≠ ext.transcript_digest client →
          (mhd_gtls_proc_cert_client_cert_vrfy ext server msg).1 =
            Outcome.fail ErrorCode.GNUTLS_E_PK_SIG_VERIFY_FAILED) := by
  obtain ⟨b0, b1, hw, hval⟩ := write_uint16_bytes signature.length hlen
  have hproc : ∀ sig : Bytes, sig.length = signature.length →
      mhd_gtls_proc_cert_client_cert_vrfy ext server
          (mhd_gtls_write_uint16 signature.length ++ sig) =
        match mhd_gtls_verify_sig_hdata ext server pub sig with
        | some e => (Outcome.fail e, [(pub, sig)])
        | none => (Outcome.done (), [(pub, sig)]) := by
    intro sig hsig
    rw [hw]
    simp only [List.cons_append, List.nil_append]
    rw [proc_cert_client_cert_vrfy_framed ext server info raw b0 b1 sig hrec hraw
      (by omega), hconv]
    simp only
    rw [hval, ← hsig, List.take_length]
  refine ⟨mhd_gtls_write_uint16 signature.length ++ signature, ?_, rfl, ?_, ?_, ?_⟩
  · rw [gen_cert_client_cert_vrfy_signed ext client leaf chain key signature hsel hkey hmalloc
      hsign]
  · intro hd
    rw [hproc signature rfl,
      verify_sig_hdata_accepts ext server key pub signature hpair (by rw [hd]; exact hsign)]
  · intro hd i b hi hb
    rw [hproc (signature.set i b) (by simp)]
    have hne : ext.sign key (ext.transcript_digest server) ≠ Except.ok (signature.set i b) := by
      rw [hd, hsign]
      intro h
      exact set_ne_self signature i b hi hb (Except.ok.inj h).symm
    rw [verify_sig_hdata_rejects ext server key pub _ hpair hne]
  · intro hd
    rw [hproc signature rfl]
    have hne : ext.sign key (ext.transcript_digest server) ≠ Except.ok signature :=
      fun h => hd (hpair.2 _ _ _ h hsign)
    rw [verify_sig_hdata_rejects ext server key pub _ hpair hne]

/-- C28, instance: with the toy signature scheme the client signs the digest
`01 02 03` with the key 5; the message `00 04 05 01 02 03` is accepted by the
server that has the certificate `05 00` on record and the same digest. -/
theorem certificate_verify_roundtrip_witness :
    (mhd_gtls_gen_cert_client_cert_vrfy toy_signatures (signing_client [1, 2, 3])).1 =
        Outcome.done (6, some [0, 4, 5, 1, 2, 3]) ∧
      (mhd_gtls_proc_cert_client_cert_vrfy toy_signatures
        (verifying_server (some [[5, 0]]) [1, 2, 3]) [0, 4, 5, 1, 2, 3]).1 = Outcome.done () := by
  have hpair : KeyPair toy_signatures { handle := 5 } { raw := [5, 0] } :=
    ⟨fun digest signature => by
        simp only [toy_signatures, decide_eq_true_eq, Except.ok.injEq]
        exact ⟨fun h => h.symm, fun h => h.symm⟩,
      fun d1 d2 signature h1 h2 => by
        simp only [toy_signatures, Except.ok.injEq] at h1 h2
        exact List.tail_eq_of_cons_eq (h1.trans h2.symm)⟩
  obtain ⟨msg, hgen, hmsg, hacc, _, _⟩ :=
    certificate_verify_roundtrip toy_signatures (signing_client [1, 2, 3])
      (verifying_server (some [[5, 0]]) [1, 2, 3]) { raw := [5, 0] } [] { handle := 5 }
      { raw_certificate_list := [[5, 0]], ncerts := 1 } [5, 0] { raw := [5, 0] } [5, 1, 2, 3]
      ⟨rfl, Or.inl rfl⟩ rfl rfl rfl (by decide) ⟨rfl, by decide⟩ rfl rfl hpair
  subst hmsg
  exact ⟨hgen, hacc rfl⟩

/-- C29: for every input buffer, the empty and the malformed ones included,
`mhd_gtls_proc_cert_client_cert_vrfy` returns `GNUTLS_E_INTERNAL_ERROR` when
no peer certificate is on record (the authentication information is absent or
its `ncerts` is 0); no length check comes before this one and the verifier is
not called. -/
theorem no_peer_certificate_internal_error (ext : VrfyExternals) (session : Session)
    (data : Bytes)
    (hno : session.auth_info = none ∨
      ∃ info, session.auth_info = some info ∧ info.ncerts = 0) :
    mhd_gtls_proc_cert_client_cert_vrfy ext session data =
      (Outcome.fail ErrorCode.GNUTLS_E_INTERNAL_ERROR, []) := by
  unfold mhd_gtls_proc_cert_client_cert_vrfy
  rcases hno with h | ⟨info, h, hn⟩
  · rw [h]
  · rw [h]
    simp only
    rw [if_pos hn]

/-- C29, instance: a server without authentication information receives the
single byte `00`, which is too short for a length field. -/
theorem no_peer_certificate_internal_error_witness :
    mhd_gtls_proc_cert_client_cert_vrfy toy_signatures (verifying_server none [1, 2, 3]) [0] =
      (Outcome.fail ErrorCode.GNUTLS_E_INTERNAL_ERROR, []) :=
  no_peer_certificate_internal_error toy_signatures (verifying_server none [1, 2, 3]) [0]
    (Or.inl rfl)

/-- C30: on a client session with no selected certificate
(`selected_cert_list_length` = 0) `mhd_gtls_gen_cert_client_cert_vrfy` emits
nothing: it returns 0, leaves the output buffer `NULL` and does not call the
signing primitive.  With a non-empty selected chain it signs once, with the
first certificate and the selected key, returns the signature length plus 2,
and the output is the 2-byte big-endian field of the signature length followed
by the signature bytes.  (A 2-byte field holds the low 16 bits of the length;
read back it gives the length whenever the signature is shorter than 65536
bytes.) -/
theorem client_cert_vrfy_generation (ext : VrfyExternals) (session : Session) :
    (session.entity = Entity.GNUTLS_CLIENT → session.selected_cert_list_length = 0 →
        mhd_gtls_gen_cert_client_cert_vrfy ext session = (Outcome.done (0, none), [])) ∧
      ∀ (leaf : gnutls_cert) (chain : List gnutls_cert) (key : gnutls_privkey)
        (signature : Bytes), SelectedChain session (leaf :: chain) →
        session.selected_key = some key → ext.malloc_ok = true →
        ext.sign key (ext.transcript_digest session) = Except.ok signature →
        mhd_gtls_gen_cert_client_cert_vrfy ext session =
            (Outcome.done ((signature.length : Int) + 2,
                some (mhd_gtls_write_uint16 signature.length ++ signature)),
              [(leaf, some key)]) ∧
          (mhd_gtls_write_uint16 signature.length ++ signature).length =
            signature.length + 2 ∧
          (signature.length < 65536 →
            mhd_gtls_read_uint16 (mhd_gtls_write_uint16 signature.length ++ signature) 0 =
              some signature.length) := by
  constructor
  · intro he hz
    unfold mhd_gtls_gen_cert_client_cert_vrfy mhd_gtls_get_selected_cert
    rw [he]
    simp only
    rw [if_neg (by rw [hz]; decide)]
  · intro leaf chain key signature hsel hkey hmalloc hsign
    refine ⟨gen_cert_client_cert_vrfy_signed ext session leaf chain key signature hsel hkey
      hmalloc hsign, ?_, fun hlt => read_write_uint16 signature.length hlt signature⟩
    simp [mhd_gtls_write_uint16]

/-- C30, instance: the TLS 1.0 client of the examples emits nothing once its
selection is reset; with the chain of the certificate `05 00` and the key 5
selected it emits `00 04 05 01 02 03` for the digest `01 02 03` and returns
6. -/
theorem client_cert_vrfy_generation_witness :
    mhd_gtls_gen_cert_client_cert_vrfy toy_signatures
        { signing_client [1, 2, 3] with
          selected_cert_list := none, selected_cert_list_length := 0, selected_key := none } =
        (Outcome.done (0, none), []) ∧
      mhd_gtls_gen_cert_client_cert_vrfy toy_signatures (signing_client [1, 2, 3]) =
        (Outcome.done (6, some [0, 4, 5, 1, 2, 3]), [({ raw := [5, 0] }, some { handle := 5 })]) :=
  ⟨(client_cert_vrfy_generation toy_signatures
      { signing_client [1, 2, 3] with
        selected_cert_list := none, selected_cert_list_length := 0, selected_key := none }).1
      rfl rfl,
    ((client_cert_vrfy_generation toy_signatures (signing_client [1, 2, 3])).2
      { raw := [5, 0] } [] { handle := 5 } [5, 1, 2, 3] ⟨rfl, Or.inl rfl⟩ rfl rfl rfl).1⟩

/-! ## Lemmas on the termination of the issuer-name loops -/

theorem read_uint16_some (data : Bytes) (p : Nat) (h : p + 2 ≤ data.length) :
    ∃ size, mhd_gtls_read_uint16 data p = some size := by
  unfold mhd_gtls_read_uint16
  have hl : 2 ≤ (data.drop p).length := by simp; omega
  match hd : data.drop p with
  | [] => rw [hd] at hl; simp at hl
  | [_] => rw [hd] at hl; simp at hl
  | b0 :: b1 :: _ => exact ⟨_, rfl⟩

theorem find_x509_cert_chain_returns (ext : SelectExternals) (pk_algos : List Int)
    (name : Bytes) (leaf : gnutls_cert) (chain : List gnutls_cert) :
    (∃ b, find_x509_cert_chain ext pk_algos name leaf chain = Outcome.done b) ∨
      ∃ e, find_x509_cert_chain ext pk_algos name leaf chain = Outcome.fail e := by
  induction chain with
  | nil => exact Or.inl ⟨false, rfl⟩
  | cons c rest ih =>
    unfold find_x509_cert_chain _gnutls_cert_get_issuer_dn
    cases ext.issuer_dn c with
    | none => exact Or.inr ⟨_, rfl⟩
    | some odn =>
      simp only
      split
      · exact ih
      · split
        · exact Or.inl ⟨true, rfl⟩
        · exact ih

theorem find_x509_cert_store_returns (ext : SelectExternals) (pk_algos : List Int)
    (name : Bytes) (entries : List cred_entry) :
    ∀ i0 : Nat,
      (∃ o, find_x509_cert_store ext pk_algos name entries i0 = Outcome.done o) ∨
        ∃ e, find_x509_cert_store ext pk_algos name entries i0 = Outcome.fail e := by
  induction entries with
  | nil => intro i0; exact Or.inl ⟨none, rfl⟩
  | cons e rest ih =>
    intro i0
    unfold find_x509_cert_store
    cases hc : e.cert_list with
    | nil => exact ih _
    | cons leaf chain =>
      simp only
      rcases find_x509_cert_chain_returns ext pk_algos name leaf (leaf :: chain) with
        ⟨b, hb⟩ | ⟨err, herr⟩
      · rw [hb]
        cases b with
        | true => exact Or.inl ⟨some i0, rfl⟩
        | false => exact ih _
      · rw [herr]
        exact Or.inr ⟨err, rfl⟩

theorem find_x509_cert_loop_checked_eq (ext : SelectExternals) (entries : List cred_entry)
    (pk_algos : List Int) (data : Bytes) :
    ∀ (fuel p n : Nat), p + n = data.length → n / 2 + 1 ≤ fuel →
      find_x509_cert_loop_checked ext entries pk_algos data fuel p (n : Int) =
          find_x509_cert_loop ext entries pk_algos data fuel p (n : Int) ∧
        ((∃ o, find_x509_cert_loop ext entries pk_algos data fuel p (n : Int) =
            Outcome.done o) ∨
          ∃ e, find_x509_cert_loop ext entries pk_algos data fuel p (n : Int) =
            Outcome.fail e) := by
  intro fuel
  induction fuel with
  | zero => intro p n _ hf; omega
  | succ fuel ih =>
    intro p n hpn hf
    unfold find_x509_cert_loop_checked find_x509_cert_loop
    by_cases h2 : n < 2
    · rw [DECR_LENGTH_RET_lt _ _ (by omega)]
      exact ⟨rfl, Or.inl ⟨none, rfl⟩⟩
    · rw [DECR_LENGTH_RET_le _ _ (by omega)]
      simp only
      obtain ⟨size, hsize⟩ := read_uint16_some data p (by omega)
      rw [hsize]
      simp only
      by_cases hs : n - 2 < size
      · rw [DECR_LENGTH_RET_lt _ _ (by omega)]
        exact ⟨rfl, Or.inl ⟨none, rfl⟩⟩
      · rw [DECR_LENGTH_RET_le _ _ (by omega)]
        simp only
        have hdat : datum_at data (p + 2) size = some ((data.drop (p + 2)).take size) := by
          unfold datum_at
          rw [if_pos (by omega)]
        rw [hdat]
        simp only
        have hcast : ((n : Int) - 2 - (size : Int)) = ((n - 2 - size : Nat) : Int) := by omega
        rw [hcast]
        rcases find_x509_cert_store_returns ext pk_algos ((data.drop (p + 2)).take size)
          entries 0 with ⟨o, ho⟩ | ⟨e, he⟩
        · rw [ho]
          cases o with
          | none => exact ih (p + 2 + size) (n - 2 - size) (by omega) (by omega)
          | some i => exact ⟨rfl, Or.inl ⟨some i, rfl⟩⟩
        · rw [he]
          exact ⟨rfl, Or.inr ⟨e, rfl⟩⟩

theorem get_issuers_num_loop_returns (data : Bytes) :
    ∀ (fuel p n cnt : Nat), p + n = data.length → n / 2 + 1 ≤ fuel →
      (∃ k, get_issuers_num_loop data fuel p (n : Int) cnt = Outcome.done k) ∨
        ∃ e, get_issuers_num_loop data fuel p (n : Int) cnt = Outcome.fail e := by
  intro fuel
  induction fuel with
  | zero => intro p n cnt _ hf; omega
  | succ fuel ih =>
    intro p n cnt hpn hf
    unfold get_issuers_num_loop
    by_cases h2 : n < 2
    · rw [DECR_LENGTH_COM_lt _ _ (by omega)]
      exact Or.inr ⟨_, rfl⟩
    · rw [DECR_LENGTH_COM_le _ _ (by omega)]
      simp only
      obtain ⟨size, hsize⟩ := read_uint16_some data p (by omega)
      rw [hsize]
      simp only
      by_cases hs : n - 2 < size
      · rw [DECR_LENGTH_COM_lt _ _ (by omega)]
        exact Or.inr ⟨_, rfl⟩
      · rw [DECR_LENGTH_COM_le _ _ (by omega)]
        simp only
        have hcast : ((n : Int) - 2 - (size : Int)) = ((n - 2 - size : Nat) : Int) := by omega
        rw [hcast]
        split
        · exact Or.inl ⟨_, rfl⟩
        · have hp : (if size > 0 then p + 2 + size else p + 2) = p + 2 + size := by
            split
            · rfl
            · omega
          rw [hp]
          exact ih (p + 2 + size) (n - 2 - size) _ (by omega) (by omega)

/-! ## Lemmas on the release of the selected certificates -/

theorem gcert_deinit_calls_eq (L : List gnutls_cert) :
    (List.range L.length).map (fun i => ReleaseCall.gcert_deinit (cert_at (some L) i)) =
      L.map (fun c => ReleaseCall.gcert_deinit (some c)) := by
  apply List.ext_getElem?
  intro i
  by_cases hi : i < L.length
  · simp [cert_at, hi, List.getElem?_eq_getElem hi]
  · have hle : L.length ≤ i := Nat.le_of_not_lt hi
    simp [List.getElem?_eq_none, hle]

theorem gcert_deinit_calls_selected (session : Session) (L : List gnutls_cert)
    (hsel : SelectedChain session L) :
    (List.range session.selected_cert_list_length.toNat).map
        (fun i => ReleaseCall.gcert_deinit (cert_at session.selected_cert_list i)) =
      L.map (fun c => ReleaseCall.gcert_deinit (some c)) := by
  obtain ⟨hlen, hlist⟩ := hsel
  rw [hlen, Int.toNat_natCast]
  rcases hlist with h | ⟨_, hnil⟩
  · rw [h]
    exact gcert_deinit_calls_eq L
  · rw [hnil]
    rfl

theorem selected_certs_deinit_borrowed (session : Session)
    (h0 : session.selected_need_free = 0) :
    mhd_gtls_selected_certs_deinit session = session := by
  unfold mhd_gtls_selected_certs_deinit
  rw [if_neg (by simp [h0])]

theorem selected_certs_deinit_owned (session : Session) (L : List gnutls_cert)
    (hsel : SelectedChain session L) (hn : session.selected_need_free ≠ 0) :
    (mhd_gtls_selected_certs_deinit session).released =
      session.released ++
        (L.map (fun c => ReleaseCall.gcert_deinit (some c)) ++
          [ReleaseCall.free_cert_list session.selected_cert_list,
            ReleaseCall.gkey_deinit session.selected_key] ++
          match session.selected_key with
          | some k => [ReleaseCall.free_key k]
          | none => []) := by
  unfold mhd_gtls_selected_certs_deinit
  rw [if_pos hn]
  simp only
  rw [gcert_deinit_calls_selected session L hsel]

theorem selected_certs_set_released (session : Session) (certs : Option (List gnutls_cert))
    (ncerts : Int) (key : Option gnutls_privkey) (need_free : Int) :
    (mhd_gtls_selected_certs_set session certs ncerts key need_free).released =
      (mhd_gtls_selected_certs_deinit session).released := rfl

theorem selected_certs_set_twice (session : Session) :
    mhd_gtls_selected_certs_set (mhd_gtls_selected_certs_set session none 0 none 0)
        none 0 none 0 =
      mhd_gtls_selected_certs_set session none 0 none 0 := by
  have h := selected_certs_deinit_borrowed (mhd_gtls_selected_certs_set session none 0 none 0) rfl
  have h2 := congrArg (fun s : Session => ({ s with
    selected_cert_list := none
    selected_cert_list_length := 0
    selected_key := none
    selected_need_free := 0 } : Session)) h
  exact h2

/-! ## Lemmas on the empty issuer-name list -/

theorem find_x509_cert_empty (ext : SelectExternals) (cred : cert_credentials)
    (pk_algos : List Int) :
    _find_x509_cert ext cred [] pk_algos = Outcome.done none := by
  unfold _find_x509_cert
  simp only [List.length_nil, Nat.zero_div, Nat.zero_add, Nat.cast_zero]
  rw [find_x509_cert_loop, DECR_LENGTH_RET_lt _ _ (by decide)]

/-! ## Handshake messages of the certificate authentication -/

/-- C31: on a server with `send_cert_req` = `GNUTLS_CERT_REQUIRE`, if the
client's Certificate message decodes as no certificate (the processor returns
`GNUTLS_E_NO_CERTIFICATE_FOUND`), `mhd_gtls_recv_client_certificate` returns
`GNUTLS_E_NO_CERTIFICATE_FOUND`; with `send_cert_req` = `GNUTLS_CERT_REQUEST`
the same message makes it return 0 and `certificate_requested` keeps its
value (the decoder does not write it). -/
theorem required_certificate_missing (io : HandshakeExternals) (auth : mod_auth_st)
    (session session1 : Session) (process : Session → Bytes → Outcome Unit × Session)
    (ret : Nat) (data : Bytes)
    (hproc : auth.mhd_gtls_process_client_certificate = some process)
    (hdecode : process session data =
      (Outcome.fail ErrorCode.GNUTLS_E_NO_CERTIFICATE_FOUND, session1))
    (hframe : session1.certificate_requested = session.certificate_requested) :
    (session.send_cert_req = GNUTLS_CERT_REQUIRE →
        io.recv_handshake HandshakeDescription.GNUTLS_HANDSHAKE_CERTIFICATE_PKT
          Optional.MANDATORY_PACKET = Except.ok (ret, data) →
        (mhd_gtls_recv_client_certificate io auth session).1 =
          Outcome.fail ErrorCode.GNUTLS_E_NO_CERTIFICATE_FOUND) ∧
      (session.send_cert_req = GNUTLS_CERT_REQUEST →
        io.recv_handshake HandshakeDescription.GNUTLS_HANDSHAKE_CERTIFICATE_PKT
          Optional.OPTIONAL_PACKET = Except.ok (ret, data) →
        (mhd_gtls_recv_client_certificate io auth session).1 = Outcome.done 0 ∧
          (mhd_gtls_recv_client_certificate io auth session).2.1.certificate_requested =
            session.certificate_requested) := by
  constructor
  · intro hreq hrecv
    unfold mhd_gtls_recv_client_certificate
    rw [hproc]
    simp only
    rw [if_neg (by rw [hreq]; decide)]
    simp only [hreq, if_true, hrecv, hdecode]
    simp
  · intro hreq hrecv
    unfold mhd_gtls_recv_client_certificate
    rw [hproc]
    simp only
    rw [if_neg (by rw [hreq]; decide)]
    have hne : ¬ session.send_cert_req = GNUTLS_CERT_REQUIRE := by rw [hreq]; decide
    simp only [hne, if_false, hrecv, hdecode]
    simp only [and_true]
    split
    · exact ⟨rfl, rfl⟩
    · exact ⟨rfl, hframe⟩

/-- C31, instance: the server of the examples receives the Certificate message
`00 00 00`, which the decoder reads as no certificate. -/
theorem required_certificate_missing_witness :
    (mhd_gtls_recv_client_certificate (io_receiving [0, 0, 0]) cert_auth
        (requesting_server Protocol.MHD_GNUTLS_TLS1_0 GNUTLS_CERT_REQUIRE)).1 =
      Outcome.fail ErrorCode.GNUTLS_E_NO_CERTIFICATE_FOUND :=
  (required_certificate_missing (io_receiving [0, 0, 0]) cert_auth
    (requesting_server Protocol.MHD_GNUTLS_TLS1_0 GNUTLS_CERT_REQUIRE)
    (requesting_server Protocol.MHD_GNUTLS_TLS1_0 GNUTLS_CERT_REQUIRE) _ 0 [0, 0, 0] rfl
    (Prod.ext (by decide) rfl) rfl).1 rfl rfl

/-! ## Release of the selected certificates -/

/-- C32: `mhd_gtls_selected_certs_set` first releases the previously selected
entry if and only if the session owned it (`selected_need_free` is not 0), and
then installs its arguments: afterwards `selected_cert_list`,
`selected_cert_list_length`, `selected_key` and `selected_need_free` equal
`certs`, `ncerts`, `key` and `need_free`.  For a previous entry borrowed from
the store (`selected_need_free` = 0) the call makes no release call: the
record `released` of the session is as before; for an owned one the call
appends to the record the release of each certificate of the chain `L`, of the
array and of the key. -/
theorem selected_certs_set_releases_owned (session : Session)
    (certs : Option (List gnutls_cert)) (ncerts : Int) (key : Option gnutls_privkey)
    (need_free : Int) (L : List gnutls_cert) (hsel : SelectedChain session L) :
    (mhd_gtls_selected_certs_set session certs ncerts key need_free).selected_cert_list =
        certs ∧
      (mhd_gtls_selected_certs_set session certs ncerts key
        need_free).selected_cert_list_length = ncerts ∧
      (mhd_gtls_selected_certs_set session certs ncerts key need_free).selected_key = key ∧
      (mhd_gtls_selected_certs_set session certs ncerts key need_free).selected_need_free =
        need_free ∧
      (session.selected_need_free = 0 →
        (mhd_gtls_selected_certs_set session certs ncerts key need_free).released =
          session.released) ∧
      (session.selected_need_free ≠ 0 →
        (mhd_gtls_selected_certs_set session certs ncerts key need_free).released =
          session.released ++
            (L.map (fun c => ReleaseCall.gcert_deinit (some c)) ++
              [ReleaseCall.free_cert_list session.selected_cert_list,
                ReleaseCall.gkey_deinit session.selected_key] ++
              match session.selected_key with
              | some k => [ReleaseCall.free_key k]
              | none => [])) ∧
      ((mhd_gtls_selected_certs_set session certs ncerts key need_free).released ≠
          session.released ↔ session.selected_need_free ≠ 0) := by
  have hfields := selected_certs_set_fields session certs ncerts key need_free
  have hborrowed : session.selected_need_free = 0 →
      (mhd_gtls_selected_certs_set session certs ncerts key need_free).released =
        session.released := by
    intro h0
    rw [selected_certs_set_released, selected_certs_deinit_borrowed session h0]
  have howned : session.selected_need_free ≠ 0 →
      (mhd_gtls_selected_certs_set session certs ncerts key need_free).released =
        session.released ++
          (L.map (fun c => ReleaseCall.gcert_deinit (some c)) ++
            [ReleaseCall.free_cert_list session.selected_cert_list,
              ReleaseCall.gkey_deinit session.selected_key] ++
            match session.selected_key with
            | some k => [ReleaseCall.free_key k]
            | none => []) := by
    intro hn
    rw [selected_certs_set_released, selected_certs_deinit_owned session L hsel hn]
  refine ⟨hfields.1, hfields.2.1, hfields.2.2.1, hfields.2.2.2, hborrowed, howned, ?_⟩
  constructor
  · intro hcalls h0
    exact hcalls (hborrowed h0)
  · intro hn
    rw [howned hn]
    intro h
    have hlen := congrArg List.length h
    simp only [List.length_append, List.length_cons, List.length_nil] at hlen
    omega

/-- C32, instance: on the client that owns the chain `AA`, `BB` and the key 7,
the two certificates, the array and the key are released. -/
theorem selected_certs_set_releases_owned_witness :
    (mhd_gtls_selected_certs_set owning_client none 0 none 0).released =
      [ReleaseCall.gcert_deinit (some { raw := [170] }),
        ReleaseCall.gcert_deinit (some { raw := [187] }),
        ReleaseCall.free_cert_list (some [{ raw := [170] }, { raw := [187] }]),
        ReleaseCall.gkey_deinit (some { handle := 7 }), ReleaseCall.free_key { handle := 7 }] :=
  (selected_certs_set_releases_owned owning_client none 0 none 0
    [{ raw := [170] }, { raw := [187] }] ⟨rfl, Or.inl rfl⟩).2.2.2.2.2.1 (by decide)

/-- C33: selecting no certificate twice in a row is safe and idempotent.
Starting from any session with a previously selected entry `L`, of two
consecutive calls `mhd_gtls_selected_certs_set (session, NULL, 0, NULL, 0)`
the second one makes no release call, the session after the two calls is the
session after one, and the release calls of the two calls together are none
for a borrowed entry and, for a session-owned entry, each certificate once,
the array once and the key once. -/
theorem select_none_twice (session : Session) (L : List gnutls_cert)
    (hsel : SelectedChain session L) :
    mhd_gtls_selected_certs_set (mhd_gtls_selected_certs_set session none 0 none 0)
        none 0 none 0 =
        mhd_gtls_selected_certs_set session none 0 none 0 ∧
      (mhd_gtls_selected_certs_set (mhd_gtls_selected_certs_set session none 0 none 0)
          none 0 none 0).released =
        (mhd_gtls_selected_certs_set session none 0 none 0).released ∧
      (session.selected_need_free = 0 →
        (mhd_gtls_selected_certs_set (mhd_gtls_selected_certs_set session none 0 none 0)
          none 0 none 0).released = session.released) ∧
      (session.selected_need_free ≠ 0 →
        ∃ calls,
          (mhd_gtls_selected_certs_set (mhd_gtls_selected_certs_set session none 0 none 0)
            none 0 none 0).released = session.released ++ calls ∧
          calls.count (ReleaseCall.free_cert_list session.selected_cert_list) = 1 ∧
          calls.count (ReleaseCall.gkey_deinit session.selected_key) = 1 ∧
          (∀ k, session.selected_key = some k → calls.count (ReleaseCall.free_key k) = 1) ∧
          (∀ c, calls.count (ReleaseCall.gcert_deinit (some c)) = L.count c)) := by
  have htwice := selected_certs_set_twice session
  refine ⟨htwice, by rw [htwice], ?_, ?_⟩
  · intro h0
    rw [htwice, selected_certs_set_released, selected_certs_deinit_borrowed session h0]
  · intro hn
    have hmap : ∀ x : ReleaseCall, (∀ c, x ≠ ReleaseCall.gcert_deinit c) →
        (L.map (fun c => ReleaseCall.gcert_deinit (some c))).count x = 0 := by
      intro x hx
      rw [List.count_eq_zero]
      intro hmem
      obtain ⟨c, _, hc⟩ := List.mem_map.mp hmem
      exact hx (some c) hc.symm
    have hinj : ∀ c, (L.map (fun c => ReleaseCall.gcert_deinit (some c))).count
        (ReleaseCall.gcert_deinit (some c)) = L.count c :=
      fun c => List.count_map_of_injective L (fun c => ReleaseCall.gcert_deinit (some c))
        (fun a b h => by simpa using h) c
    refine ⟨_, by rw [htwice, selected_certs_set_released,
      selected_certs_deinit_owned session L hsel hn], ?_, ?_, ?_, ?_⟩
    · rw [List.count_append, List.count_append, hmap _ (fun c => by simp)]
      cases session.selected_key <;> simp [List.count_cons]
    · rw [List.count_append, List.count_append, hmap _ (fun c => by simp)]
      cases session.selected_key <;> simp [List.count_cons]
    · intro k hk
      rw [hk, List.count_append, List.count_append, hmap _ (fun c => by simp)]
      simp [List.count_cons]
    · intro c
      rw [List.count_append, List.count_append, hinj c]
      cases session.selected_key <;> simp [List.count_cons]

/-- C33, instance: on the client that owns the chain `AA`, `BB`, the two
selections of no certificate release the array once, and the second one
changes nothing. -/
theorem select_none_twice_witness :
    mhd_gtls_selected_certs_set (mhd_gtls_selected_certs_set owning_client none 0 none 0)
          none 0 none 0 =
        mhd_gtls_selected_certs_set owning_client none 0 none 0 ∧
      ∃ calls,
        (mhd_gtls_selected_certs_set (mhd_gtls_selected_certs_set owning_client none 0 none 0)
          none 0 none 0).released = owning_client.released ++ calls ∧
        calls.count (ReleaseCall.free_cert_list owning_client.selected_cert_list) = 1 :=
  have h := select_none_twice owning_client [{ raw := [170] }, { raw := [187] }]
    ⟨rfl, Or.inl rfl⟩
  ⟨h.1, (h.2.2.2 (by decide)).elim (fun calls hc => ⟨calls, hc.1, hc.2.1⟩)⟩

/-- C34: if the server never requested a client certificate
(`send_cert_req` = 0), the client is never asked for one:
`mhd_gtls_send_server_certificate_request` returns 0 without sending a
CertificateRequest, and `mhd_gtls_recv_client_certificate` and
`mhd_gtls_recv_client_certificate_verify_message` return 0 without receiving a
handshake message and leave the session, `certificate_requested` included, as
it was. -/
theorem no_request_no_client_certificate (io : HandshakeExternals) (auth : mod_auth_st)
    (session : Session) (again : Int) (h0 : session.send_cert_req = 0) :
    mhd_gtls_send_server_certificate_request io auth session again = (Outcome.done 0, []) ∧
      mhd_gtls_recv_client_certificate io auth session = (Outcome.done 0, session, []) ∧
      mhd_gtls_recv_client_certificate_verify_message io auth session =
        (Outcome.done 0, session, []) := by
  refine ⟨?_, ?_, ?_⟩
  · unfold mhd_gtls_send_server_certificate_request
    cases auth.mhd_gtls_gen_server_certificate_request with
    | none => rfl
    | some gen => simp [h0]
  · unfold mhd_gtls_recv_client_certificate
    cases auth.mhd_gtls_process_client_certificate with
    | none => rfl
    | some process => simp [h0]
  · unfold mhd_gtls_recv_client_certificate_verify_message
    cases auth.mhd_gtls_process_client_cert_vrfy with
    | none => rfl
    | some process => simp [h0]

/-- C34, instance: the server of the examples with `send_cert_req` = 0 sends
no CertificateRequest. -/
theorem no_request_no_client_certificate_witness :
    mhd_gtls_send_server_certificate_request (io_receiving []) cert_auth
        (requesting_server Protocol.MHD_GNUTLS_TLS1_0 0) 0 = (Outcome.done 0, []) :=
  (no_request_no_client_certificate (io_receiving []) cert_auth
    (requesting_server Protocol.MHD_GNUTLS_TLS1_0 0) 0 rfl).1

/-- C35: `mhd_gtls_proc_cert_cert_req` sets `certificate_requested` to 1 on
every successful return, also when the selection found no certificate; on
every error return `certificate_requested` keeps its previous value. -/
theorem cert_req_sets_certificate_requested (ext : SelectExternals) (session : Session)
    (data : Bytes) :
    ((mhd_gtls_proc_cert_cert_req ext session data).1 = Outcome.done () →
        (mhd_gtls_proc_cert_cert_req ext session data).2.certificate_requested = 1) ∧
      ∀ err, (mhd_gtls_proc_cert_cert_req ext session data).1 = Outcome.fail err →
        (mhd_gtls_proc_cert_cert_req ext session data).2.certificate_requested =
          session.certificate_requested := by
  unfold mhd_gtls_proc_cert_cert_req
  cases session.cred with
  | none => exact ⟨fun h => by simp at h, fun _ _ => rfl⟩
  | some cred =>
    simp only
    cases ext.auth_info_set with
    | some e => exact ⟨fun h => by simp at h, fun _ _ => rfl⟩
    | none =>
      simp only
      cases proc_cert_cert_req_read session.version data with
      | fail e => exact ⟨fun h => by simp at h, fun _ _ => rfl⟩
      | fault => exact ⟨fun h => by simp at h, fun _ _ => rfl⟩
      | timeout => exact ⟨fun h => by simp at h, fun _ _ => rfl⟩
      | done x =>
        obtain ⟨names, pk_algos⟩ := x
        simp only
        have hfail := select_client_cert_fail ext session names pk_algos
        cases hs : _select_client_cert ext session names pk_algos with
        | mk o session1 =>
          rw [hs] at hfail
          cases o with
          | done u => exact ⟨fun _ => rfl, fun err h => by simp at h⟩
          | fail e =>
            refine ⟨fun h => by simp at h, fun err _ => ?_⟩
            have h2 := (hfail e rfl).2
            simp only at h2 ⊢
            rw [h2]
          | fault => exact ⟨fun h => by simp at h, fun err h => by simp at h⟩
          | timeout => exact ⟨fun h => by simp at h, fun err h => by simp at h⟩

/-- C35, instance: the store holds the entry for the issuer `41` and the
request `02 01 02 00 03 00 01 42` advertises the issuer `42`: nothing is
selected, the function returns 0 and `certificate_requested` is 1. -/
theorem cert_req_sets_certificate_requested_witness :
    (mhd_gtls_proc_cert_cert_req select_all
        (session_with_store Entity.GNUTLS_CLIENT [entry_of 65 0])
        [2, 1, 2, 0, 3, 0, 1, 66]).2.selected_cert_list = none ∧
      (mhd_gtls_proc_cert_cert_req select_all
        (session_with_store Entity.GNUTLS_CLIENT [entry_of 65 0])
        [2, 1, 2, 0, 3, 0, 1, 66]).2.certificate_requested = 1 :=
  ⟨by decide,
    (cert_req_sets_certificate_requested select_all
      (session_with_store Entity.GNUTLS_CLIENT [entry_of 65 0])
      [2, 1, 2, 0, 3, 0, 1, 66]).1 (by decide)⟩

/-- C36: `mhd_gtls_send_client_certificate_verify` sends no CertificateVerify
message and returns 0 when the session is a server, when
`certificate_requested` is 0, when the authentication method has no generator,
and when the generator produced zero bytes (no certificate selected). -/
theorem no_certificate_verify_sent (io : HandshakeExternals) (auth : mod_auth_st)
    (session : Session) (again : Int) :
    (session.entity = Entity.GNUTLS_SERVER →
        mhd_gtls_send_client_certificate_verify io auth session again =
          (Outcome.done 0, [])) ∧
      (session.certificate_requested = 0 →
        mhd_gtls_send_client_certificate_verify io auth session again =
          (Outcome.done 0, [])) ∧
      (auth.mhd_gtls_gen_client_cert_vrfy = none →
        mhd_gtls_send_client_certificate_verify io auth session again =
          (Outcome.done 0, [])) ∧
      ∀ (gen : Session → Outcome (Int × Option Bytes)) (data : Option Bytes),
        auth.mhd_gtls_gen_client_cert_vrfy = some gen → again = 0 →
        gen session = Outcome.done (0, data) →
        mhd_gtls_send_client_certificate_verify io auth session again =
          (Outcome.done 0, []) := by
  refine ⟨?_, ?_, ?_, ?_⟩
  · intro h
    unfold mhd_gtls_send_client_certificate_verify
    rw [if_pos h]
  · intro h
    unfold mhd_gtls_send_client_certificate_verify
    rw [if_pos h]
    split <;> rfl
  · intro h
    unfold mhd_gtls_send_client_certificate_verify
    rw [h]
    split
    · rfl
    · split <;> rfl
  · intro gen data hgen hagain hzero
    unfold mhd_gtls_send_client_certificate_verify
    rw [hgen]
    simp [hagain, hzero]

/-- C36, instance: the client of the examples was asked for a certificate and
has none selected; the generator of `auth_cert.c` gives zero bytes and nothing
is sent. -/
theorem no_certificate_verify_sent_witness :
    mhd_gtls_send_client_certificate_verify (io_receiving []) cert_auth
        (asked_client Protocol.MHD_GNUTLS_TLS1_0 []) 0 = (Outcome.done 0, []) :=
  (no_certificate_verify_sent (io_receiving []) cert_auth
    (asked_client Protocol.MHD_GNUTLS_TLS1_0 []) 0).2.2.2 _ none rfl rfl (by decide)

/-- C37: when a certificate was requested and the authentication method has a
Certificate generator, `mhd_gtls_send_client_certificate` under SSL3 with no
selected certificate sends the `no_certificate` warning alert and no
Certificate handshake message; in every other case (another version, or SSL3
with a selected certificate) it sends the Certificate handshake message that
the generator produced (on a call with `again` not 0, the message left from the
earlier call) and no alert. -/
theorem client_certificate_or_alert (io : HandshakeExternals) (auth : mod_auth_st)
    (session : Session) (again : Int) (gen : Session → Outcome (Int × Option Bytes))
    (hreq : session.certificate_requested ≠ 0)
    (hgen : auth.mhd_gtls_gen_client_certificate = some gen)
    (hlen : 0 ≤ session.selected_cert_list_length) :
    (session.version = Protocol.MHD_GNUTLS_SSL3 → session.selected_cert_list_length = 0 →
        (mhd_gtls_send_client_certificate io auth session again).2 =
          [HandshakeCall.alert_send AlertLevel.GNUTLS_AL_WARNING
            AlertDescription.GNUTLS_A_SSL3_NO_CERTIFICATE]) ∧
      (¬ (session.version = Protocol.MHD_GNUTLS_SSL3 ∧ session.selected_cert_list_length = 0) →
        (∀ (data_size : Int) (data : Option Bytes), again = 0 →
          gen session = Outcome.done (data_size, data) →
          (mhd_gtls_send_client_certificate io auth session again).2 =
            [HandshakeCall.send_handshake data data_size
              HandshakeDescription.GNUTLS_HANDSHAKE_CERTIFICATE_PKT]) ∧
        (again ≠ 0 →
          (mhd_gtls_send_client_certificate io auth session again).2 =
            [HandshakeCall.send_handshake none 0
              HandshakeDescription.GNUTLS_HANDSHAKE_CERTIFICATE_PKT])) := by
  refine ⟨?_, ?_⟩
  · intro hv h0
    unfold mhd_gtls_send_client_certificate
    rw [if_neg hreq, hgen]
    simp only
    have hnogen : ¬ (session.version ≠ Protocol.MHD_GNUTLS_SSL3 ∨
        session.selected_cert_list_length > 0) := by
      rw [h0]
      simp [hv]
    rw [if_neg hnogen, ite_self]
    simp only
    rw [if_pos ⟨hv, h0⟩]
    split <;> rfl
  · intro hother
    have hdogen : session.version ≠ Protocol.MHD_GNUTLS_SSL3 ∨
        session.selected_cert_list_length > 0 := by
      by_cases hv : session.version = Protocol.MHD_GNUTLS_SSL3
      · right
        have : session.selected_cert_list_length ≠ 0 := fun h => hother ⟨hv, h⟩
        omega
      · left
        exact hv
    constructor
    · intro data_size data hagain hout
      unfold mhd_gtls_send_client_certificate
      rw [if_neg hreq, hgen]
      simp only
      rw [if_pos hagain, if_pos hdogen, hout]
      simp only
      rw [if_neg hother]
      unfold send_handshake_then
      split <;> rfl
    · intro hagain
      unfold mhd_gtls_send_client_certificate
      rw [if_neg hreq, hgen]
      simp only
      rw [if_neg hagain]
      simp only
      rw [if_neg hother]
      unfold send_handshake_then
      split <;> rfl

/-- C37, instance: the SSL3 client of the examples with nothing selected sends
the alert; with the chain of the certificate `05 00` selected it sends the
Certificate message `00 00 05 00 00 02 05 00`. -/
theorem client_certificate_or_alert_witness :
    (mhd_gtls_send_client_certificate (io_receiving []) cert_auth
        (asked_client Protocol.MHD_GNUTLS_SSL3 []) 0).2 =
        [HandshakeCall.alert_send AlertLevel.GNUTLS_AL_WARNING
          AlertDescription.GNUTLS_A_SSL3_NO_CERTIFICATE] ∧
      (mhd_gtls_send_client_certificate (io_receiving []) cert_auth
        (asked_client Protocol.MHD_GNUTLS_SSL3 [{ raw := [5, 0] }]) 0).2 =
        [HandshakeCall.send_handshake (some [0, 0, 5, 0, 0, 2, 5, 0]) 8
          HandshakeDescription.GNUTLS_HANDSHAKE_CERTIFICATE_PKT] :=
  ⟨(client_certificate_or_alert (io_receiving []) cert_auth
      (asked_client Protocol.MHD_GNUTLS_SSL3 []) 0 _ (by decide) rfl (by decide)).1 rfl rfl,
    ((client_certificate_or_alert (io_receiving []) cert_auth
      (asked_client Protocol.MHD_GNUTLS_SSL3 [{ raw := [5, 0] }]) 0 _ (by decide) rfl
      (by decide)).2 (by decide)).1 8 (some [0, 0, 5, 0, 0, 2, 5, 0]) rfl (by decide)⟩

/-! ## Termination and the empty issuer-name list -/

/-- C38: `_find_x509_cert` and `get_issuers_num` terminate on every input
buffer: `data_size / 2 + 1` iterations are enough for each loop, since an
iteration that continues consumes at least the 2-byte length field; no read is
outside the buffer, also when the bytes of each name that is compared are read
through a checked access. -/
theorem issuer_loops_terminate (ext : SelectExternals) (cred : cert_credentials)
    (data : Bytes) (pk_algos : List Int) :
    (_find_x509_cert ext cred data pk_algos ≠ Outcome.timeout ∧
        _find_x509_cert ext cred data pk_algos ≠ Outcome.fault ∧
        find_x509_cert_loop_checked ext cred.entries pk_algos data (data.length / 2 + 1) 0
            (data.length : Int) = _find_x509_cert ext cred data pk_algos) ∧
      get_issuers_num data ≠ Outcome.timeout ∧ get_issuers_num data ≠ Outcome.fault := by
  constructor
  · obtain ⟨heq, hret⟩ := find_x509_cert_loop_checked_eq ext cred.entries pk_algos data
      (data.length / 2 + 1) 0 data.length (by omega) (Nat.le_refl _)
    unfold _find_x509_cert
    refine ⟨?_, ?_, heq⟩
    · rcases hret with ⟨o, ho⟩ | ⟨e, he⟩
      · rw [ho]; simp
      · rw [he]; simp
    · rcases hret with ⟨o, ho⟩ | ⟨e, he⟩
      · rw [ho]; simp
      · rw [he]; simp
  · unfold get_issuers_num
    split
    · exact ⟨by simp, by simp⟩
    · rcases get_issuers_num_loop_returns data (data.length / 2 + 1) 0 data.length 0
        (by omega) (Nat.le_refl _) with ⟨k, hk⟩ | ⟨e, he⟩
      · rw [hk]
        exact ⟨by simp, by simp⟩
      · rw [he]
        exact ⟨by simp, by simp⟩

/-- C39: in client heuristic mode, when the peer's issuer-name list is empty
(length 0), `_select_client_cert` selects none and returns 0 for every
credential store, also when the store holds entries whose algorithm the peer
accepts. -/
theorem empty_issuer_list_selects_none (ext : SelectExternals) (session : Session)
    (cred : cert_credentials) (pk_algos : List Int) (hcred : session.cred = some cred)
    (hcb : cred.client_get_cert_callback = none) :
    (_select_client_cert ext session [] pk_algos).1 = Outcome.done () ∧
      (_select_client_cert ext session [] pk_algos).2.selected_cert_list = none ∧
      (_select_client_cert ext session [] pk_algos).2.selected_cert_list_length = 0 ∧
      (_select_client_cert ext session [] pk_algos).2.selected_key = none ∧
      (_select_client_cert ext session [] pk_algos).2.selected_need_free = 0 := by
  have h : _select_client_cert ext session [] pk_algos =
      (Outcome.done (), mhd_gtls_selected_certs_set session none 0 none 0) := by
    unfold _select_client_cert
    simp only [hcred, hcb, ne_eq, not_true_eq_false, if_false, find_x509_cert_empty, ite_self]
  rw [h]
  exact ⟨rfl, selected_certs_set_fields session none 0 none 0⟩

/-- C39, instance: the store holds an RSA entry and the peer accepts RSA, but
the issuer-name list is empty: nothing is selected. -/
theorem empty_issuer_list_selects_none_witness :
    (_select_client_cert select_all (session_with_store Entity.GNUTLS_CLIENT [entry_of 65 0])
        [] [MHD_GNUTLS_PK_RSA]).1 = Outcome.done () ∧
      (_select_client_cert select_all (session_with_store Entity.GNUTLS_CLIENT [entry_of 65 0])
        [] [MHD_GNUTLS_PK_RSA]).2.selected_cert_list = none :=
  have h := empty_issuer_list_selects_none select_all
    (session_with_store Entity.GNUTLS_CLIENT [entry_of 65 0])
    { x509_rdn_sequence := [], entries := [entry_of 65 0] } [MHD_GNUTLS_PK_RSA] rfl rfl
  ⟨h.1, h.2.1⟩

/-! ## Master secret of a resumed session -/

/-- C40: on a resumed session (`internals.resumed` is not `RESUME_FALSE`)
`mhd_gtls_generate_master` returns 0 and changes nothing: the master secret,
the inner secret and the premaster are exactly as they were, whatever
`keep_premaster` is. -/
theorem resumed_session_keeps_secrets (ext : KxExternals) (session : Session)
    (keep_premaster : Int) (hres : session.resumed ≠ ResumableSession.RESUME_FALSE) :
    mhd_gtls_generate_master ext session keep_premaster = (Outcome.done (), session) ∧
      (mhd_gtls_generate_master ext session keep_premaster).2.master_secret =
        session.master_secret ∧
      (mhd_gtls_generate_master ext session keep_premaster).2.inner_secret =
        session.inner_secret ∧
      (mhd_gtls_generate_master ext session keep_premaster).2.PREMASTER =
        session.PREMASTER := by
  have h : mhd_gtls_generate_master ext session keep_premaster = (Outcome.done (), session) := by
    unfold mhd_gtls_generate_master
    rw [if_neg hres]
  rw [h]
  exact ⟨rfl, rfl, rfl, rfl⟩

/-- C40, instance: the TLS 1.0 session of the examples, resumed, with
`keep_premaster` 0: the premaster secret `09 08 07` stays. -/
theorem resumed_session_keeps_secrets_witness :
    (mhd_gtls_generate_master kx_repeat
        { kx_session Protocol.MHD_GNUTLS_TLS1_0 [] [] with
          resumed := ResumableSession.RESUME_TRUE } 0).2.PREMASTER = [9, 8, 7] :=
  (resumed_session_keeps_secrets kx_repeat
    { kx_session Protocol.MHD_GNUTLS_TLS1_0 [] [] with
      resumed := ResumableSession.RESUME_TRUE } 0 (by decide)).2.2.2

end AuthCert
